import Mathlib

/-!
# Adjoint of the implicit time step and the planar collision state force

A shallow embedding of

* `cpp/core/src/fem/planar_collision_state_force.cpp`
  (`PlanarCollisionStateForce::Initialize`, `ForwardForce`, `BackwardForce`), and
* `cpp/core/src/fem/deformable_newton_backward.cpp` (`Deformable::BackwardNewton`).

Conventions of the embedding.

* The scalar type `real` is an arbitrary linearly ordered field `K`; every definition is
  computable and can be run on `ℚ`, the analytic statements are instantiated at `ℝ`.
* A `VectorXr` of run-time size `n` is a function `Fin n → K`; a fixed-size Eigen vector of
  `vertex_dim` entries is `Fin vertex_dim → K`; matrices are `Matrix`. Sizes are part of the
  types, so the one place where the source combines vectors of different sizes is visible.
* A failed `CheckError` aborts the running call with a condition identifier (`Error`).
* Output reference parameters are passed as state: a call returns their contents when it ends
  together with the error raised, if any.
* Square roots (the `norm()` of Eigen) are taken by a function `sqrt : K → K` passed
  explicitly; over `ℝ` it is `Real.sqrt`.
* Collaborators that the two files call but do not define (force evaluators, the frictional
  boundary, the Newton matrix, the linear solvers) are fields of `Deformable`.
-/

namespace DiffPd

open Matrix

/-- Modelled from the spec: `CheckError` (declared in `common/common.h`, which is not among the
sources at hand) aborts the running call with a descriptive condition identifier when its
condition is false. These are the identifiers of the checks of the two source files, named
after their messages. -/
inductive Error where
  /-- Message "Singular normal." -/
  | singularNormal
  /-- Message "Invalid stiffness or cutoff_dist" -/
  | invalidStiffnessOrCutoffDist
  /-- Message "Incompatible dofs and vertex_dim." -/
  | incompatibleDofs
  /-- Message "Inconsistent vector size." -/
  | inconsistentVectorSize
  /-- Message "Unsupported Newton method: " followed by the method name. -/
  | unsupportedMethod (method : String)
  /-- Message "Missing option abs_tol." -/
  | missingAbsTol
  /-- Message "Missing option rel_tol." -/
  | missingRelTol
  /-- Message "Missing option thread_ct." -/
  | missingThreadCt
  /-- Message "Inconsistent q_next." -/
  | inconsistentQNext
  /-- Message "CG solver failed." -/
  | cgSolverFailed
  /-- Message "Cholesky solver failed." -/
  | choleskySolverFailed
  /-- Eigen rejects a coefficient-wise `+=` whose two operands have different sizes. -/
  | eigenSizeMismatch
  deriving DecidableEq

section Vectors

variable {K : Type} [LinearOrderedField K]

/-- The read access `x.segment(vertex_dim * i, vertex_dim)`. -/
def segment {n : ℕ} (vertex_dim : ℕ) (x : Fin n → K) (i : ℕ) : Fin vertex_dim → K :=
  fun j => if h : vertex_dim * i + j.val < n then x ⟨vertex_dim * i + j.val, h⟩ else 0

/-- The assignment `x.segment(vertex_dim * i, vertex_dim) = s`; it is also used, entry by
entry, for a map from degrees of freedom to values. -/
def setSegment {α : Type} {n vertex_dim : ℕ} (x : Fin n → α) (i : ℕ)
    (s : Fin vertex_dim → α) : Fin n → α :=
  fun idx =>
    if h : vertex_dim * i ≤ idx.val ∧ idx.val - vertex_dim * i < vertex_dim then
      s ⟨idx.val - vertex_dim * i, h.2⟩
    else x idx

/-- Eigen `x.norm()`, the square root being supplied by `sqrt`. -/
def vecNorm {n : ℕ} (sqrt : K → K) (x : Fin n → K) : K :=
  sqrt (∑ i, x i * x i)

end Vectors

/-! ## The planar collision state force -/

/-- The members of `PlanarCollisionStateForce<vertex_dim>`: the parameter vector of the base
class `StateForce` (`parameters_ = (stiffness, cutoff_dist)`), and `normal_`, `offset_`,
`nnt_`. -/
structure PlanarCollisionStateForce (K : Type) (vertex_dim : ℕ) where
  parameters : Fin 2 → K
  normal_ : Fin vertex_dim → K
  offset_ : K
  nnt_ : Matrix (Fin vertex_dim) (Fin vertex_dim) K

namespace PlanarCollisionStateForce

variable {K : Type} [LinearOrderedField K] {vertex_dim : ℕ}

/-- The accessor `stiffness()`: entry 0 of the parameter vector. -/
def stiffness (self : PlanarCollisionStateForce K vertex_dim) : K := self.parameters 0

/-- The accessor `cutoff_dist()`: entry 1 of the parameter vector. -/
def cutoff_dist (self : PlanarCollisionStateForce K vertex_dim) : K := self.parameters 1

/-- The value of the literal `1e-5` of line 9. The type `real` is `double`, and the double that
the literal denotes is `5902958103587057 / 2^69`, where `2^69 = 590295810358705651712`; it lies
above `1/100000` by less than `10^-21`. -/
def singularNormalThreshold (K : Type) [LinearOrderedField K] : K :=
  5902958103587057 / 590295810358705651712

/-- The member function `PlanarCollisionStateForce::Initialize`. The object after the call is returned together
with the error raised, if any: the parameters are stored before the two checks run. -/
def Initialize (sqrt : K → K) (self : PlanarCollisionStateForce K vertex_dim)
    (stiffness cutoff_dist : K) (normal : Fin vertex_dim → K) (offset : K) :
    PlanarCollisionStateForce K vertex_dim × Option Error :=
  let self1 : PlanarCollisionStateForce K vertex_dim :=
    { self with parameters := ![stiffness, cutoff_dist] }
  let norm := vecNorm sqrt normal
  if ¬ (norm > singularNormalThreshold K) then (self1, some Error.singularNormal)
  else if ¬ (stiffness > 0 ∧ cutoff_dist > 0) then
    (self1, some Error.invalidStiffnessOrCutoffDist)
  else
    let normal_ : Fin vertex_dim → K := fun i => normal i / norm
    ({ parameters := ![stiffness, cutoff_dist]
       normal_ := normal_
       offset_ := offset / norm
       nnt_ := vecMulVec normal_ normal_ }, none)

/-- The signed distance `d` of vertex `i`, as computed at the head of both loop bodies. -/
def signedDistance (self : PlanarCollisionStateForce K vertex_dim) {n : ℕ} (q : Fin n → K)
    (i : ℕ) : K :=
  dotProduct self.normal_ (segment vertex_dim q i) + self.offset_

/-- One iteration of the loop of `ForwardForce`. -/
def forwardForceStep (self : PlanarCollisionStateForce K vertex_dim) {n : ℕ} (q : Fin n → K)
    (f : Fin n → K) (i : ℕ) : Fin n → K :=
  let d0 := self.cutoff_dist
  let k := self.stiffness
  let k4d0 := k / (4 * d0)
  let d := self.signedDistance q i
  if -d0 ≤ d ∧ d ≤ d0 then setSegment f i ((k4d0 * (d - d0) * (d - d0)) • self.normal_)
  else if d ≤ -d0 then setSegment f i ((-k * d) • self.normal_)
  else f

/-- The member function `PlanarCollisionStateForce::ForwardForce`. -/
def ForwardForce (self : PlanarCollisionStateForce K vertex_dim) {n m : ℕ} (q : Fin n → K)
    (_v : Fin m → K) : Except Error (Fin n → K) :=
  let dofs := n
  if dofs % vertex_dim ≠ 0 then Except.error Error.incompatibleDofs
  else
    let vertex_num := dofs / vertex_dim
    Except.ok ((List.range vertex_num).foldl (self.forwardForceStep q) 0)

/-- The local matrix `df_dq` of the loop body of `BackwardForce`, for signed distance `d`. -/
def df_dq (self : PlanarCollisionStateForce K vertex_dim) (d : K) :
    Matrix (Fin vertex_dim) (Fin vertex_dim) K :=
  let d0 := self.cutoff_dist
  let k := self.stiffness
  let k4d0 := k / (4 * d0)
  if -d0 ≤ d ∧ d ≤ d0 then (k4d0 * 2 * (d - d0)) • self.nnt_
  else if d ≤ -d0 then (-k) • self.nnt_
  else 0

/-- The local matrix `df_dp` of the loop body of `BackwardForce`, for signed distance `d`:
column 0 is the derivative in the stiffness, column 1 the derivative in the cutoff. -/
def df_dp (self : PlanarCollisionStateForce K vertex_dim) (d : K) :
    Matrix (Fin vertex_dim) (Fin 2) K :=
  let d0 := self.cutoff_dist
  let k := self.stiffness
  if -d0 ≤ d ∧ d ≤ d0 then
    Matrix.of fun r c =>
      if c = 0 then 1 / (4 * d0) * (d - d0) * (d - d0) * self.normal_ r
      else (-d / (d0 * d0) * (d - d0) - (d / d0 - 1)) * k / 4 * self.normal_ r
  else if d ≤ -d0 then
    Matrix.of fun r c => if c = 0 then -d * self.normal_ r else 0
  else 0

/-- One iteration of the loop of `BackwardForce`, on the pair `(dl_dq, dl_dp)`. -/
def backwardForceStep (self : PlanarCollisionStateForce K vertex_dim) {n m : ℕ}
    (q : Fin n → K) (dl_df : Fin m → K) (acc : (Fin n → K) × (Fin 2 → K)) (i : ℕ) :
    (Fin n → K) × (Fin 2 → K) :=
  let d := self.signedDistance q i
  (setSegment acc.1 i (mulVec (self.df_dq d) (segment vertex_dim dl_df i)),
   acc.2 + vecMul (segment vertex_dim dl_df i) (self.df_dp d))

/-- The three outputs `dl_dq`, `dl_dv`, `dl_dp` of `BackwardForce`. -/
structure StateForceGradients (K : Type) (n : ℕ) where
  dl_dq : Fin n → K
  dl_dv : Fin n → K
  dl_dp : Fin 2 → K

/-- The member function `PlanarCollisionStateForce::BackwardForce`. Both checks precede every write to the three
output vectors, so a failed call leaves them alone and a completed call determines them. -/
def BackwardForce (self : PlanarCollisionStateForce K vertex_dim) {n nv nf ndf : ℕ}
    (q : Fin n → K) (_v : Fin nv → K) (_f : Fin nf → K) (dl_df : Fin ndf → K) :
    Except Error (StateForceGradients K n) :=
  let dofs := n
  if dofs % vertex_dim ≠ 0 then Except.error Error.incompatibleDofs
  else if ¬ (n = nv ∧ nv = nf ∧ nf = ndf) then Except.error Error.inconsistentVectorSize
  else
    let vertex_num := dofs / vertex_dim
    let r := (List.range vertex_num).foldl (self.backwardForceStep q dl_df) (0, 0)
    Except.ok { dl_dq := r.1, dl_dv := 0, dl_dp := r.2 }

end PlanarCollisionStateForce

/-! ### The scalar profiles of the force law

The blocks written by the two loops are multiples of `normal_` and of `nnt_`; the factors are
named here so that their analytic properties can be stated. -/

section Profiles

variable {K : Type} [LinearOrderedField K]

/-- The factor of `normal_` in the block `ForwardForce` leaves at a vertex of signed
distance `d` (the block keeps its initial zero when no branch is taken). -/
def forceMagnitude (k d0 d : K) : K :=
  if -d0 ≤ d ∧ d ≤ d0 then k / (4 * d0) * (d - d0) * (d - d0)
  else if d ≤ -d0 then -k * d
  else 0

/-- The factor of `nnt_` in `df_dq`. -/
def forceSlope (k d0 d : K) : K :=
  if -d0 ≤ d ∧ d ≤ d0 then k / (4 * d0) * 2 * (d - d0)
  else if d ≤ -d0 then -k
  else 0

/-- The factor of `normal_` in column 0 of `df_dp`. -/
def stiffnessSlope (d0 d : K) : K :=
  if -d0 ≤ d ∧ d ≤ d0 then 1 / (4 * d0) * (d - d0) * (d - d0)
  else if d ≤ -d0 then -d
  else 0

/-- The factor of `normal_` in column 1 of `df_dp`. -/
def cutoffSlope (k d0 d : K) : K :=
  if -d0 ≤ d ∧ d ≤ d0 then (-d / (d0 * d0) * (d - d0) - (d / d0 - 1)) * k / 4
  else 0

end Profiles

/-! ## The adjoint of the implicit time step -/

/-- The errors raised by the precondition checks at the head of `BackwardNewton`
(lines 11-18). -/
def Error.isPrecondition : Error → Bool
  | Error.unsupportedMethod _ => true
  | Error.missingAbsTol => true
  | Error.missingRelTol => true
  | Error.missingThreadCt => true
  | Error.inconsistentQNext => true
  | _ => false

/-- The type `SparseMatrixElements`: a list of triplets `(row, column, value)`. -/
abbrev SparseMatrixElements (K : Type) := List (ℕ × ℕ × K)

section Sparse

variable {K : Type} [LinearOrderedField K]

/-- Modelled from the spec: `ToSparseMatrix` (declared in `common/common.h`, which is not among
the sources at hand) accumulates the `(row, column, value)` contributions into one matrix; the
values of triplets that share a position are summed. -/
def ToSparseMatrix (rows cols : ℕ) (nonzeros : SparseMatrixElements K) :
    Matrix (Fin rows) (Fin cols) K :=
  Matrix.of fun i j =>
    ((nonzeros.filter fun t => t.1 = i.val ∧ t.2.1 = j.val).map fun t => t.2.2).sum

end Sparse

/-- What an Eigen linear solver hands back: the vector returned by `solve` and whether
`info()` is `Eigen::Success`. -/
structure SolveResult (K : Type) (n : ℕ) where
  x : Fin n → K
  success : Bool

/-- The members of `Deformable<vertex_dim, element_dim>` that `BackwardNewton` reads, and the
member functions and library routines it calls. None of the latter is defined in the file at
hand, so each is a field; `dofs_` is `vertex_dim * vertex_num` and `w_dofs` is the number of
projective-dynamics energies. -/
structure Deformable (K : Type) (vertex_dim vertex_num act_dofs w_dofs : ℕ) where
  density_ : K
  cell_volume_ : K
  /-- The member `dirichlet_`, a `std::map<int, real>` keyed by degree of freedom. -/
  dirichlet_ : Fin (vertex_dim * vertex_num) → Option K
  /-- The keys of `frictional_boundary_vertex_indices_`, in iteration order. -/
  frictional_boundary_vertex_indices_ : List (Fin vertex_num)
  ForwardStateForce :
    (Fin (vertex_dim * vertex_num) → K) → (Fin (vertex_dim * vertex_num) → K) →
      (Fin (vertex_dim * vertex_num) → K)
  /-- The call `BackwardStateForce(q, v, f, dl_df, dl_dq, dl_dv)`: the pair `(dl_dq, dl_dv)`. -/
  BackwardStateForce :
    (Fin (vertex_dim * vertex_num) → K) → (Fin (vertex_dim * vertex_num) → K) →
      (Fin (vertex_dim * vertex_num) → K) → (Fin (vertex_dim * vertex_num) → K) →
      (Fin (vertex_dim * vertex_num) → K) × (Fin (vertex_dim * vertex_num) → K)
  ElasticForce : (Fin (vertex_dim * vertex_num) → K) → (Fin (vertex_dim * vertex_num) → K)
  ElasticForceDifferential :
    (Fin (vertex_dim * vertex_num) → K) → (Fin (vertex_dim * vertex_num) → K) →
      (Fin (vertex_dim * vertex_num) → K)
  PdEnergyForce : (Fin (vertex_dim * vertex_num) → K) → (Fin (vertex_dim * vertex_num) → K)
  /-- The call `PdEnergyForceDifferential(q, require_dq, require_dw, nonzeros_q, nonzeros_w)`: the pair
  `(nonzeros_q, nonzeros_w)`. -/
  PdEnergyForceDifferential :
    (Fin (vertex_dim * vertex_num) → K) → Bool → Bool →
      SparseMatrixElements K × SparseMatrixElements K
  /-- The overload `PdEnergyForceDifferential(q, dq, dw)` that returns a vector. -/
  PdEnergyForceDifferentialOp :
    (Fin (vertex_dim * vertex_num) → K) → (Fin (vertex_dim * vertex_num) → K) →
      (Fin w_dofs → K) → (Fin (vertex_dim * vertex_num) → K)
  ActuationForce :
    (Fin (vertex_dim * vertex_num) → K) → (Fin act_dofs → K) →
      (Fin (vertex_dim * vertex_num) → K)
  /-- The call `ActuationForceDifferential(q, a, nonzeros_q, nonzeros_a)`: the pair
  `(nonzeros_q, nonzeros_a)`. -/
  ActuationForceDifferential :
    (Fin (vertex_dim * vertex_num) → K) → (Fin act_dofs → K) →
      SparseMatrixElements K × SparseMatrixElements K
  /-- The call `NewtonMatrix(q_sol, a, h2m, dirichlet_with_friction)`. -/
  NewtonMatrix :
    (Fin (vertex_dim * vertex_num) → K) → (Fin act_dofs → K) → K →
      (Fin (vertex_dim * vertex_num) → Option K) →
      Matrix (Fin (vertex_dim * vertex_num)) (Fin (vertex_dim * vertex_num)) K
  /-- The call `NewtonMatrixOp(q_sol, a, h2m, dirichlet_with_friction, dq)`. -/
  NewtonMatrixOp :
    (Fin (vertex_dim * vertex_num) → K) → (Fin act_dofs → K) → K →
      (Fin (vertex_dim * vertex_num) → Option K) → (Fin (vertex_dim * vertex_num) → K) →
      (Fin (vertex_dim * vertex_num) → K)
  /-- The call `frictional_boundary_->ForwardIntersect(q, v, dt, t_hit)`: `some t_hit` when the call
  returns true. -/
  ForwardIntersect : (Fin vertex_dim → K) → (Fin vertex_dim → K) → K → Option K
  /-- The call `frictional_boundary_->BackwardIntersect(q, v, t_hit, dl_dq_hit, dl_dq, dl_dv)`: the
  pair `(dl_dq, dl_dv)`. -/
  BackwardIntersect :
    (Fin vertex_dim → K) → (Fin vertex_dim → K) → K → (Fin vertex_dim → K) →
      (Fin vertex_dim → K) × (Fin vertex_dim → K)
  /-- The solver `Eigen::ConjugateGradient` with tolerance `tol`, on matrix `op` and right-hand side
  `b`. -/
  ConjugateGradient :
    K → Matrix (Fin (vertex_dim * vertex_num)) (Fin (vertex_dim * vertex_num)) K →
      (Fin (vertex_dim * vertex_num) → K) → SolveResult K (vertex_dim * vertex_num)
  /-- The solver `Eigen::SimplicialLDLT` on matrix `op` and right-hand side `b`. -/
  SimplicialLDLT :
    Matrix (Fin (vertex_dim * vertex_num)) (Fin (vertex_dim * vertex_num)) K →
      (Fin (vertex_dim * vertex_num) → K) → SolveResult K (vertex_dim * vertex_num)

/-- The five output vectors of `BackwardNewton`. -/
structure AdjointOutputs (K : Type) (dofs act_dofs w_dofs : ℕ) where
  dl_dq : Fin dofs → K
  dl_dv : Fin dofs → K
  dl_da : Fin act_dofs → K
  dl_df_ext : Fin dofs → K
  dl_dw : Fin w_dofs → K

/-- The outcome of a call of `BackwardNewton`: the contents of the five output references
when the call ends, and the error that ended it, if any. -/
structure NewtonRun (K : Type) (dofs act_dofs w_dofs : ℕ) where
  out : AdjointOutputs K dofs act_dofs w_dofs
  raised : Option Error

namespace Deformable

variable {K : Type} [LinearOrderedField K] {vertex_dim vertex_num act_dofs w_dofs : ℕ}

/-- The mass `density_ * cell_volume_`. -/
def mass (self : Deformable K vertex_dim vertex_num act_dofs w_dofs) : K :=
  self.density_ * self.cell_volume_

/-- The gradient `dl_dq_next_agg = dl_dq_next + dl_dv_next * inv_dt`. -/
def dl_dq_next_agg {n : ℕ} (dt : K) (dl_dq_next dl_dv_next : Fin n → K) : Fin n → K :=
  dl_dq_next + (1 / dt) • dl_dv_next

/-- The predicted velocity `v_pred`. -/
def v_pred (self : Deformable K vertex_dim vertex_num act_dofs w_dofs)
    (q v : Fin (vertex_dim * vertex_num) → K) (a : Fin act_dofs → K)
    (f_ext : Fin (vertex_dim * vertex_num) → K) (dt : K) :
    Fin (vertex_dim * vertex_num) → K :=
  let hm := dt / self.mass
  v + hm • (f_ext + self.ElasticForce q + self.ForwardStateForce q v + self.PdEnergyForce q
    + self.ActuationForce q a)

/-- The right-hand side `rhs`. -/
def rhs (self : Deformable K vertex_dim vertex_num act_dofs w_dofs)
    (q v f_ext : Fin (vertex_dim * vertex_num) → K) (dt : K) :
    Fin (vertex_dim * vertex_num) → K :=
  let h := dt
  let hm := dt / self.mass
  let h2m := hm * dt
  q + h • v + h2m • f_ext + h2m • self.ForwardStateForce q v

/-- The vector `rhs_dirichlet`: `rhs` with every Dirichlet entry overwritten. -/
def rhs_dirichlet (self : Deformable K vertex_dim vertex_num act_dofs w_dofs)
    (q v f_ext : Fin (vertex_dim * vertex_num) → K) (dt : K) :
    Fin (vertex_dim * vertex_num) → K :=
  fun i =>
    match self.dirichlet_ i with
    | some value => value
    | none => self.rhs q v f_ext dt i

/-- One iteration of the loop that rebuilds the contacts (lines 58-70), on the pair
`(rhs_friction, dirichlet_with_friction)`. -/
def frictionForwardStep (self : Deformable K vertex_dim vertex_num act_dofs w_dofs)
    (q v_pred : Fin (vertex_dim * vertex_num) → K) (dt : K)
    (st : (Fin (vertex_dim * vertex_num) → K) × (Fin (vertex_dim * vertex_num) → Option K))
    (idx : Fin vertex_num) :
    (Fin (vertex_dim * vertex_num) → K) × (Fin (vertex_dim * vertex_num) → Option K) :=
  let qi := segment vertex_dim q idx.val
  let vi := segment vertex_dim v_pred idx.val
  match self.ForwardIntersect qi vi dt with
  | some t_hit =>
    let qi_hit := qi + t_hit • vi
    (setSegment st.1 idx.val qi_hit, setSegment st.2 idx.val fun i => some (qi_hit i))
  | none => st

/-- The pair `(rhs_friction, dirichlet_with_friction)` after the loop of lines 58-70. -/
def frictionForward (self : Deformable K vertex_dim vertex_num act_dofs w_dofs)
    (q v : Fin (vertex_dim * vertex_num) → K) (a : Fin act_dofs → K)
    (f_ext : Fin (vertex_dim * vertex_num) → K) (dt : K) :
    (Fin (vertex_dim * vertex_num) → K) × (Fin (vertex_dim * vertex_num) → Option K) :=
  self.frictional_boundary_vertex_indices_.foldl
    (self.frictionForwardStep q (self.v_pred q v a f_ext dt) dt)
    (self.rhs_dirichlet q v f_ext dt, self.dirichlet_)

/-- The linear solve of lines 72-96 for a supported method: the solver result and the error
to raise when the solver does not report success. -/
def solveAdjoint (self : Deformable K vertex_dim vertex_num act_dofs w_dofs) (sqrt : K → K)
    (method : String) (abs_tol rel_tol : K) (q_next : Fin (vertex_dim * vertex_num) → K)
    (a : Fin act_dofs → K) (h2m : K)
    (dirichlet_with_friction : Fin (vertex_dim * vertex_num) → Option K)
    (dl_dq_next_agg : Fin (vertex_dim * vertex_num) → K) :
    SolveResult K (vertex_dim * vertex_num) × Error :=
  if method = "newton_pcg" then
    let tol := rel_tol + abs_tol / vecNorm sqrt dl_dq_next_agg
    let op := self.NewtonMatrix q_next a h2m dirichlet_with_friction
    (self.ConjugateGradient tol op dl_dq_next_agg, Error.cgSolverFailed)
  else
    let op := self.NewtonMatrix q_next a h2m dirichlet_with_friction
    (self.SimplicialLDLT op dl_dq_next_agg, Error.choleskySolverFailed)

/-- The vector `adjoint_with_zero`. -/
def adjoint_with_zero {n : ℕ} (dirichlet_with_friction : Fin n → Option K)
    (adjoint : Fin n → K) : Fin n → K :=
  fun i => if (dirichlet_with_friction i).isSome then 0 else adjoint i

/-- The vector `dl_drhs_friction` of lines 104-107. -/
def dl_drhs_friction (self : Deformable K vertex_dim vertex_num act_dofs w_dofs)
    (q_next : Fin (vertex_dim * vertex_num) → K) (a : Fin act_dofs → K) (h2m : K)
    (dirichlet_with_friction : Fin (vertex_dim * vertex_num) → Option K)
    (adjoint : Fin (vertex_dim * vertex_num) → K) : Fin (vertex_dim * vertex_num) → K :=
  let dl_drhs_friction_fixed :=
    self.NewtonMatrixOp q_next a h2m (fun _ => none)
      (-adjoint_with_zero dirichlet_with_friction adjoint)
  fun i =>
    if (dirichlet_with_friction i).isSome then adjoint i + dl_drhs_friction_fixed i
    else adjoint i

/-- The state of the loop that reverses the contacts (lines 123-136). -/
structure FrictionBackwardState (K : Type) (n : ℕ) where
  dl_drhs_dirichlet : Fin n → K
  dl_dq : Fin n → K
  dl_dv_pred : Fin n → K

/-- One iteration of the loop of lines 123-136. -/
def frictionBackwardStep (self : Deformable K vertex_dim vertex_num act_dofs w_dofs)
    (q v_pred : Fin (vertex_dim * vertex_num) → K) (dt : K)
    (dl_drhs_friction : Fin (vertex_dim * vertex_num) → K)
    (st : FrictionBackwardState K (vertex_dim * vertex_num)) (idx : Fin vertex_num) :
    FrictionBackwardState K (vertex_dim * vertex_num) :=
  let qi := segment vertex_dim q idx.val
  let vi_pred := segment vertex_dim v_pred idx.val
  match self.ForwardIntersect qi vi_pred dt with
  | some t_hit =>
    let r := self.BackwardIntersect qi vi_pred t_hit (segment vertex_dim dl_drhs_friction idx.val)
    { dl_drhs_dirichlet := setSegment st.dl_drhs_dirichlet idx.val (0 : Fin vertex_dim → K)
      dl_dq := setSegment st.dl_dq idx.val (segment vertex_dim st.dl_dq idx.val + r.1)
      dl_dv_pred :=
        setSegment st.dl_dv_pred idx.val (segment vertex_dim st.dl_dv_pred idx.val + r.2) }
  | none => st

/-- The state after the loop of lines 123-136, which starts from
`dl_drhs_dirichlet = dl_drhs_friction` (line 121), the `dl_dq` written so far and
`dl_dv_pred = 0` (line 122). -/
def frictionBackward (self : Deformable K vertex_dim vertex_num act_dofs w_dofs)
    (q v_pred : Fin (vertex_dim * vertex_num) → K) (dt : K)
    (dl_drhs_friction dl_dq : Fin (vertex_dim * vertex_num) → K) :
    FrictionBackwardState K (vertex_dim * vertex_num) :=
  self.frictional_boundary_vertex_indices_.foldl
    (self.frictionBackwardStep q v_pred dt dl_drhs_friction)
    { dl_drhs_dirichlet := dl_drhs_friction, dl_dq := dl_dq, dl_dv_pred := 0 }

/-- The vector `dl_drhs` of lines 140-141. -/
def dl_drhs (self : Deformable K vertex_dim vertex_num act_dofs w_dofs)
    (dl_drhs_dirichlet : Fin (vertex_dim * vertex_num) → K) :
    Fin (vertex_dim * vertex_num) → K :=
  fun i => if (self.dirichlet_ i).isSome then 0 else dl_drhs_dirichlet i

/-- The body of `Deformable::BackwardNewton` from line 20 on, reached once every precondition
check has passed; `abs_tol` and `rel_tol` are the two options read at lines 15-16. The vectors
written before an abort are kept in the result. -/
def BackwardNewtonSteps (self : Deformable K vertex_dim vertex_num act_dofs w_dofs)
    (sqrt : K → K) (method : String) (q v : Fin (vertex_dim * vertex_num) → K)
    (a : Fin act_dofs → K) (f_ext : Fin (vertex_dim * vertex_num) → K) (dt : K)
    (q_next dl_dq_next dl_dv_next : Fin (vertex_dim * vertex_num) → K) (abs_tol rel_tol : K) :
    NewtonRun K (vertex_dim * vertex_num) act_dofs w_dofs :=
  -- Step 6: v_next = (q_next - q) / dt.
  let h := dt
  let hm := dt / self.mass
  let h2m := hm * dt
  let inv_dt := 1 / dt
  let agg := dl_dq_next_agg dt dl_dq_next dl_dv_next
  let dl_dq1 : Fin (vertex_dim * vertex_num) → K := 0 + inv_dt • (-dl_dv_next)
  -- Step 5: rebuild the forward intermediates and solve.
  let forward_state_force := self.ForwardStateForce q v
  let v_pred := self.v_pred q v a f_ext dt
  let dirichlet_with_friction := (self.frictionForward q v a f_ext dt).2
  let solve :=
    self.solveAdjoint sqrt method abs_tol rel_tol q_next a h2m dirichlet_with_friction agg
  if solve.1.success = false then
    ⟨{ dl_dq := dl_dq1, dl_dv := 0, dl_da := 0, dl_df_ext := 0, dl_dw := 0 }, some solve.2⟩
  else
  let adjoint := solve.1.x
  let adjoint_with_zero := adjoint_with_zero dirichlet_with_friction adjoint
  let dl_drhs_friction := self.dl_drhs_friction q_next a h2m dirichlet_with_friction adjoint
  let nonzeros_a := (self.ActuationForceDifferential q_next a).2
  let dl_da1 : Fin act_dofs → K :=
    0 + h2m • vecMul adjoint_with_zero
      (ToSparseMatrix (vertex_dim * vertex_num) act_dofs nonzeros_a)
  let nonzeros_w := (self.PdEnergyForceDifferential q_next false true).2
  let dl_dw1 : Fin w_dofs → K :=
    0 + h2m • vecMul adjoint_with_zero
      (ToSparseMatrix (vertex_dim * vertex_num) w_dofs nonzeros_w)
  -- Step 4: q, v_pred, rhs_dirichlet -> rhs_friction.
  let st := self.frictional_boundary_vertex_indices_.foldl
    (self.frictionBackwardStep q v_pred dt dl_drhs_friction)
    { dl_drhs_dirichlet := dl_drhs_friction, dl_dq := dl_dq1, dl_dv_pred := 0 }
  let dl_dv_pred := st.dl_dv_pred
  -- Step 3: merge dirichlet.
  let dl_drhs := self.dl_drhs st.dl_drhs_dirichlet
  -- Step 2: rhs = q + h * v + h2m * f_ext + h2m * f_state(q, v).
  let dl_dq2 := st.dl_dq + dl_drhs
  let dl_dv2 : Fin (vertex_dim * vertex_num) → K := 0 + h • dl_drhs
  let dl_df_ext2 : Fin (vertex_dim * vertex_num) → K := 0 + h2m • dl_drhs
  let single := self.BackwardStateForce q v forward_state_force (h2m • dl_drhs)
  let dl_dq3 := dl_dq2 + single.1
  let dl_dv3 := dl_dv2 + single.2
  -- Step 1: v_pred = v + h / m * (f_ext + f_ela(q) + f_state(q, v) + f_pd(q) + f_act(q, a)).
  let dl_dv4 := dl_dv3 + dl_dv_pred
  let dl_df_ext4 := dl_df_ext2 + hm • dl_dv_pred
  -- Line 157: `dl_da += ElasticForceDifferential(q, dl_dv_pred) * hm`. The left operand has
  -- `act_dofs` entries and the right operand `dofs_` entries; Eigen requires equal sizes.
  if hsize : act_dofs = vertex_dim * vertex_num then
    let dl_da5 : Fin act_dofs → K :=
      dl_da1 + fun i => (hm • self.ElasticForceDifferential q dl_dv_pred) (Fin.cast hsize i)
    let single1 := self.BackwardStateForce q v forward_state_force (hm • dl_dv_pred)
    let dl_dq6 := dl_dq3 + single1.1
    let dl_dv6 := dl_dv4 + single1.2
    let nonzeros_w1 := (self.PdEnergyForceDifferential q false true).2
    let dl_dq7 := dl_dq6 + self.PdEnergyForceDifferentialOp q (hm • dl_dv_pred) 0
    let dl_dw7 := dl_dw1
      + hm • vecMul dl_dv_pred (ToSparseMatrix (vertex_dim * vertex_num) w_dofs nonzeros_w1)
    let nonzeros := self.ActuationForceDifferential q a
    let dl_dq8 := dl_dq7
      + hm • vecMul dl_dv_pred
          (ToSparseMatrix (vertex_dim * vertex_num) (vertex_dim * vertex_num) nonzeros.1)
    let dl_da8 := dl_da5
      + hm • vecMul dl_dv_pred (ToSparseMatrix (vertex_dim * vertex_num) act_dofs nonzeros.2)
    ⟨{ dl_dq := dl_dq8, dl_dv := dl_dv6, dl_da := dl_da8, dl_df_ext := dl_df_ext4,
       dl_dw := dl_dw7 }, none⟩
  else
    ⟨{ dl_dq := dl_dq3, dl_dv := dl_dv4, dl_da := dl_da1, dl_df_ext := dl_df_ext4,
       dl_dw := dl_dw1 }, some Error.eigenSizeMismatch⟩

/-- The member function `Deformable::BackwardNewton`. The argument `out` holds the contents of the five output
references on entry; the result holds their contents when the call ends and the error raised,
if any. Lines 11-18 are the precondition checks; the thread count only configures the worker
pool and `v_next` is not read. -/
def BackwardNewton (self : Deformable K vertex_dim vertex_num act_dofs w_dofs) (sqrt : K → K)
    (method : String) (q v : Fin (vertex_dim * vertex_num) → K) (a : Fin act_dofs → K)
    (f_ext : Fin (vertex_dim * vertex_num) → K) (dt : K)
    (q_next _v_next dl_dq_next dl_dv_next : Fin (vertex_dim * vertex_num) → K)
    (options : String → Option K)
    (out : AdjointOutputs K (vertex_dim * vertex_num) act_dofs w_dofs) :
    NewtonRun K (vertex_dim * vertex_num) act_dofs w_dofs :=
  if ¬ (method = "newton_pcg" ∨ method = "newton_cholesky") then
    ⟨out, some (Error.unsupportedMethod method)⟩
  else
  match options "abs_tol" with
  | none => ⟨out, some Error.missingAbsTol⟩
  | some abs_tol =>
  match options "rel_tol" with
  | none => ⟨out, some Error.missingRelTol⟩
  | some rel_tol =>
  match options "thread_ct" with
  | none => ⟨out, some Error.missingThreadCt⟩
  | some _thread_ct =>
  if ¬ (∀ i, self.dirichlet_ i = none ∨ self.dirichlet_ i = some (q_next i)) then
    ⟨out, some Error.inconsistentQNext⟩
  else
    self.BackwardNewtonSteps sqrt method q v a f_ext dt q_next dl_dq_next dl_dv_next
      abs_tol rel_tol

/-- Modelled from the spec: the forward time step, whose solver is not among the sources at
hand. `(q_next, v_next)` is a result of the step when every frozen degree of freedom of
`q_next` is copied from `rhs_friction`, every other one satisfies
`q_next - (dt^2 / m) (f_ela + f_pd + f_act)(q_next, a) = rhs_friction`, and
`v_next = (q_next - q) / dt`. The contact projection and the frozen set are the ones that
`BackwardNewton` rebuilds at lines 48-70. -/
def IsForwardStep (self : Deformable K vertex_dim vertex_num act_dofs w_dofs)
    (q v : Fin (vertex_dim * vertex_num) → K) (a : Fin act_dofs → K)
    (f_ext : Fin (vertex_dim * vertex_num) → K) (dt : K)
    (q_next v_next : Fin (vertex_dim * vertex_num) → K) : Prop :=
  (∀ i,
    if ((self.frictionForward q v a f_ext dt).2 i).isSome then
      q_next i = (self.frictionForward q v a f_ext dt).1 i
    else
      q_next i - dt / self.mass * dt *
          (self.ElasticForce q_next + self.PdEnergyForce q_next + self.ActuationForce q_next a) i
        = (self.frictionForward q v a f_ext dt).1 i) ∧
  v_next = (1 / dt) • (q_next - q)

end Deformable

/-! ## Concrete data used to instantiate the theorems -/

section Examples

open PlanarCollisionStateForce

/-- The same force over the reals. -/
def floorForceReal : PlanarCollisionStateForce ℝ 2 where
  parameters := ![2, 1]
  normal_ := ![0, 1]
  offset_ := 0
  nnt_ := vecMulVec ![0, 1] ![0, 1]

/-- The same three vertices over the reals. -/
def threeVerticesReal : Fin 6 → ℝ := ![5, 0, 7, -3, 1, 2]

/-- Three vertices in space at heights `0`, `-3/10` and `1/5`. -/
def threeHeights (K : Type) [LinearOrderedField K] : Fin 9 → K :=
  ![0, 0, 0, 0, 0, -3 / 10, 0, 0, 1 / 5]

/-- The object of the boundary scenario: stiffness `100`, cutoff `1/10`, the plane `z = 0`. -/
def scenarioForce (K : Type) [LinearOrderedField K] : PlanarCollisionStateForce K 3 where
  parameters := ![100, 1 / 10]
  normal_ := ![0, 0, 1]
  offset_ := 0
  nnt_ := vecMulVec ![0, 0, 1] ![0, 0, 1]

/-- An object on which `Initialize` has not run yet. -/
def blankForce : PlanarCollisionStateForce ℝ 3 where
  parameters := 0
  normal_ := 0
  offset_ := 0
  nnt_ := 0

end Examples

section NewtonExamples

/-- A mesh of four vertices in the plane (one quadrilateral, eight degrees of freedom) with
unit mass, a linear spring `f_ela(q) = -q` as its only force, no Dirichlet constraint, and a
frictional floor `y = 0` under vertex 0. Eight actuation signals exist but the actuation force
vanishes, so the time step does not depend on them. Both linear solvers are exact on the
diagonal Newton matrix of this body. -/
def springBody : Deformable ℚ 2 4 8 0 where
  density_ := 1
  cell_volume_ := 1
  dirichlet_ := fun _ => none
  frictional_boundary_vertex_indices_ := [0]
  ForwardStateForce := fun _ _ => 0
  BackwardStateForce := fun _ _ _ _ => (0, 0)
  ElasticForce := fun q => -q
  ElasticForceDifferential := fun _ dq => -dq
  PdEnergyForce := fun _ => 0
  PdEnergyForceDifferential := fun _ _ _ => ([], [])
  PdEnergyForceDifferentialOp := fun _ _ _ => 0
  ActuationForce := fun _ _ => 0
  ActuationForceDifferential := fun _ _ => ([], [])
  NewtonMatrix := fun _ _ h2m d => Matrix.diagonal fun i => if (d i).isSome then 1 else 1 + h2m
  NewtonMatrixOp := fun _ _ h2m d dq i => if (d i).isSome then dq i else (1 + h2m) * dq i
  ForwardIntersect := fun q v dt => if q 1 + dt * v 1 < 0 then some (-(q 1) / v 1) else none
  BackwardIntersect := fun _ v t g =>
    (![g 0, -(g 0) * v 0 / v 1], ![g 0 * t, -(g 0) * t * v 0 / v 1])
  ConjugateGradient := fun _ op b => ⟨fun i => b i / op i i, true⟩
  SimplicialLDLT := fun op b => ⟨fun i => b i / op i i, true⟩

/-- The body of `springBody` with nine actuation signals, one more than it has degrees of
freedom. -/
def springBodyNineSignals : Deformable ℚ 2 4 9 0 where
  density_ := 1
  cell_volume_ := 1
  dirichlet_ := fun _ => none
  frictional_boundary_vertex_indices_ := [0]
  ForwardStateForce := fun _ _ => 0
  BackwardStateForce := fun _ _ _ _ => (0, 0)
  ElasticForce := fun q => -q
  ElasticForceDifferential := fun _ dq => -dq
  PdEnergyForce := fun _ => 0
  PdEnergyForceDifferential := fun _ _ _ => ([], [])
  PdEnergyForceDifferentialOp := fun _ _ _ => 0
  ActuationForce := fun _ _ => 0
  ActuationForceDifferential := fun _ _ => ([], [])
  NewtonMatrix := fun _ _ h2m d => Matrix.diagonal fun i => if (d i).isSome then 1 else 1 + h2m
  NewtonMatrixOp := fun _ _ h2m d dq i => if (d i).isSome then dq i else (1 + h2m) * dq i
  ForwardIntersect := fun q v dt => if q 1 + dt * v 1 < 0 then some (-(q 1) / v 1) else none
  BackwardIntersect := fun _ v t g =>
    (![g 0, -(g 0) * v 0 / v 1], ![g 0 * t, -(g 0) * t * v 0 / v 1])
  ConjugateGradient := fun _ op b => ⟨fun i => b i / op i i, true⟩
  SimplicialLDLT := fun op b => ⟨fun i => b i / op i i, true⟩

/-- The same body with linear solvers that report failure. -/
def springBodyFailingSolver : Deformable ℚ 2 4 8 0 :=
  { springBody with
    ConjugateGradient := fun _ _ _ => ⟨0, false⟩
    SimplicialLDLT := fun _ _ => ⟨0, false⟩ }

/-- The stiffness of a unit spring between two points on a line: `f_ela(q) = chainStiffness q`. -/
def chainStiffness : Matrix (Fin (1 * 2)) (Fin (1 * 2)) ℚ := !![-1, 1; 1, -1]

/-- Two vertices on a line joined by a unit spring, with unit mass; vertex 0 is held at the
origin by a Dirichlet constraint. The Newton matrix is `1 - h2m * chainStiffness` on the free
rows and columns and the identity on the frozen ones; both linear solvers report success and
return the solution of the pinned system for `h2m = 1`. -/
def chainBody : Deformable ℚ 1 2 0 0 where
  density_ := 1
  cell_volume_ := 1
  dirichlet_ := fun i => if i.val = 0 then some 0 else none
  frictional_boundary_vertex_indices_ := []
  ForwardStateForce := fun _ _ => 0
  BackwardStateForce := fun _ _ _ _ => (0, 0)
  ElasticForce := fun q => chainStiffness.mulVec q
  ElasticForceDifferential := fun _ dq => chainStiffness.mulVec dq
  PdEnergyForce := fun _ => 0
  PdEnergyForceDifferential := fun _ _ _ => ([], [])
  PdEnergyForceDifferentialOp := fun _ _ _ => 0
  ActuationForce := fun _ _ => 0
  ActuationForceDifferential := fun _ _ => ([], [])
  NewtonMatrix := fun _ _ h2m d => Matrix.of fun i j =>
    if (d i).isSome ∨ (d j).isSome then (if i = j then 1 else 0)
    else (1 - h2m • chainStiffness) i j
  NewtonMatrixOp := fun _ _ h2m d dq =>
    (Matrix.of fun i j =>
      if (d i).isSome ∨ (d j).isSome then (if i = j then (1 : ℚ) else 0)
      else (1 - h2m • chainStiffness) i j).mulVec dq
  ForwardIntersect := fun _ _ _ => none
  BackwardIntersect := fun _ _ _ _ => (0, 0)
  ConjugateGradient := fun _ _ b => ⟨![b 0, b 1 / 2], true⟩
  SimplicialLDLT := fun _ b => ⟨![b 0, b 1 / 2], true⟩

/-- The unconstrained Newton operator `1 - h2m * chainStiffness` of `chainBody` for `h2m = 1`. -/
def chainOperator : Matrix (Fin (1 * 2)) (Fin (1 * 2)) ℚ := !![2, -1; -1, 2]

/-- A position of the chain: vertex 0 at the origin, vertex 1 at `1`. -/
def chainQNext : Fin (1 * 2) → ℚ := ![0, 1]

/-- A right-hand side of the adjoint solve of the chain. -/
def chainSeed : Fin (1 * 2) → ℚ := ![3, 4]

/-- The solution of the pinned system of the chain for the right-hand side `chainSeed`. -/
def chainAdjoint : Fin (1 * 2) → ℚ := ![3, 2]

/-- The spring body with its last degree of freedom held at zero by a Dirichlet constraint:
it has both a Dirichlet index, 7, and a vertex in contact, vertex 0. -/
def pinnedSpringBody : Deformable ℚ 2 4 8 0 :=
  { springBody with dirichlet_ := fun i => if i.val = 7 then some 0 else none }

/-- The frozen set of `pinnedSpringBody` for the step from `springQ` with velocity `springV`:
the contact point `(1/2, 0)` on the block of vertex 0 and the prescribed value on index 7. -/
def pinnedFrozen : Fin (2 * 4) → Option ℚ :=
  ![some (1 / 2), some 0, none, none, none, none, none, some 0]

/-- Position: vertex 0 one unit above the floor, the other vertices at the origin. -/
def springQ : Fin (2 * 4) → ℚ := ![0, 1, 0, 0, 0, 0, 0, 0]

/-- Velocity: vertex 0 moves right and down. -/
def springV : Fin (2 * 4) → ℚ := ![1, -1, 0, 0, 0, 0, 0, 0]

/-- The forward result: vertex 0 lands on the floor at `(1/2, 0)`. -/
def springQNext : Fin (2 * 4) → ℚ := ![1 / 2, 0, 0, 0, 0, 0, 0, 0]

/-- The velocity `(q_next - q) / dt` for `dt = 1`. -/
def springVNext : Fin (2 * 4) → ℚ := ![1 / 2, -1, 0, 0, 0, 0, 0, 0]

/-- The seed `dl_dq_next`: the loss is the first coordinate of `q_next`. -/
def springSeed : Fin (2 * 4) → ℚ := ![1, 0, 0, 0, 0, 0, 0, 0]

/-- A mesh of four vertices in the plane with unit mass on which every force evaluator and
every force differential returns zero: the Newton matrix is the identity and both linear
solvers return the right-hand side. Degree of freedom 0 is prescribed by a Dirichlet
constraint, no vertex is on a frictional boundary, and there are nine actuation signals. -/
def forceFreeBody : Deformable ℚ 2 4 9 0 where
  density_ := 1
  cell_volume_ := 1
  dirichlet_ := fun i => if i.val = 0 then some 0 else none
  frictional_boundary_vertex_indices_ := []
  ForwardStateForce := fun _ _ => 0
  BackwardStateForce := fun _ _ _ _ => (0, 0)
  ElasticForce := fun _ => 0
  ElasticForceDifferential := fun _ _ => 0
  PdEnergyForce := fun _ => 0
  PdEnergyForceDifferential := fun _ _ _ => ([], [])
  PdEnergyForceDifferentialOp := fun _ _ _ => 0
  ActuationForce := fun _ _ => 0
  ActuationForceDifferential := fun _ _ => ([], [])
  NewtonMatrix := fun _ _ _ _ => 1
  NewtonMatrixOp := fun _ _ _ _ dq => dq
  ForwardIntersect := fun _ _ _ => none
  BackwardIntersect := fun _ _ _ _ => (0, 0)
  ConjugateGradient := fun _ _ b => ⟨b, true⟩
  SimplicialLDLT := fun _ b => ⟨b, true⟩

/-- The same force-free body with eight actuation signals, as many as degrees of freedom. -/
def forceFreeBodyEightSignals : Deformable ℚ 2 4 8 0 where
  density_ := 1
  cell_volume_ := 1
  dirichlet_ := fun i => if i.val = 0 then some 0 else none
  frictional_boundary_vertex_indices_ := []
  ForwardStateForce := fun _ _ => 0
  BackwardStateForce := fun _ _ _ _ => (0, 0)
  ElasticForce := fun _ => 0
  ElasticForceDifferential := fun _ _ => 0
  PdEnergyForce := fun _ => 0
  PdEnergyForceDifferential := fun _ _ _ => ([], [])
  PdEnergyForceDifferentialOp := fun _ _ _ => 0
  ActuationForce := fun _ _ => 0
  ActuationForceDifferential := fun _ _ => ([], [])
  NewtonMatrix := fun _ _ _ _ => 1
  NewtonMatrixOp := fun _ _ _ _ dq => dq
  ForwardIntersect := fun _ _ _ => none
  BackwardIntersect := fun _ _ _ _ => (0, 0)
  ConjugateGradient := fun _ _ b => ⟨b, true⟩
  SimplicialLDLT := fun _ b => ⟨b, true⟩

/-- The result of the force-free step from `springQ` with velocity `springV`, no external force
and `dt = 1`: `q + dt v` with degree of freedom 0 overwritten by its prescribed value. -/
def forceFreeQNext : Fin (2 * 4) → ℚ := ![0, 0, 0, 0, 0, 0, 0, 0]

/-- The velocity `(q_next - q) / dt` of that step. -/
def forceFreeVNext : Fin (2 * 4) → ℚ := ![0, -1, 0, 0, 0, 0, 0, 0]

/-- A seed `dl_dq_next` for the force-free step. -/
def forceFreeSeedQ : Fin (2 * 4) → ℚ := ![1, 2, 3, 0, 0, 0, 0, 0]

/-- A seed `dl_dv_next` for the force-free step. -/
def forceFreeSeedV : Fin (2 * 4) → ℚ := ![4, 5, 0, 6, 0, 0, 0, 0]

/-- Two vertices on a line with the light mass `1/500`; vertex 1 is tied to the origin by a
unit spring, `f_ela(q) = (0, -q 1)`, so the Newton matrix is the diagonal matrix with entries
`1` and `1 + h2m`. The direct solver is exact. The conjugate-gradient routine stops early: it
returns the exact solution plus `tol / 2` in entry 0, which leaves the residual `(tol / 2, 0)`
and, for a right-hand side of norm 1, the relative residual `tol / 2`. -/
def stiffBody : Deformable ℚ 1 2 2 0 where
  density_ := 1 / 500
  cell_volume_ := 1
  dirichlet_ := fun _ => none
  frictional_boundary_vertex_indices_ := []
  ForwardStateForce := fun _ _ => 0
  BackwardStateForce := fun _ _ _ _ => (0, 0)
  ElasticForce := fun q => ![0, -(q 1)]
  ElasticForceDifferential := fun _ dq => ![0, -(dq 1)]
  PdEnergyForce := fun _ => 0
  PdEnergyForceDifferential := fun _ _ _ => ([], [])
  PdEnergyForceDifferentialOp := fun _ _ _ => 0
  ActuationForce := fun _ _ => 0
  ActuationForceDifferential := fun _ _ => ([], [])
  NewtonMatrix := fun _ _ h2m d => Matrix.diagonal fun i =>
    if (d i).isSome then 1 else if i.val = 1 then 1 + h2m else 1
  NewtonMatrixOp := fun _ _ h2m d dq i =>
    (if (d i).isSome then 1 else if i.val = 1 then 1 + h2m else 1) * dq i
  ForwardIntersect := fun _ _ _ => none
  BackwardIntersect := fun _ _ _ _ => (0, 0)
  ConjugateGradient := fun tol op b =>
    ⟨fun i => b i / op i i + (if i.val = 0 then tol / 2 else 0), true⟩
  SimplicialLDLT := fun op b => ⟨fun i => b i / op i i, true⟩

/-- A seed `dl_dq_next` of norm 1 for `stiffBody`: the loss is the position of vertex 1. -/
def stiffSeed : Fin (1 * 2) → ℚ := ![0, 1]

/-- A complete option bundle. -/
def fullOptions : String → Option ℚ := fun s =>
  if s = "abs_tol" then some (1 / 1000000)
  else if s = "rel_tol" then some (1 / 1000000)
  else if s = "thread_ct" then some 1
  else none

/-- Output references that hold zeros on entry. -/
def zeroOutputs (dofs act_dofs w_dofs : ℕ) : AdjointOutputs ℚ dofs act_dofs w_dofs where
  dl_dq := 0
  dl_dv := 0
  dl_da := 0
  dl_df_ext := 0
  dl_dw := 0

end NewtonExamples

/-! ## Theorems -/

section VectorLemmas

variable {K : Type} [LinearOrderedField K]

theorem block_iff {vd i idx : ℕ} (hvd : 0 < vd) :
    (vd * i ≤ idx ∧ idx - vd * i < vd) ↔ idx / vd = i := by
  constructor
  · rintro ⟨h1, h2⟩
    apply Nat.div_eq_of_lt_le
    · rw [Nat.mul_comm]; exact h1
    · rw [Nat.succ_mul, Nat.mul_comm]; omega
  · rintro rfl
    have h := Nat.div_add_mod idx vd
    have h2 := Nat.mod_lt idx hvd
    constructor <;> omega

theorem block_div {vd i : ℕ} (j : Fin vd) : (vd * i + j.val) / vd = i := by
  have hvd : 0 < vd := Nat.lt_of_le_of_lt (Nat.zero_le _) j.isLt
  rw [Nat.add_comm, Nat.add_mul_div_left _ _ hvd, Nat.div_eq_of_lt j.isLt, Nat.zero_add]

theorem block_mod {vd i : ℕ} (j : Fin vd) : (vd * i + j.val) % vd = j.val := by
  rw [Nat.add_comm, Nat.add_mul_mod_self_left, Nat.mod_eq_of_lt j.isLt]

theorem segment_apply {n vd : ℕ} (x : Fin n → K) (i : ℕ) (j : Fin vd)
    (h : vd * i + j.val < n) : segment vd x i j = x ⟨vd * i + j.val, h⟩ := by
  simp [segment, h]

omit [LinearOrderedField K] in
theorem setSegment_apply {α : Type} {n vd : ℕ} (x : Fin n → α) (i : ℕ) (s : Fin vd → α)
    (idx : Fin n)
    (hvd : 0 < vd) :
    setSegment x i s idx
      = if idx.val / vd = i then s ⟨idx.val % vd, Nat.mod_lt _ hvd⟩ else x idx := by
  unfold setSegment
  by_cases h : idx.val / vd = i
  · have h' := (@block_iff vd i idx.val hvd).2 h
    rw [dif_pos h', if_pos h]
    congr 1
    apply Fin.ext
    have := Nat.div_add_mod idx.val vd
    subst h
    simp only
    omega
  · have h' : ¬ (vd * i ≤ idx.val ∧ idx.val - vd * i < vd) := fun hh => h ((block_iff hvd).1 hh)
    rw [dif_neg h', if_neg h]

end VectorLemmas

namespace PlanarCollisionStateForce

variable {K : Type} [LinearOrderedField K] {vertex_dim : ℕ}

/-- One iteration of the forward loop, read at a single index. -/
theorem forwardForceStep_apply (self : PlanarCollisionStateForce K vertex_dim) {n : ℕ}
    (q f : Fin n → K) (i : ℕ) (idx : Fin n) (hvd : 0 < vertex_dim) :
    self.forwardForceStep q f i idx
      = if idx.val / vertex_dim = i ∧
            ((-self.cutoff_dist ≤ self.signedDistance q i ∧
                self.signedDistance q i ≤ self.cutoff_dist) ∨
              self.signedDistance q i ≤ -self.cutoff_dist) then
          forceMagnitude self.stiffness self.cutoff_dist (self.signedDistance q i)
            * self.normal_ ⟨idx.val % vertex_dim, Nat.mod_lt _ hvd⟩
        else f idx := by
  unfold forwardForceStep forceMagnitude
  by_cases h1 : -self.cutoff_dist ≤ self.signedDistance q i ∧
      self.signedDistance q i ≤ self.cutoff_dist
  · have h3 := Or.inl (b := self.signedDistance q i ≤ -self.cutoff_dist) h1
    simp only [if_pos h1, setSegment_apply _ _ _ _ hvd, h3, and_true, Pi.smul_apply,
      smul_eq_mul]
  · by_cases h2 : self.signedDistance q i ≤ -self.cutoff_dist
    · have h3 := Or.inr (a := -self.cutoff_dist ≤ self.signedDistance q i ∧
        self.signedDistance q i ≤ self.cutoff_dist) h2
      simp only [if_neg h1, if_pos h2, setSegment_apply _ _ _ _ hvd, h3, and_true,
        Pi.smul_apply, smul_eq_mul]
    · have h3 : ¬ ((-self.cutoff_dist ≤ self.signedDistance q i ∧
          self.signedDistance q i ≤ self.cutoff_dist) ∨
          self.signedDistance q i ≤ -self.cutoff_dist) := fun h => h.elim h1 h2
      simp only [if_neg h1, if_neg h2, h3, and_false, if_false]

/-- The forward loop over an arbitrary list of vertices, read at a single index. -/
theorem foldl_forwardForceStep (self : PlanarCollisionStateForce K vertex_dim) {n : ℕ}
    (q : Fin n → K) (hvd : 0 < vertex_dim) (l : List ℕ) (f : Fin n → K) (idx : Fin n) :
    l.foldl (self.forwardForceStep q) f idx
      = if idx.val / vertex_dim ∈ l ∧
            ((-self.cutoff_dist ≤ self.signedDistance q (idx.val / vertex_dim) ∧
                self.signedDistance q (idx.val / vertex_dim) ≤ self.cutoff_dist) ∨
              self.signedDistance q (idx.val / vertex_dim) ≤ -self.cutoff_dist) then
          forceMagnitude self.stiffness self.cutoff_dist
              (self.signedDistance q (idx.val / vertex_dim))
            * self.normal_ ⟨idx.val % vertex_dim, Nat.mod_lt _ hvd⟩
        else f idx := by
  induction l generalizing f with
  | nil => simp
  | cons a l ih =>
    rw [List.foldl_cons, ih, forwardForceStep_apply _ _ _ _ _ hvd]
    by_cases ha : idx.val / vertex_dim = a
    · subst ha
      by_cases hl : idx.val / vertex_dim ∈ l
      · simp only [hl, true_and, List.mem_cons, true_or]
        split_ifs <;> rfl
      · simp [hl]
    · have ha' : ¬ a = idx.val / vertex_dim := fun h => ha h.symm
      simp [ha, List.mem_cons, ha']

/-- The value of `ForwardForce`: every entry is the force magnitude at the signed distance of
its vertex times the matching entry of `normal_`. -/
theorem ForwardForce_eq (self : PlanarCollisionStateForce K vertex_dim) {n m : ℕ}
    (q : Fin n → K) (v : Fin m → K) (hvd : 0 < vertex_dim) (hn : n % vertex_dim = 0) :
    self.ForwardForce q v = Except.ok (fun idx =>
      forceMagnitude self.stiffness self.cutoff_dist
          (self.signedDistance q (idx.val / vertex_dim))
        * self.normal_ ⟨idx.val % vertex_dim, Nat.mod_lt _ hvd⟩) := by
  unfold ForwardForce
  simp only [hn, ne_eq, not_true_eq_false, if_false]
  congr 1
  funext idx
  rw [foldl_forwardForceStep _ _ hvd]
  have hlt : idx.val / vertex_dim < n / vertex_dim := by
    apply Nat.div_lt_of_lt_mul
    rw [Nat.mul_div_cancel' (Nat.dvd_of_mod_eq_zero hn)]
    exact idx.isLt
  simp only [List.mem_range, hlt, true_and, Pi.zero_apply]
  split_ifs with h
  · rfl
  · unfold forceMagnitude
    rw [not_or] at h
    simp [h.1, h.2]

end PlanarCollisionStateForce

namespace PlanarCollisionStateForce

variable {K : Type} [LinearOrderedField K] {vertex_dim : ℕ}

/-- The force magnitude written with the half-open regimes of the specification. -/
theorem forceMagnitude_halfOpen (k d0 d : K) (hd0 : 0 < d0) :
    forceMagnitude k d0 d
      = if d0 ≤ d then 0
        else if -d0 ≤ d then k / (4 * d0) * (d - d0) ^ 2
        else -k * d := by
  unfold forceMagnitude
  by_cases h1 : d0 ≤ d
  · rw [if_pos h1]
    by_cases h2 : d ≤ d0
    · have h3 : d = d0 := le_antisymm h2 h1
      have h4 : -d0 ≤ d := by linarith
      rw [if_pos ⟨h4, h2⟩, h3]; ring
    · have h5 : ¬ d ≤ -d0 := by
        intro h; apply h2; linarith
      rw [if_neg (fun h => h2 h.2), if_neg h5]
  · rw [if_neg h1]
    have h2 : d ≤ d0 := le_of_lt (lt_of_not_le h1)
    by_cases h3 : -d0 ≤ d
    · rw [if_pos ⟨h3, h2⟩, if_pos h3]; ring
    · rw [if_neg (fun h => h3 h.1), if_neg h3, if_pos (le_of_lt (lt_of_not_le h3))]

end PlanarCollisionStateForce

section Gluing

/-- Two differentiable branches that agree in value and slope at `a` glue to a differentiable
function. -/
theorem hasDerivAt_ite_le (g h g' h' : ℝ → ℝ) (a : ℝ)
    (hg : ∀ x, x ≤ a → HasDerivAt g (g' x) x) (hh : ∀ x, a ≤ x → HasDerivAt h (h' x) x)
    (hv : g a = h a) (hd : g' a = h' a) (x : ℝ) :
    HasDerivAt (fun y => if y ≤ a then g y else h y) (if x ≤ a then g' x else h' x) x := by
  rcases lt_trichotomy x a with hx | hx | hx
  · rw [if_pos hx.le]
    refine (hg x hx.le).congr_of_eventuallyEq ?_
    filter_upwards [gt_mem_nhds hx] with y hy
    rw [if_pos (le_of_lt hy)]
  · subst hx
    rw [if_pos le_rfl, ← hasDerivWithinAt_univ, ← Set.Iic_union_Ici (a := x)]
    apply HasDerivWithinAt.union
    · refine (hg x le_rfl).hasDerivWithinAt.congr (fun y hy => ?_) ?_
      · rw [if_pos (Set.mem_Iic.1 hy)]
      · rw [if_pos le_rfl]
    · rw [hd]
      refine (hh x le_rfl).hasDerivWithinAt.congr (fun y hy => ?_) ?_
      · rcases eq_or_lt_of_le (Set.mem_Ici.1 hy) with h1 | h1
        · rw [← h1, if_pos le_rfl, hv]
        · rw [if_neg (not_le.2 h1)]
      · rw [if_pos le_rfl, hv]
  · rw [if_neg (not_le.2 hx)]
    refine (hh x hx.le).congr_of_eventuallyEq ?_
    filter_upwards [lt_mem_nhds hx] with y hy
    rw [if_neg (not_le.2 hy)]

end Gluing

section ProfileLemmas

variable {K : Type} [LinearOrderedField K]

/-- The force magnitude, the linear branch tested first. -/
theorem forceMagnitude_nested (k d0 d : K) (hd0 : 0 < d0) :
    forceMagnitude k d0 d
      = if d ≤ -d0 then -k * d
        else if d ≤ d0 then k / (4 * d0) * (d - d0) * (d - d0) else 0 := by
  unfold forceMagnitude
  have hne : d0 ≠ 0 := ne_of_gt hd0
  by_cases h1 : d ≤ -d0
  · rw [if_pos h1]
    by_cases h2 : -d0 ≤ d
    · have h3 : d = -d0 := le_antisymm h1 h2
      have h4 : d ≤ d0 := by linarith
      rw [if_pos ⟨h2, h4⟩, h3]
      field_simp
      ring
    · rw [if_neg (fun h => h2 h.1), if_pos h1]
  · rw [if_neg h1, if_neg h1]
    have h2 : -d0 ≤ d := le_of_lt (lt_of_not_le h1)
    by_cases h3 : d ≤ d0
    · rw [if_pos ⟨h2, h3⟩, if_pos h3]
    · rw [if_neg (fun h => h3 h.2), if_neg h3]

/-- The force slope, the linear branch tested first. -/
theorem forceSlope_nested (k d0 d : K) (hd0 : 0 < d0) :
    forceSlope k d0 d
      = if d ≤ -d0 then -k
        else if d ≤ d0 then k / (4 * d0) * 2 * (d - d0) else 0 := by
  unfold forceSlope
  have hne : d0 ≠ 0 := ne_of_gt hd0
  by_cases h1 : d ≤ -d0
  · rw [if_pos h1]
    by_cases h2 : -d0 ≤ d
    · have h3 : d = -d0 := le_antisymm h1 h2
      have h4 : d ≤ d0 := by linarith
      rw [if_pos ⟨h2, h4⟩, h3]
      field_simp
      ring
    · rw [if_neg (fun h => h2 h.1), if_pos h1]
  · rw [if_neg h1, if_neg h1]
    have h2 : -d0 ≤ d := le_of_lt (lt_of_not_le h1)
    by_cases h3 : d ≤ d0
    · rw [if_pos ⟨h2, h3⟩, if_pos h3]
    · rw [if_neg (fun h => h3 h.2), if_neg h3]

end ProfileLemmas

section ProfileCalculus

/-- The quadratic branch and its slope. -/
theorem hasDerivAt_quadratic (k d0 x : ℝ) :
    HasDerivAt (fun y : ℝ => k / (4 * d0) * (y - d0) * (y - d0))
      (k / (4 * d0) * 2 * (x - d0)) x := by
  have h1 : HasDerivAt (fun y : ℝ => y - d0) 1 x := (hasDerivAt_id x).sub_const d0
  have h2 := (h1.const_mul (k / (4 * d0))).mul h1
  convert h2 using 1
  ring

/-- The force magnitude is differentiable everywhere, with slope `forceSlope`. -/
theorem hasDerivAt_forceMagnitude (k d0 : ℝ) (hd0 : 0 < d0) (d : ℝ) :
    HasDerivAt (forceMagnitude k d0) (forceSlope k d0 d) d := by
  have hne : d0 ≠ 0 := ne_of_gt hd0
  have hfun : forceMagnitude k d0 = fun y => if y ≤ -d0 then -k * y
      else if y ≤ d0 then k / (4 * d0) * (y - d0) * (y - d0) else 0 := by
    funext y
    exact forceMagnitude_nested k d0 y hd0
  have hle : -d0 ≤ d0 := by linarith
  have inner : ∀ x, HasDerivAt
      (fun z : ℝ => if z ≤ d0 then k / (4 * d0) * (z - d0) * (z - d0) else 0)
      (if x ≤ d0 then k / (4 * d0) * 2 * (x - d0) else 0) x := by
    intro x
    refine hasDerivAt_ite_le (fun z => k / (4 * d0) * (z - d0) * (z - d0)) (fun _ => (0 : ℝ))
      (fun z => k / (4 * d0) * 2 * (z - d0)) (fun _ => (0 : ℝ)) d0 ?_ ?_ ?_ ?_ x
    · intro y _
      exact hasDerivAt_quadratic k d0 y
    · intro y _
      exact hasDerivAt_const y (0 : ℝ)
    · simp
    · simp
  have key := hasDerivAt_ite_le (fun y => -k * y)
    (fun z : ℝ => if z ≤ d0 then k / (4 * d0) * (z - d0) * (z - d0) else 0) (fun _ => -k)
    (fun z : ℝ => if z ≤ d0 then k / (4 * d0) * 2 * (z - d0) else 0) (-d0)
    (fun x _ => by simpa using (hasDerivAt_id x).const_mul (-k))
    (fun x _ => inner x)
    (by simp only [if_pos hle]; field_simp; ring)
    (by simp only [if_pos hle]; field_simp; ring) d
  rw [hfun, forceSlope_nested k d0 d hd0]
  exact key

/-- The force magnitude is continuous. -/
theorem continuous_forceMagnitude (k d0 : ℝ) (hd0 : 0 < d0) :
    Continuous (forceMagnitude k d0) :=
  continuous_iff_continuousAt.2 fun d => (hasDerivAt_forceMagnitude k d0 hd0 d).continuousAt

/-- The force slope is continuous. -/
theorem continuous_forceSlope (k d0 : ℝ) (hd0 : 0 < d0) :
    Continuous (forceSlope k d0) := by
  have hne : d0 ≠ 0 := ne_of_gt hd0
  have hfun : forceSlope k d0 = fun y => if y ≤ -d0 then -k
      else if y ≤ d0 then k / (4 * d0) * 2 * (y - d0) else 0 := by
    funext y
    exact forceSlope_nested k d0 y hd0
  rw [hfun]
  refine Continuous.if_le continuous_const ?_ continuous_id continuous_const ?_
  · refine Continuous.if_le ?_ continuous_const continuous_id continuous_const ?_
    · exact continuous_const.mul (continuous_id.sub continuous_const)
    · intro x hx
      simp only [id] at hx
      rw [hx]; ring
  · intro x hx
    simp only [id] at hx
    have h : x ≤ d0 := by rw [hx]; linarith
    rw [if_pos h, hx]
    field_simp
    ring

end ProfileCalculus

namespace PlanarCollisionStateForce

variable {K : Type} [LinearOrderedField K] {vertex_dim : ℕ}

/-- The matrix `df_dq` is the force slope times `nnt_`. -/
theorem df_dq_eq (self : PlanarCollisionStateForce K vertex_dim) (d : K) :
    self.df_dq d = forceSlope self.stiffness self.cutoff_dist d • self.nnt_ := by
  unfold df_dq forceSlope
  by_cases h1 : -self.cutoff_dist ≤ d ∧ d ≤ self.cutoff_dist
  · simp only [if_pos h1]
  · by_cases h2 : d ≤ -self.cutoff_dist
    · simp only [if_neg h1, if_pos h2]
    · simp only [if_neg h1, if_neg h2, zero_smul]

/-- Column 0 of `df_dp` is the stiffness slope times `normal_`, column 1 the cutoff slope times
`normal_`. -/
theorem df_dp_eq (self : PlanarCollisionStateForce K vertex_dim) (d : K) (r : Fin vertex_dim) :
    self.df_dp d r 0 = stiffnessSlope self.cutoff_dist d * self.normal_ r ∧
    self.df_dp d r 1 = cutoffSlope self.stiffness self.cutoff_dist d * self.normal_ r := by
  unfold df_dp stiffnessSlope cutoffSlope
  by_cases h1 : -self.cutoff_dist ≤ d ∧ d ≤ self.cutoff_dist
  · simp [if_pos h1]
  · by_cases h2 : d ≤ -self.cutoff_dist
    · simp [if_neg h1, if_pos h2]
    · simp [if_neg h1, if_neg h2]

/-- The sum of a list of values indexed by `List.range` is a sum over `Finset.range`. -/
theorem sum_map_range {M : Type} [AddCommMonoid M] (g : ℕ → M) (N : ℕ) :
    ((List.range N).map g).sum = ∑ i in Finset.range N, g i := by
  induction N with
  | zero => simp
  | succ N ih => rw [List.range_succ, List.map_append, List.sum_append, ih,
      Finset.sum_range_succ]; simp

/-- The backward loop over an arbitrary list of vertices: the entries of `dl_dq`. -/
theorem foldl_backwardForceStep_fst (self : PlanarCollisionStateForce K vertex_dim)
    {n m : ℕ} (q : Fin n → K) (dl_df : Fin m → K) (hvd : 0 < vertex_dim) (l : List ℕ)
    (acc : (Fin n → K) × (Fin 2 → K)) (idx : Fin n) :
    (l.foldl (self.backwardForceStep q dl_df) acc).1 idx
      = if idx.val / vertex_dim ∈ l then
          mulVec (self.df_dq (self.signedDistance q (idx.val / vertex_dim)))
            (segment vertex_dim dl_df (idx.val / vertex_dim))
            ⟨idx.val % vertex_dim, Nat.mod_lt _ hvd⟩
        else acc.1 idx := by
  induction l generalizing acc with
  | nil => simp
  | cons a l ih =>
    rw [List.foldl_cons, ih]
    by_cases hl : idx.val / vertex_dim ∈ l
    · simp [hl]
    · by_cases ha : idx.val / vertex_dim = a
      · subst ha
        simp [hl, backwardForceStep, setSegment_apply _ _ _ _ hvd]
      · have ha' : ¬ a = idx.val / vertex_dim := fun h => ha h.symm
        simp [hl, ha, backwardForceStep, setSegment_apply _ _ _ _ hvd]

/-- The backward loop over an arbitrary list of vertices: the accumulator `dl_dp`. -/
theorem foldl_backwardForceStep_snd (self : PlanarCollisionStateForce K vertex_dim)
    {n m : ℕ} (q : Fin n → K) (dl_df : Fin m → K) (l : List ℕ)
    (acc : (Fin n → K) × (Fin 2 → K)) :
    (l.foldl (self.backwardForceStep q dl_df) acc).2
      = acc.2 + (l.map fun i =>
          vecMul (segment vertex_dim dl_df i) (self.df_dp (self.signedDistance q i))).sum := by
  induction l generalizing acc with
  | nil => simp
  | cons a l ih =>
    rw [List.foldl_cons, ih]
    simp [backwardForceStep, add_assoc]

/-- The value of `BackwardForce` on four vectors of one length, a multiple of `vertex_dim`. -/
theorem BackwardForce_eq (self : PlanarCollisionStateForce K vertex_dim) {n : ℕ}
    (q v f dl_df : Fin n → K) (hvd : 0 < vertex_dim) (hn : n % vertex_dim = 0) :
    self.BackwardForce q v f dl_df = Except.ok
      { dl_dq := fun idx =>
          mulVec (self.df_dq (self.signedDistance q (idx.val / vertex_dim)))
            (segment vertex_dim dl_df (idx.val / vertex_dim))
            ⟨idx.val % vertex_dim, Nat.mod_lt _ hvd⟩
        dl_dv := 0
        dl_dp := ∑ i in Finset.range (n / vertex_dim),
          vecMul (segment vertex_dim dl_df i) (self.df_dp (self.signedDistance q i)) } := by
  unfold BackwardForce
  simp only [hn, ne_eq, not_true_eq_false, if_false, and_self, not_true_eq_false]
  congr 2
  · funext idx
    rw [foldl_backwardForceStep_fst _ _ _ hvd]
    have hlt : idx.val / vertex_dim < n / vertex_dim := by
      apply Nat.div_lt_of_lt_mul
      rw [Nat.mul_div_cancel' (Nat.dvd_of_mod_eq_zero hn)]
      exact idx.isLt
    simp [hlt]
  · rw [foldl_backwardForceStep_snd, sum_map_range]
    simp

/-- The product of `n n^T` with a vector. -/
theorem vecMulVec_mulVec {n : ℕ} (a b c : Fin n → K) :
    mulVec (vecMulVec a b) c = dotProduct b c • a := by
  funext i
  simp only [mulVec, dotProduct, vecMulVec_apply, Pi.smul_apply, smul_eq_mul, Finset.sum_mul]
  apply Finset.sum_congr rfl
  intro j _
  ring

end PlanarCollisionStateForce

namespace PlanarCollisionStateForce

/-- The block that `ForwardForce` leaves at vertex `i` is the force magnitude at the signed
distance of the vertex times `normal_`. -/
theorem ForwardForce_block {K : Type} [LinearOrderedField K] {vertex_dim : ℕ}
    (self : PlanarCollisionStateForce K vertex_dim) {n m : ℕ} (q : Fin n → K) (v : Fin m → K)
    (hn : n % vertex_dim = 0) :
    ∃ f : Fin n → K, self.ForwardForce q v = Except.ok f ∧
      ∀ (i : ℕ) (j : Fin vertex_dim) (h : vertex_dim * i + j.val < n),
        f ⟨vertex_dim * i + j.val, h⟩
          = forceMagnitude self.stiffness self.cutoff_dist (self.signedDistance q i)
              * self.normal_ j := by
  rcases Nat.eq_zero_or_pos vertex_dim with hvd | hvd
  · subst hvd
    refine ⟨(List.range (n / 0)).foldl (self.forwardForceStep q) 0, ?_, ?_⟩
    · simp only [ForwardForce, hn, ne_eq, not_true_eq_false, if_false]
    · intro i j
      exact j.elim0
  · refine ⟨_, ForwardForce_eq self q v hvd hn, ?_⟩
    intro i j h
    have hj : (⟨(vertex_dim * i + j.val) % vertex_dim, Nat.mod_lt _ hvd⟩ : Fin vertex_dim) = j :=
      Fin.ext (block_mod j)
    simp only [block_div j, hj]

/-- Claim C3: for a positive cutoff `d0` the scalar force magnitude `f(d)` that `ForwardForce`
multiplies `normal_` by is continuous and differentiable at every `d`, its derivative is the
factor of `nnt_` in the matrix `df_dq` of `BackwardForce`, and that derivative is continuous.
At `d = -d0` the quadratic and the linear branch both give the force `k d0` and the slope `-k`
(`df_dq = -k nnt_`, and `-k normal_` along a unit normal); at `d = d0` the force and `df_dq`
both vanish. -/
theorem forceMagnitude_continuously_differentiable {vertex_dim : ℕ}
    (self : PlanarCollisionStateForce ℝ vertex_dim) (k d0 : ℝ) (hk : self.stiffness = k)
    (hd : self.cutoff_dist = d0) (hd0 : 0 < d0) :
    (∀ {n m : ℕ} (q : Fin n → ℝ) (v : Fin m → ℝ), n % vertex_dim = 0 →
      ∃ f : Fin n → ℝ, self.ForwardForce q v = Except.ok f ∧
        ∀ (i : ℕ) (j : Fin vertex_dim) (h : vertex_dim * i + j.val < n),
          f ⟨vertex_dim * i + j.val, h⟩
            = forceMagnitude k d0 (self.signedDistance q i) * self.normal_ j) ∧
    (∀ d, self.df_dq d = forceSlope k d0 d • self.nnt_) ∧
    Continuous (forceMagnitude k d0) ∧
    (∀ d, HasDerivAt (forceMagnitude k d0) (forceSlope k d0 d) d) ∧
    Continuous (forceSlope k d0) ∧
    (k / (4 * d0) * (-d0 - d0) * (-d0 - d0) = k * d0 ∧ -k * (-d0) = k * d0 ∧
      forceMagnitude k d0 (-d0) = k * d0) ∧
    (k / (4 * d0) * 2 * (-d0 - d0) = -k ∧ forceSlope k d0 (-d0) = -k ∧
      self.df_dq (-d0) = (-k) • self.nnt_ ∧
      (self.nnt_ = vecMulVec self.normal_ self.normal_ →
        dotProduct self.normal_ self.normal_ = 1 →
        mulVec (self.df_dq (-d0)) self.normal_ = (-k) • self.normal_)) ∧
    (forceMagnitude k d0 d0 = 0 ∧ forceSlope k d0 d0 = 0 ∧ self.df_dq d0 = 0) := by
  subst hk hd
  have hne : self.cutoff_dist ≠ 0 := ne_of_gt hd0
  have hle : -self.cutoff_dist ≤ self.cutoff_dist := by linarith
  have hm1 : forceMagnitude self.stiffness self.cutoff_dist (-self.cutoff_dist)
      = self.stiffness * self.cutoff_dist := by
    rw [forceMagnitude_nested _ _ _ hd0, if_pos le_rfl]; ring
  have hs1 : forceSlope self.stiffness self.cutoff_dist (-self.cutoff_dist)
      = -self.stiffness := by
    rw [forceSlope_nested _ _ _ hd0, if_pos le_rfl]
  have hm2 : forceMagnitude self.stiffness self.cutoff_dist self.cutoff_dist = 0 := by
    unfold forceMagnitude
    rw [if_pos ⟨hle, le_rfl⟩]; ring
  have hs2 : forceSlope self.stiffness self.cutoff_dist self.cutoff_dist = 0 := by
    unfold forceSlope
    rw [if_pos ⟨hle, le_rfl⟩]; ring
  refine ⟨fun q v hn => ForwardForce_block self q v hn, fun d => df_dq_eq self d,
    continuous_forceMagnitude _ _ hd0, fun d => hasDerivAt_forceMagnitude _ _ hd0 d,
    continuous_forceSlope _ _ hd0, ⟨?_, ?_, hm1⟩, ⟨?_, hs1, ?_, ?_⟩, hm2, hs2, ?_⟩
  · field_simp; ring
  · ring
  · field_simp; ring
  · rw [df_dq_eq, hs1]
  · intro hnnt hunit
    rw [df_dq_eq, hs1, hnnt, smul_mulVec_assoc, vecMulVec_mulVec, hunit, one_smul]
  · rw [df_dq_eq, hs2, zero_smul]

/-- The statement of `forceMagnitude_continuously_differentiable` for stiffness 2 and cutoff 1
over the floor `y = 0`. -/
theorem forceMagnitude_continuously_differentiable_witness :
    floorForceReal.stiffness = 2 ∧ floorForceReal.cutoff_dist = 1 ∧ (0 : ℝ) < 1 ∧
    ((∀ {n m : ℕ} (q : Fin n → ℝ) (v : Fin m → ℝ), n % 2 = 0 →
      ∃ f : Fin n → ℝ, floorForceReal.ForwardForce q v = Except.ok f ∧
        ∀ (i : ℕ) (j : Fin 2) (h : 2 * i + j.val < n),
          f ⟨2 * i + j.val, h⟩
            = forceMagnitude 2 1 (floorForceReal.signedDistance q i)
                * floorForceReal.normal_ j) ∧
    (∀ d, floorForceReal.df_dq d = forceSlope 2 1 d • floorForceReal.nnt_) ∧
    Continuous (forceMagnitude (2 : ℝ) 1) ∧
    (∀ d, HasDerivAt (forceMagnitude (2 : ℝ) 1) (forceSlope 2 1 d) d) ∧
    Continuous (forceSlope (2 : ℝ) 1) ∧
    ((2 : ℝ) / (4 * 1) * (-1 - 1) * (-1 - 1) = 2 * 1 ∧ -(2 : ℝ) * (-1) = 2 * 1 ∧
      forceMagnitude (2 : ℝ) 1 (-1) = 2 * 1) ∧
    ((2 : ℝ) / (4 * 1) * 2 * (-1 - 1) = -2 ∧ forceSlope (2 : ℝ) 1 (-1) = -2 ∧
      floorForceReal.df_dq (-1) = (-2 : ℝ) • floorForceReal.nnt_ ∧
      (floorForceReal.nnt_ = vecMulVec floorForceReal.normal_ floorForceReal.normal_ →
        dotProduct floorForceReal.normal_ floorForceReal.normal_ = 1 →
        mulVec (floorForceReal.df_dq (-1)) floorForceReal.normal_
          = (-2 : ℝ) • floorForceReal.normal_)) ∧
    (forceMagnitude (2 : ℝ) 1 1 = 0 ∧ forceSlope (2 : ℝ) 1 1 = 0 ∧
      floorForceReal.df_dq 1 = 0)) :=
  have h1 : floorForceReal.stiffness = 2 := by simp [floorForceReal, stiffness]
  have h2 : floorForceReal.cutoff_dist = 1 := by simp [floorForceReal, cutoff_dist]
  ⟨h1, h2, one_pos,
    forceMagnitude_continuously_differentiable floorForceReal 2 1 h1 h2 one_pos⟩

end PlanarCollisionStateForce

section BlockSums

/-- A sum over all indices of a vector of `N` blocks of `vd` entries, block by block. -/
theorem sum_range_blocks {M : Type} [AddCommMonoid M] (vd : ℕ) (hvd : 0 < vd)
    (G : ℕ → Fin vd → M) (N : ℕ) :
    ∑ x in Finset.range (vd * N), G (x / vd) ⟨x % vd, Nat.mod_lt _ hvd⟩
      = ∑ i in Finset.range N, ∑ j : Fin vd, G i j := by
  induction N with
  | zero => simp
  | succ N ih =>
    rw [Nat.mul_succ, Finset.sum_range_add, ih, Finset.sum_range_succ]
    congr 1
    rw [← Fin.sum_univ_eq_sum_range
      (fun x => G ((vd * N + x) / vd) ⟨(vd * N + x) % vd, Nat.mod_lt _ hvd⟩) vd]
    apply Finset.sum_congr rfl
    intro j _
    have h2 : (⟨(vd * N + j.val) % vd, Nat.mod_lt _ hvd⟩ : Fin vd) = j := Fin.ext (block_mod j)
    rw [block_div j, h2]

/-- The same sum, indexed by `Fin n` for a length `n` that is a multiple of `vd`. -/
theorem sum_fin_blocks {M : Type} [AddCommMonoid M] (vd : ℕ) (hvd : 0 < vd) {n : ℕ}
    (hn : n % vd = 0) (G : ℕ → Fin vd → M) :
    ∑ idx : Fin n, G (idx.val / vd) ⟨idx.val % vd, Nat.mod_lt _ hvd⟩
      = ∑ i in Finset.range (n / vd), ∑ j : Fin vd, G i j := by
  rw [Fin.sum_univ_eq_sum_range (fun x => G (x / vd) ⟨x % vd, Nat.mod_lt _ hvd⟩) n]
  have h : n = vd * (n / vd) := (Nat.mul_div_cancel' (Nat.dvd_of_mod_eq_zero hn)).symm
  conv_lhs => rw [h]
  exact sum_range_blocks vd hvd G (n / vd)

variable {K : Type} [LinearOrderedField K]

/-- An entry of a vector, read through the block it lies in. -/
theorem segment_div_mod {n vd : ℕ} (hvd : 0 < vd) (x : Fin n → K) (idx : Fin n) :
    segment vd x (idx.val / vd) ⟨idx.val % vd, Nat.mod_lt _ hvd⟩ = x idx := by
  have h : vd * (idx.val / vd) + idx.val % vd = idx.val := Nat.div_add_mod _ _
  unfold segment
  simp only [h, idx.isLt, dite_true]

/-- Reading a block commutes with `x + t • y`. -/
theorem segment_add_smul {n : ℕ} (vd : ℕ) (x y : Fin n → K) (t : K) (i : ℕ) :
    segment vd (x + t • y) i = segment vd x i + t • segment vd y i := by
  funext j
  unfold segment
  by_cases h : vd * i + j.val < n
  · simp [h]
  · simp [h]

end BlockSums

namespace PlanarCollisionStateForce

/-- The signed distance along the line `q + t δ`. -/
theorem signedDistance_add_smul {K : Type} [LinearOrderedField K] {vertex_dim n : ℕ}
    (self : PlanarCollisionStateForce K vertex_dim) (q δ : Fin n → K) (t : K) (i : ℕ) :
    self.signedDistance (q + t • δ) i
      = self.signedDistance q i + t * dotProduct self.normal_ (segment vertex_dim δ i) := by
  unfold signedDistance
  rw [segment_add_smul, dotProduct_add, dotProduct_smul, smul_eq_mul]
  ring

/-- The entries of `dl_dq` when `nnt_` is the outer product of `normal_` with itself. -/
theorem mulVec_df_dq {K : Type} [LinearOrderedField K] {vertex_dim : ℕ}
    (self : PlanarCollisionStateForce K vertex_dim)
    (hnnt : self.nnt_ = vecMulVec self.normal_ self.normal_) (d : K)
    (x : Fin vertex_dim → K) (j : Fin vertex_dim) :
    mulVec (self.df_dq d) x j
      = forceSlope self.stiffness self.cutoff_dist d * dotProduct self.normal_ x
          * self.normal_ j := by
  rw [df_dq_eq, hnnt, smul_mulVec_assoc, vecMulVec_mulVec]
  simp only [Pi.smul_apply, smul_eq_mul]
  ring

/-- The force paired with a fixed vector, differentiated along the line `q + t δ`. -/
theorem hasDerivAt_pairing {vertex_dim n : ℕ} (self : PlanarCollisionStateForce ℝ vertex_dim)
    (hd0 : 0 < self.cutoff_dist) (hvd : 0 < vertex_dim) (q δ dl_df : Fin n → ℝ) :
    HasDerivAt
      (fun t : ℝ => ∑ idx : Fin n, dl_df idx *
        (forceMagnitude self.stiffness self.cutoff_dist
            (self.signedDistance (q + t • δ) (idx.val / vertex_dim))
          * self.normal_ ⟨idx.val % vertex_dim, Nat.mod_lt _ hvd⟩))
      (∑ idx : Fin n, dl_df idx *
        (forceSlope self.stiffness self.cutoff_dist
            (self.signedDistance q (idx.val / vertex_dim))
          * dotProduct self.normal_ (segment vertex_dim δ (idx.val / vertex_dim))
          * self.normal_ ⟨idx.val % vertex_dim, Nat.mod_lt _ hvd⟩)) 0 := by
  apply HasDerivAt.sum
  intro idx _
  apply HasDerivAt.const_mul
  apply HasDerivAt.mul_const
  have hfun : (fun t : ℝ => forceMagnitude self.stiffness self.cutoff_dist
        (self.signedDistance (q + t • δ) (idx.val / vertex_dim)))
      = forceMagnitude self.stiffness self.cutoff_dist ∘ fun t : ℝ =>
          self.signedDistance q (idx.val / vertex_dim)
            + t * dotProduct self.normal_ (segment vertex_dim δ (idx.val / vertex_dim)) := by
    funext t
    simp only [Function.comp, signedDistance_add_smul]
  rw [hfun]
  have hinner : HasDerivAt (fun t : ℝ => self.signedDistance q (idx.val / vertex_dim)
      + t * dotProduct self.normal_ (segment vertex_dim δ (idx.val / vertex_dim)))
      (dotProduct self.normal_ (segment vertex_dim δ (idx.val / vertex_dim))) 0 := by
    simpa using ((hasDerivAt_id (0 : ℝ)).mul_const
      (dotProduct self.normal_ (segment vertex_dim δ (idx.val / vertex_dim)))).const_add
      (self.signedDistance q (idx.val / vertex_dim))
  have houter : HasDerivAt (forceMagnitude self.stiffness self.cutoff_dist)
      (forceSlope self.stiffness self.cutoff_dist
        (self.signedDistance q (idx.val / vertex_dim)))
      ((fun t : ℝ => self.signedDistance q (idx.val / vertex_dim)
        + t * dotProduct self.normal_ (segment vertex_dim δ (idx.val / vertex_dim))) 0) := by
    simpa using hasDerivAt_forceMagnitude self.stiffness self.cutoff_dist hd0
      (self.signedDistance q (idx.val / vertex_dim))
  exact HasDerivAt.comp 0 houter hinner

/-- The derivative of the pairing is the pairing of `dl_dq` with the direction. -/
theorem pairing_eq_dotProduct {K : Type} [LinearOrderedField K] {vertex_dim n : ℕ}
    (self : PlanarCollisionStateForce K vertex_dim) (hvd : 0 < vertex_dim)
    (hn : n % vertex_dim = 0) (s : ℕ → K) (δ dl_df : Fin n → K) :
    ∑ idx : Fin n, dl_df idx *
        (s (idx.val / vertex_dim)
          * dotProduct self.normal_ (segment vertex_dim δ (idx.val / vertex_dim))
          * self.normal_ ⟨idx.val % vertex_dim, Nat.mod_lt _ hvd⟩)
      = ∑ idx : Fin n,
          (s (idx.val / vertex_dim)
            * dotProduct self.normal_ (segment vertex_dim dl_df (idx.val / vertex_dim))
            * self.normal_ ⟨idx.val % vertex_dim, Nat.mod_lt _ hvd⟩) * δ idx := by
  have hl : ∀ idx : Fin n, dl_df idx *
        (s (idx.val / vertex_dim)
          * dotProduct self.normal_ (segment vertex_dim δ (idx.val / vertex_dim))
          * self.normal_ ⟨idx.val % vertex_dim, Nat.mod_lt _ hvd⟩)
      = (fun (i : ℕ) (j : Fin vertex_dim) => segment vertex_dim dl_df i j *
          (s i * dotProduct self.normal_ (segment vertex_dim δ i) * self.normal_ j))
          (idx.val / vertex_dim) ⟨idx.val % vertex_dim, Nat.mod_lt _ hvd⟩ := by
    intro idx
    simp only [segment_div_mod hvd]
  have hr : ∀ idx : Fin n,
        (s (idx.val / vertex_dim)
            * dotProduct self.normal_ (segment vertex_dim dl_df (idx.val / vertex_dim))
            * self.normal_ ⟨idx.val % vertex_dim, Nat.mod_lt _ hvd⟩) * δ idx
      = (fun (i : ℕ) (j : Fin vertex_dim) =>
          (s i * dotProduct self.normal_ (segment vertex_dim dl_df i) * self.normal_ j)
            * segment vertex_dim δ i j)
          (idx.val / vertex_dim) ⟨idx.val % vertex_dim, Nat.mod_lt _ hvd⟩ := by
    intro idx
    simp only [segment_div_mod hvd]
  rw [Finset.sum_congr rfl (fun idx _ => hl idx), Finset.sum_congr rfl (fun idx _ => hr idx)]
  refine (sum_fin_blocks vertex_dim hvd hn (fun (i : ℕ) (j : Fin vertex_dim) =>
    segment vertex_dim dl_df i j *
      (s i * dotProduct self.normal_ (segment vertex_dim δ i) * self.normal_ j))).trans ?_
  refine Eq.trans ?_ (sum_fin_blocks vertex_dim hvd hn (fun (i : ℕ) (j : Fin vertex_dim) =>
    (s i * dotProduct self.normal_ (segment vertex_dim dl_df i) * self.normal_ j)
      * segment vertex_dim δ i j)).symm
  apply Finset.sum_congr rfl
  intro i _
  have h1 : ∀ B : K, ∑ j : Fin vertex_dim, segment vertex_dim dl_df i j * (B * self.normal_ j)
      = B * dotProduct self.normal_ (segment vertex_dim dl_df i) := by
    intro B
    simp only [dotProduct, Finset.mul_sum]
    apply Finset.sum_congr rfl
    intro j _
    ring
  have h2 : ∀ A : K, ∑ j : Fin vertex_dim, (A * self.normal_ j) * segment vertex_dim δ i j
      = A * dotProduct self.normal_ (segment vertex_dim δ i) := by
    intro A
    simp only [dotProduct, Finset.mul_sum]
    apply Finset.sum_congr rfl
    intro j _
    ring
  rw [h1, h2]
  ring

end PlanarCollisionStateForce

namespace PlanarCollisionStateForce

/-- The force slope written with the half-open regimes of the specification. -/
theorem forceSlope_halfOpen {K : Type} [LinearOrderedField K] (k d0 d : K) (hd0 : 0 < d0) :
    forceSlope k d0 d
      = if d0 ≤ d then 0
        else if -d0 ≤ d then k / (2 * d0) * (d - d0)
        else -k := by
  unfold forceSlope
  have hne : d0 ≠ 0 := ne_of_gt hd0
  by_cases h1 : d0 ≤ d
  · rw [if_pos h1]
    by_cases h2 : d ≤ d0
    · have h3 : d = d0 := le_antisymm h2 h1
      have h4 : -d0 ≤ d := by linarith
      rw [if_pos ⟨h4, h2⟩, h3]; ring
    · have h5 : ¬ d ≤ -d0 := by
        intro h; apply h2; linarith
      rw [if_neg (fun h => h2 h.2), if_neg h5]
  · rw [if_neg h1]
    have h2 : d ≤ d0 := le_of_lt (lt_of_not_le h1)
    by_cases h3 : -d0 ≤ d
    · rw [if_pos ⟨h3, h2⟩, if_pos h3]
      field_simp
      ring
    · rw [if_neg (fun h => h3 h.1), if_neg h3, if_pos (le_of_lt (lt_of_not_le h3))]

/-- Claim C4: on four vectors of one length, a multiple of `vertex_dim`, `BackwardForce`
succeeds and its `dl_dq` is the vector-Jacobian product of `ForwardForce` in `q`: the block of
vertex `i` is `f'(d_i) (n n^T) dl_df_i`, where `f'` is `0` for `d ≥ d0`,
`(k / (2 d0)) (d - d0)` for `-d0 ≤ d < d0` and `-k` for `d < -d0`; this `f'` is the derivative of
the force magnitude of `ForwardForce` at every `d`, so both functions select the same regime;
and for every direction `δ` the derivative of `t ↦ dl_df . ForwardForce(q + t δ)` at `t = 0` is
`dl_dq . δ`. Here `nnt_` is the outer product of `normal_` with itself, as `Initialize`
leaves it. -/
theorem BackwardForce_dl_dq_is_vjp {vertex_dim n : ℕ}
    (self : PlanarCollisionStateForce ℝ vertex_dim) (k d0 : ℝ) (hk : self.stiffness = k)
    (hd : self.cutoff_dist = d0) (hd0 : 0 < d0) (hvd : 0 < vertex_dim)
    (hnnt : self.nnt_ = vecMulVec self.normal_ self.normal_)
    (q v f dl_df : Fin n → ℝ) (hn : n % vertex_dim = 0) :
    ∃ g : StateForceGradients ℝ n, self.BackwardForce q v f dl_df = Except.ok g ∧
      (∀ (i : ℕ) (j : Fin vertex_dim) (h : vertex_dim * i + j.val < n),
        g.dl_dq ⟨vertex_dim * i + j.val, h⟩
          = (if d0 ≤ self.signedDistance q i then 0
             else if -d0 ≤ self.signedDistance q i then
               k / (2 * d0) * (self.signedDistance q i - d0)
             else -k)
            * mulVec (vecMulVec self.normal_ self.normal_) (segment vertex_dim dl_df i) j) ∧
      (∀ d, HasDerivAt (forceMagnitude k d0)
        (if d0 ≤ d then 0 else if -d0 ≤ d then k / (2 * d0) * (d - d0) else -k) d) ∧
      (∀ δ : Fin n → ℝ, ∃ F : ℝ → Fin n → ℝ,
        (∀ t, self.ForwardForce (q + t • δ) v = Except.ok (F t)) ∧
        HasDerivAt (fun t => dotProduct dl_df (F t)) (dotProduct g.dl_dq δ) 0) := by
  subst hk hd
  refine ⟨_, BackwardForce_eq self q v f dl_df hvd hn, ?_, ?_, ?_⟩
  · intro i j h
    have hj : (⟨(vertex_dim * i + j.val) % vertex_dim, Nat.mod_lt _ hvd⟩ : Fin vertex_dim) = j :=
      Fin.ext (block_mod j)
    simp only [block_div j, hj]
    rw [mulVec_df_dq self hnnt, forceSlope_halfOpen _ _ _ hd0, vecMulVec_mulVec]
    simp only [Pi.smul_apply, smul_eq_mul]
    ring
  · intro d
    rw [← forceSlope_halfOpen _ _ _ hd0]
    exact hasDerivAt_forceMagnitude _ _ hd0 d
  · intro δ
    refine ⟨_, fun t => ForwardForce_eq self (q + t • δ) v hvd hn, ?_⟩
    have h := hasDerivAt_pairing self hd0 hvd q δ dl_df
    have e := pairing_eq_dotProduct self hvd hn
      (fun i => forceSlope self.stiffness self.cutoff_dist (self.signedDistance q i)) δ dl_df
    rw [e] at h
    convert h using 1
    show ∑ idx : Fin n, _ * δ idx = _
    apply Finset.sum_congr rfl
    intro idx _
    simp only [mulVec_df_dq self hnnt]

/-- The statement of `BackwardForce_dl_dq_is_vjp` for three vertices over the floor `y = 0`. -/
theorem BackwardForce_dl_dq_is_vjp_witness :
    floorForceReal.stiffness = 2 ∧ floorForceReal.cutoff_dist = 1 ∧ (0 : ℝ) < 1 ∧ 0 < 2 ∧
    floorForceReal.nnt_ = vecMulVec floorForceReal.normal_ floorForceReal.normal_ ∧
    6 % 2 = 0 ∧
    ∃ g : StateForceGradients ℝ 6,
      floorForceReal.BackwardForce threeVerticesReal threeVerticesReal threeVerticesReal
        threeVerticesReal = Except.ok g ∧
      (∀ (i : ℕ) (j : Fin 2) (h : 2 * i + j.val < 6),
        g.dl_dq ⟨2 * i + j.val, h⟩
          = (if (1 : ℝ) ≤ floorForceReal.signedDistance threeVerticesReal i then 0
             else if -(1 : ℝ) ≤ floorForceReal.signedDistance threeVerticesReal i then
               2 / (2 * 1) * (floorForceReal.signedDistance threeVerticesReal i - 1)
             else -2)
            * mulVec (vecMulVec floorForceReal.normal_ floorForceReal.normal_)
                (segment 2 threeVerticesReal i) j) ∧
      (∀ d, HasDerivAt (forceMagnitude (2 : ℝ) 1)
        (if 1 ≤ d then 0 else if -1 ≤ d then 2 / (2 * 1) * (d - 1) else -2) d) ∧
      (∀ δ : Fin 6 → ℝ, ∃ F : ℝ → Fin 6 → ℝ,
        (∀ t, floorForceReal.ForwardForce (threeVerticesReal + t • δ) threeVerticesReal
          = Except.ok (F t)) ∧
        HasDerivAt (fun t => dotProduct threeVerticesReal (F t)) (dotProduct g.dl_dq δ) 0) :=
  have h1 : floorForceReal.stiffness = 2 := by simp [floorForceReal, stiffness]
  have h2 : floorForceReal.cutoff_dist = 1 := by simp [floorForceReal, cutoff_dist]
  ⟨h1, h2, one_pos, two_pos, rfl, rfl,
    BackwardForce_dl_dq_is_vjp floorForceReal 2 1 h1 h2 one_pos two_pos rfl
      threeVerticesReal threeVerticesReal threeVerticesReal threeVerticesReal rfl⟩

end PlanarCollisionStateForce

section ParameterCalculus

/-- The force magnitude is linear in the stiffness. -/
theorem forceMagnitude_eq_stiffness_mul {K : Type} [LinearOrderedField K] (k d0 d : K) :
    forceMagnitude k d0 d = k * stiffnessSlope d0 d := by
  unfold forceMagnitude stiffnessSlope
  by_cases h1 : -d0 ≤ d ∧ d ≤ d0
  · rw [if_pos h1, if_pos h1]; ring
  · by_cases h2 : d ≤ -d0
    · rw [if_neg h1, if_neg h1, if_pos h2, if_pos h2]; ring
    · rw [if_neg h1, if_neg h1, if_neg h2, if_neg h2]; ring

/-- The derivative of the force magnitude in the stiffness. -/
theorem hasDerivAt_forceMagnitude_stiffness (k d0 d : ℝ) :
    HasDerivAt (fun k' : ℝ => forceMagnitude k' d0 d) (stiffnessSlope d0 d) k := by
  have hfun : (fun k' : ℝ => forceMagnitude k' d0 d) = fun k' => k' * stiffnessSlope d0 d := by
    funext k'
    exact forceMagnitude_eq_stiffness_mul k' d0 d
  rw [hfun]
  simpa using (hasDerivAt_id k).mul_const (stiffnessSlope d0 d)

/-- The quadratic branch as a function of the cutoff, and its derivative. -/
theorem hasDerivAt_quadratic_cutoff (k d x : ℝ) (hx : x ≠ 0) :
    HasDerivAt (fun y : ℝ => k / (4 * y) * (d - y) * (d - y))
      ((-d / (x * x) * (d - x) - (d / x - 1)) * k / 4) x := by
  have h1 : HasDerivAt (fun y : ℝ => 4 * y) 4 x := by
    simpa using (hasDerivAt_id x).const_mul (4 : ℝ)
  have h4 : (4 : ℝ) * x ≠ 0 := mul_ne_zero (by norm_num) hx
  have h2 : HasDerivAt (fun y : ℝ => k / (4 * y)) ((0 * (4 * x) - k * 4) / (4 * x) ^ 2) x :=
    (hasDerivAt_const x k).div h1 h4
  have h3 : HasDerivAt (fun y : ℝ => d - y) (-1) x := by
    simpa using (hasDerivAt_id x).const_sub d
  have h5 := (h2.mul h3).mul h3
  convert h5 using 1
  field_simp
  ring

/-- The quadratic branch at `d = -d0`. -/
theorem quadratic_at_neg_cutoff (k d0 : ℝ) (h : d0 ≠ 0) :
    k * d0 = k / (4 * d0) * (-d0 - d0) * (-d0 - d0) := by
  field_simp
  ring

/-- The cutoff derivative of the quadratic branch vanishes at `d = -d0`. -/
theorem cutoff_derivative_at_neg_cutoff (k d0 : ℝ) (h : d0 ≠ 0) :
    (-(-d0) / (d0 * d0) * (-d0 - d0) - (-d0 / d0 - 1)) * k / 4 = 0 := by
  have h1 : -d0 / d0 = -1 := by field_simp
  have h2 : -(-d0) / (d0 * d0) * (-d0 - d0) = -2 := by field_simp; ring
  rw [h1, h2]; ring

/-- The cutoff derivative of the quadratic branch vanishes at `d = d0`. -/
theorem cutoff_derivative_at_cutoff (k d0 : ℝ) (h : d0 ≠ 0) :
    (-d0 / (d0 * d0) * (d0 - d0) - (d0 / d0 - 1)) * k / 4 = 0 := by
  have h1 : d0 / d0 = 1 := div_self h
  rw [h1]; ring

/-- The derivative of the force magnitude in the cutoff, at a positive cutoff. -/
theorem hasDerivAt_forceMagnitude_cutoff (k d0 d : ℝ) (hd0 : 0 < d0) :
    HasDerivAt (fun y : ℝ => forceMagnitude k y d) (cutoffSlope k d0 d) d0 := by
  have hne : d0 ≠ 0 := ne_of_gt hd0
  have hpos : ∀ᶠ y in nhds d0, 0 < y := lt_mem_nhds hd0
  rcases lt_trichotomy d d0 with hlt | heq | hgt
  · rcases lt_trichotomy (-d0) d with hlt' | heq' | hgt'
    · -- strictly inside the quadratic band
      have hq : -d0 ≤ d ∧ d ≤ d0 := ⟨hlt'.le, hlt.le⟩
      have hval : cutoffSlope k d0 d = (-d / (d0 * d0) * (d - d0) - (d / d0 - 1)) * k / 4 := by
        unfold cutoffSlope; rw [if_pos hq]
      rw [hval]
      refine (hasDerivAt_quadratic_cutoff k d d0 hne).congr_of_eventuallyEq ?_
      have hlt2 : -d < d0 := by linarith
      filter_upwards [lt_mem_nhds hlt, lt_mem_nhds hlt2] with y hy1 hy2
      have hq' : -y ≤ d ∧ d ≤ y := ⟨by linarith, hy1.le⟩
      simp only [forceMagnitude, if_pos hq']
    · -- d = -d0
      subst heq'
      have hq : -d0 ≤ -d0 ∧ -d0 ≤ d0 := ⟨le_rfl, hlt.le⟩
      have hval : cutoffSlope k d0 (-d0) = 0 := by
        unfold cutoffSlope
        rw [if_pos hq]
        exact cutoff_derivative_at_neg_cutoff k d0 hne
      rw [hval]
      have key := hasDerivAt_ite_le (fun _ => k * d0)
        (fun y => k / (4 * y) * (-d0 - y) * (-d0 - y))
        (fun _ => (0 : ℝ)) (fun x => (-(-d0) / (x * x) * (-d0 - x) - (-d0 / x - 1)) * k / 4) d0
        (fun x _ => hasDerivAt_const x (k * d0))
        (fun x hx => hasDerivAt_quadratic_cutoff k (-d0) x (ne_of_gt (lt_of_lt_of_le hd0 hx)))
        (quadratic_at_neg_cutoff k d0 hne)
        (cutoff_derivative_at_neg_cutoff k d0 hne).symm d0
      rw [if_pos le_rfl] at key
      refine key.congr_of_eventuallyEq ?_
      filter_upwards [hpos] with y hy
      by_cases hyd : y ≤ d0
      · rw [if_pos hyd]
        rcases eq_or_lt_of_le hyd with h1 | h1
        · subst h1
          simp only [forceMagnitude, if_pos hq]
          exact (quadratic_at_neg_cutoff k y hne).symm
        · have hq' : ¬ (-y ≤ -d0 ∧ -d0 ≤ y) := by
            intro h; linarith [h.1]
          have hl' : -d0 ≤ -y := by linarith
          simp only [forceMagnitude, if_neg hq', if_pos hl']
          ring
      · rw [if_neg hyd]
        have hyd' : d0 < y := lt_of_not_le hyd
        have hq' : -y ≤ -d0 ∧ -d0 ≤ y := ⟨by linarith, by linarith⟩
        simp only [forceMagnitude, if_pos hq']
    · -- below the band
      have hq : ¬ (-d0 ≤ d ∧ d ≤ d0) := by
        intro h; linarith [h.1]
      have hval : cutoffSlope k d0 d = 0 := by
        unfold cutoffSlope; rw [if_neg hq]
      rw [hval]
      refine (hasDerivAt_const d0 (-k * d)).congr_of_eventuallyEq ?_
      have hgt2 : d0 < -d := by linarith
      filter_upwards [gt_mem_nhds hgt2] with y hy
      have hq' : ¬ (-y ≤ d ∧ d ≤ y) := by
        intro h; linarith [h.1]
      have hl' : d ≤ -y := by linarith
      simp only [forceMagnitude, if_neg hq', if_pos hl']
  · -- d = d0
    subst heq
    have hq : -d ≤ d ∧ d ≤ d := ⟨by linarith, le_rfl⟩
    have hval : cutoffSlope k d d = 0 := by
      unfold cutoffSlope
      rw [if_pos hq]
      exact cutoff_derivative_at_cutoff k d hne
    rw [hval]
    have key := hasDerivAt_ite_le (fun _ => (0 : ℝ)) (fun y => k / (4 * y) * (d - y) * (d - y))
      (fun _ => (0 : ℝ)) (fun x => (-d / (x * x) * (d - x) - (d / x - 1)) * k / 4) d
      (fun x _ => hasDerivAt_const x (0 : ℝ))
      (fun x hx => hasDerivAt_quadratic_cutoff k d x (ne_of_gt (lt_of_lt_of_le hd0 hx)))
      (by ring)
      (cutoff_derivative_at_cutoff k d hne).symm d
    rw [if_pos le_rfl] at key
    refine key.congr_of_eventuallyEq ?_
    filter_upwards [hpos] with y hy
    by_cases hyd : y ≤ d
    · rw [if_pos hyd]
      rcases eq_or_lt_of_le hyd with h1 | h1
      · subst h1
        simp only [forceMagnitude, if_pos hq]
        ring
      · have hq' : ¬ (-y ≤ d ∧ d ≤ y) := by
          intro h; linarith [h.2]
        have hl' : ¬ d ≤ -y := by
          intro h; linarith
        simp only [forceMagnitude, if_neg hq', if_neg hl']
    · rw [if_neg hyd]
      have hyd' : d < y := lt_of_not_le hyd
      have hq' : -y ≤ d ∧ d ≤ y := ⟨by linarith, by linarith⟩
      simp only [forceMagnitude, if_pos hq']
  · -- far field
    have hq : ¬ (-d0 ≤ d ∧ d ≤ d0) := by
      intro h; linarith [h.2]
    have hval : cutoffSlope k d0 d = 0 := by
      unfold cutoffSlope; rw [if_neg hq]
    rw [hval]
    refine (hasDerivAt_const d0 (0 : ℝ)).congr_of_eventuallyEq ?_
    have hgt2 : -d < d0 := by linarith
    filter_upwards [gt_mem_nhds hgt, lt_mem_nhds hgt2] with y hy1 hy2
    have hq' : ¬ (-y ≤ d ∧ d ≤ y) := by
      intro h; linarith [h.2]
    have hl' : ¬ d ≤ -y := by
      intro h; linarith
    simp only [forceMagnitude, if_neg hq', if_neg hl']

end ParameterCalculus

namespace PlanarCollisionStateForce

/-- The stiffness slope written with the half-open regimes of the specification. -/
theorem stiffnessSlope_halfOpen {K : Type} [LinearOrderedField K] (d0 d : K) (hd0 : 0 < d0) :
    stiffnessSlope d0 d
      = if d0 ≤ d then 0
        else if -d0 ≤ d then (d - d0) ^ 2 / (4 * d0)
        else -d := by
  unfold stiffnessSlope
  by_cases h1 : d0 ≤ d
  · rw [if_pos h1]
    by_cases h2 : d ≤ d0
    · have h3 : d = d0 := le_antisymm h2 h1
      have h4 : -d0 ≤ d := by linarith
      rw [if_pos ⟨h4, h2⟩, h3]; ring
    · have h5 : ¬ d ≤ -d0 := by
        intro h; apply h2; linarith
      rw [if_neg (fun h => h2 h.2), if_neg h5]
  · rw [if_neg h1]
    have h2 : d ≤ d0 := le_of_lt (lt_of_not_le h1)
    by_cases h3 : -d0 ≤ d
    · rw [if_pos ⟨h3, h2⟩, if_pos h3]; ring
    · rw [if_neg (fun h => h3 h.1), if_neg h3, if_pos (le_of_lt (lt_of_not_le h3))]

/-- The expression of the source for the cutoff derivative of the quadratic branch. -/
theorem cutoff_expression {K : Type} [LinearOrderedField K] (k d0 d : K) (hd0 : d0 ≠ 0) :
    (-d / (d0 * d0) * (d - d0) - (d / d0 - 1)) * k / 4 = k / 4 * (1 - d ^ 2 / d0 ^ 2) := by
  field_simp
  ring

/-- The cutoff slope written with the half-open regimes of the specification. -/
theorem cutoffSlope_halfOpen {K : Type} [LinearOrderedField K] (k d0 d : K) (hd0 : 0 < d0) :
    cutoffSlope k d0 d
      = if d0 ≤ d then 0
        else if -d0 ≤ d then k / 4 * (1 - d ^ 2 / d0 ^ 2)
        else 0 := by
  unfold cutoffSlope
  have hne : d0 ≠ 0 := ne_of_gt hd0
  by_cases h1 : d0 ≤ d
  · rw [if_pos h1]
    by_cases h2 : d ≤ d0
    · have h3 : d = d0 := le_antisymm h2 h1
      have h4 : -d0 ≤ d := by linarith
      have h5 : d0 / d0 = 1 := div_self hne
      rw [if_pos ⟨h4, h2⟩, h3, h5]; ring
    · rw [if_neg (fun h => h2 h.2)]
  · rw [if_neg h1]
    have h2 : d ≤ d0 := le_of_lt (lt_of_not_le h1)
    by_cases h3 : -d0 ≤ d
    · rw [if_pos ⟨h3, h2⟩, if_pos h3]
      exact cutoff_expression k d0 d hne
    · rw [if_neg (fun h => h3 h.1), if_neg h3]

/-- Claim C5: on four vectors of one length, a multiple of `vertex_dim`, `BackwardForce`
succeeds and its `dl_dp` is the sum over the vertices of `dl_df_i . [df_i/dk, df_i/dd0]`.
Column 0 is `((d - d0)^2 / (4 d0)) normal_` in the quadratic regime, `-d normal_` in the linear
regime and `0` in the far field; column 1 is `(k / 4) (1 - d^2 / d0^2) normal_` in the
quadratic regime (the expression of the source equals this) and `0` elsewhere. The two
factors are the derivatives of the force magnitude of `ForwardForce` in the stiffness and in
the cutoff. -/
theorem BackwardForce_dl_dp_eq {vertex_dim n : ℕ}
    (self : PlanarCollisionStateForce ℝ vertex_dim) (k d0 : ℝ) (hk : self.stiffness = k)
    (hd : self.cutoff_dist = d0) (hd0 : 0 < d0) (hvd : 0 < vertex_dim)
    (q v f dl_df : Fin n → ℝ) (hn : n % vertex_dim = 0) :
    ∃ g : StateForceGradients ℝ n, self.BackwardForce q v f dl_df = Except.ok g ∧
      g.dl_dp 0 = ∑ i in Finset.range (n / vertex_dim),
        dotProduct (segment vertex_dim dl_df i)
          ((if d0 ≤ self.signedDistance q i then 0
            else if -d0 ≤ self.signedDistance q i then
              (self.signedDistance q i - d0) ^ 2 / (4 * d0)
            else -self.signedDistance q i) • self.normal_) ∧
      g.dl_dp 1 = ∑ i in Finset.range (n / vertex_dim),
        dotProduct (segment vertex_dim dl_df i)
          ((if d0 ≤ self.signedDistance q i then 0
            else if -d0 ≤ self.signedDistance q i then
              k / 4 * (1 - self.signedDistance q i ^ 2 / d0 ^ 2)
            else 0) • self.normal_) ∧
      (∀ d : ℝ, (-d / (d0 * d0) * (d - d0) - (d / d0 - 1)) * k / 4
        = k / 4 * (1 - d ^ 2 / d0 ^ 2)) ∧
      (∀ d : ℝ, HasDerivAt (fun k' : ℝ => forceMagnitude k' d0 d)
        (if d0 ≤ d then 0 else if -d0 ≤ d then (d - d0) ^ 2 / (4 * d0) else -d) k) ∧
      (∀ d : ℝ, HasDerivAt (fun y : ℝ => forceMagnitude k y d)
        (if d0 ≤ d then 0 else if -d0 ≤ d then k / 4 * (1 - d ^ 2 / d0 ^ 2) else 0) d0) := by
  subst hk hd
  have hne : self.cutoff_dist ≠ 0 := ne_of_gt hd0
  refine ⟨_, BackwardForce_eq self q v f dl_df hvd hn, ?_, ?_,
    fun d => cutoff_expression _ _ d hne, ?_, ?_⟩
  · simp only [Finset.sum_apply]
    apply Finset.sum_congr rfl
    intro i _
    rw [← stiffnessSlope_halfOpen _ _ hd0]
    simp only [vecMul, dotProduct, (df_dp_eq self _ _).1, Pi.smul_apply, smul_eq_mul]
  · simp only [Finset.sum_apply]
    apply Finset.sum_congr rfl
    intro i _
    rw [← cutoffSlope_halfOpen _ _ _ hd0]
    simp only [vecMul, dotProduct, (df_dp_eq self _ _).2, Pi.smul_apply, smul_eq_mul]
  · intro d
    rw [← stiffnessSlope_halfOpen _ _ hd0]
    exact hasDerivAt_forceMagnitude_stiffness _ _ d
  · intro d
    rw [← cutoffSlope_halfOpen _ _ _ hd0]
    exact hasDerivAt_forceMagnitude_cutoff _ _ d hd0

/-- The statement of `BackwardForce_dl_dp_eq` for three vertices over the floor `y = 0`. -/
theorem BackwardForce_dl_dp_eq_witness :
    floorForceReal.stiffness = 2 ∧ floorForceReal.cutoff_dist = 1 ∧ (0 : ℝ) < 1 ∧ 0 < 2 ∧
    6 % 2 = 0 ∧
    ∃ g : StateForceGradients ℝ 6,
      floorForceReal.BackwardForce threeVerticesReal threeVerticesReal threeVerticesReal
        threeVerticesReal = Except.ok g ∧
      g.dl_dp 0 = ∑ i in Finset.range (6 / 2),
        dotProduct (segment 2 threeVerticesReal i)
          ((if (1 : ℝ) ≤ floorForceReal.signedDistance threeVerticesReal i then 0
            else if -(1 : ℝ) ≤ floorForceReal.signedDistance threeVerticesReal i then
              (floorForceReal.signedDistance threeVerticesReal i - 1) ^ 2 / (4 * 1)
            else -floorForceReal.signedDistance threeVerticesReal i)
            • floorForceReal.normal_) ∧
      g.dl_dp 1 = ∑ i in Finset.range (6 / 2),
        dotProduct (segment 2 threeVerticesReal i)
          ((if (1 : ℝ) ≤ floorForceReal.signedDistance threeVerticesReal i then 0
            else if -(1 : ℝ) ≤ floorForceReal.signedDistance threeVerticesReal i then
              2 / 4 * (1 - floorForceReal.signedDistance threeVerticesReal i ^ 2 / 1 ^ 2)
            else 0) • floorForceReal.normal_) ∧
      (∀ d : ℝ, (-d / (1 * 1) * (d - 1) - (d / 1 - 1)) * 2 / 4
        = 2 / 4 * (1 - d ^ 2 / 1 ^ 2)) ∧
      (∀ d : ℝ, HasDerivAt (fun k' : ℝ => forceMagnitude k' 1 d)
        (if 1 ≤ d then 0 else if -1 ≤ d then (d - 1) ^ 2 / (4 * 1) else -d) 2) ∧
      (∀ d : ℝ, HasDerivAt (fun y : ℝ => forceMagnitude 2 y d)
        (if 1 ≤ d then 0 else if -1 ≤ d then 2 / 4 * (1 - d ^ 2 / 1 ^ 2) else 0) 1) :=
  have h1 : floorForceReal.stiffness = 2 := by simp [floorForceReal, stiffness]
  have h2 : floorForceReal.cutoff_dist = 1 := by simp [floorForceReal, cutoff_dist]
  ⟨h1, h2, one_pos, two_pos, rfl,
    BackwardForce_dl_dp_eq floorForceReal 2 1 h1 h2 one_pos two_pos
      threeVerticesReal threeVerticesReal threeVerticesReal threeVerticesReal rfl⟩

end PlanarCollisionStateForce

namespace PlanarCollisionStateForce

/-- The object that `Initialize` builds from the normal `(0, 0, 1)`, offset `0`, stiffness
`100` and cutoff `1/10`. -/
theorem Initialize_scenario (self0 : PlanarCollisionStateForce ℝ 3) :
    Initialize Real.sqrt self0 100 (1 / 10) ![0, 0, 1] 0 = (scenarioForce ℝ, none) := by
  have hnorm : vecNorm Real.sqrt (![0, 0, 1] : Fin 3 → ℝ) = 1 := by
    simp [vecNorm, Fin.sum_univ_three]
  have hn : (fun i => (![0, 0, 1] : Fin 3 → ℝ) i / 1) = ![0, 0, 1] := by
    funext i
    simp
  unfold Initialize scenarioForce singularNormalThreshold
  simp only [hnorm, hn]
  norm_num

/-- The force magnitude in the three cases of the scenario. -/
theorem forceMagnitude_scenario :
    forceMagnitude (100 : ℝ) (1 / 10) 0 = 5 / 2 ∧
    forceMagnitude (100 : ℝ) (1 / 10) (-3 / 10) = 30 ∧
    forceMagnitude (100 : ℝ) (1 / 10) (1 / 5) = 0 ∧
    forceSlope (100 : ℝ) (1 / 10) (1 / 5) = 0 := by
  refine ⟨?_, ?_, ?_, ?_⟩
  · rw [forceMagnitude_halfOpen _ _ _ (by norm_num)]; norm_num
  · rw [forceMagnitude_halfOpen _ _ _ (by norm_num)]; norm_num
  · rw [forceMagnitude_halfOpen _ _ _ (by norm_num)]; norm_num
  · rw [forceSlope_halfOpen _ _ _ (by norm_num)]; norm_num

/-- Claim C6: with normal `(0, 0, 1)`, offset `0`, stiffness `100` and cutoff `1/10` in space,
`Initialize` succeeds; `ForwardForce` then gives a vertex at signed distance `0` the force
`5/2 normal`, a vertex at signed distance `-3/10` the force `30 normal` and a vertex at signed
distance `1/5` the zero force, and for the latter vertex `BackwardForce` returns a zero block
of `dl_dq` whatever `dl_df` is. -/
theorem planar_collision_scenario (self0 : PlanarCollisionStateForce ℝ 3) {n m : ℕ}
    (q : Fin n → ℝ) (v : Fin m → ℝ) (hn : n % 3 = 0) :
    (Initialize Real.sqrt self0 100 (1 / 10) ![0, 0, 1] 0).2 = none ∧
    ∃ f : Fin n → ℝ,
      (Initialize Real.sqrt self0 100 (1 / 10) ![0, 0, 1] 0).1.ForwardForce q v
        = Except.ok f ∧
      ∀ (i : ℕ) (j : Fin 3) (h : 3 * i + j.val < n),
        ((Initialize Real.sqrt self0 100 (1 / 10) ![0, 0, 1] 0).1.signedDistance q i = 0 →
          f ⟨3 * i + j.val, h⟩ = 5 / 2 * (![0, 0, 1] : Fin 3 → ℝ) j) ∧
        ((Initialize Real.sqrt self0 100 (1 / 10) ![0, 0, 1] 0).1.signedDistance q i
            = -3 / 10 →
          f ⟨3 * i + j.val, h⟩ = 30 * (![0, 0, 1] : Fin 3 → ℝ) j) ∧
        ((Initialize Real.sqrt self0 100 (1 / 10) ![0, 0, 1] 0).1.signedDistance q i
            = 1 / 5 →
          f ⟨3 * i + j.val, h⟩ = 0 ∧
          ∀ v1 f1 dl_df : Fin n → ℝ, ∃ g : StateForceGradients ℝ n,
            (Initialize Real.sqrt self0 100 (1 / 10) ![0, 0, 1] 0).1.BackwardForce q v1 f1 dl_df
              = Except.ok g ∧
            g.dl_dq ⟨3 * i + j.val, h⟩ = 0) := by
  rw [Initialize_scenario]
  refine ⟨rfl, ?_⟩
  obtain ⟨f, hf, hblock⟩ := ForwardForce_block (scenarioForce ℝ) q v hn
  refine ⟨f, hf, ?_⟩
  intro i j h
  have hb := hblock i j h
  have hk : (scenarioForce ℝ).stiffness = 100 := by simp [stiffness, scenarioForce]
  have hc : (scenarioForce ℝ).cutoff_dist = 1 / 10 := by simp [cutoff_dist, scenarioForce]
  have hnl : (scenarioForce ℝ).normal_ = ![0, 0, 1] := rfl
  rw [hk, hc, hnl] at hb
  refine ⟨?_, ?_, ?_⟩
  · intro hsd
    rw [hb, hsd, forceMagnitude_scenario.1]
  · intro hsd
    rw [hb, hsd, forceMagnitude_scenario.2.1]
  · intro hsd
    refine ⟨?_, ?_⟩
    · rw [hb, hsd, forceMagnitude_scenario.2.2.1, zero_mul]
    · intro v1 f1 dl_df
      refine ⟨_, BackwardForce_eq _ q v1 f1 dl_df (by norm_num) hn, ?_⟩
      simp only [block_div j]
      rw [hsd, df_dq_eq, hk, hc, forceMagnitude_scenario.2.2.2, zero_smul, zero_mulVec]
      rfl

/-- The statement of `planar_collision_scenario` for three vertices at the three heights of
the scenario, which lie at the signed distances `0`, `-3/10` and `1/5`. -/
theorem planar_collision_scenario_witness :
    9 % 3 = 0 ∧
    (Initialize Real.sqrt blankForce 100 (1 / 10) ![0, 0, 1] 0).1.signedDistance
      (threeHeights ℝ) 0 = 0 ∧
    (Initialize Real.sqrt blankForce 100 (1 / 10) ![0, 0, 1] 0).1.signedDistance
      (threeHeights ℝ) 1 = -3 / 10 ∧
    (Initialize Real.sqrt blankForce 100 (1 / 10) ![0, 0, 1] 0).1.signedDistance
      (threeHeights ℝ) 2 = 1 / 5 ∧
    (Initialize Real.sqrt blankForce 100 (1 / 10) ![0, 0, 1] 0).2 = none ∧
    ∃ f : Fin 9 → ℝ,
      (Initialize Real.sqrt blankForce 100 (1 / 10) ![0, 0, 1] 0).1.ForwardForce
        (threeHeights ℝ) (threeHeights ℝ) = Except.ok f ∧
      ∀ (i : ℕ) (j : Fin 3) (h : 3 * i + j.val < 9),
        ((Initialize Real.sqrt blankForce 100 (1 / 10) ![0, 0, 1] 0).1.signedDistance
            (threeHeights ℝ) i = 0 →
          f ⟨3 * i + j.val, h⟩ = 5 / 2 * (![0, 0, 1] : Fin 3 → ℝ) j) ∧
        ((Initialize Real.sqrt blankForce 100 (1 / 10) ![0, 0, 1] 0).1.signedDistance
            (threeHeights ℝ) i = -3 / 10 →
          f ⟨3 * i + j.val, h⟩ = 30 * (![0, 0, 1] : Fin 3 → ℝ) j) ∧
        ((Initialize Real.sqrt blankForce 100 (1 / 10) ![0, 0, 1] 0).1.signedDistance
            (threeHeights ℝ) i = 1 / 5 →
          f ⟨3 * i + j.val, h⟩ = 0 ∧
          ∀ v1 f1 dl_df : Fin 9 → ℝ, ∃ g : StateForceGradients ℝ 9,
            (Initialize Real.sqrt blankForce 100 (1 / 10) ![0, 0, 1] 0).1.BackwardForce
              (threeHeights ℝ) v1 f1 dl_df = Except.ok g ∧
            g.dl_dq ⟨3 * i + j.val, h⟩ = 0) :=
  ⟨rfl,
    by rw [Initialize_scenario]
       simp [signedDistance, segment, dotProduct, Fin.sum_univ_three, threeHeights,
         scenarioForce],
    by rw [Initialize_scenario]
       simp [signedDistance, segment, dotProduct, Fin.sum_univ_three, threeHeights,
         scenarioForce]
       rfl,
    by rw [Initialize_scenario]
       simp [signedDistance, segment, dotProduct, Fin.sum_univ_three, threeHeights,
         scenarioForce]
       rfl,
    planar_collision_scenario blankForce (threeHeights ℝ) (threeHeights ℝ) rfl⟩

end PlanarCollisionStateForce

namespace PlanarCollisionStateForce

end PlanarCollisionStateForce

namespace Deformable

variable {K : Type} [LinearOrderedField K] {vertex_dim vertex_num act_dofs w_dofs : ℕ}

/-- The error attached to a failed solve names the solver of the method. -/
theorem solveAdjoint_snd (self : Deformable K vertex_dim vertex_num act_dofs w_dofs)
    (sqrt : K → K) (method : String) (abs_tol rel_tol : K)
    (q_next : Fin (vertex_dim * vertex_num) → K) (a : Fin act_dofs → K) (h2m : K)
    (d : Fin (vertex_dim * vertex_num) → Option K) (b : Fin (vertex_dim * vertex_num) → K) :
    (self.solveAdjoint sqrt method abs_tol rel_tol q_next a h2m d b).2
      = if method = "newton_pcg" then Error.cgSolverFailed
        else Error.choleskySolverFailed := by
  unfold solveAdjoint
  split_ifs <;> rfl

/-- Past the precondition checks no precondition error is raised. -/
theorem BackwardNewtonSteps_not_precondition
    (self : Deformable K vertex_dim vertex_num act_dofs w_dofs) (sqrt : K → K)
    (method : String) (q v : Fin (vertex_dim * vertex_num) → K) (a : Fin act_dofs → K)
    (f_ext : Fin (vertex_dim * vertex_num) → K) (dt : K)
    (q_next dl_dq_next dl_dv_next : Fin (vertex_dim * vertex_num) → K) (abs_tol rel_tol : K)
    (e : Error)
    (he : (self.BackwardNewtonSteps sqrt method q v a f_ext dt q_next dl_dq_next dl_dv_next
      abs_tol rel_tol).raised = some e) : e.isPrecondition = false := by
  unfold BackwardNewtonSteps at he
  simp only at he
  split_ifs at he with h1 h2
  · simp only [Option.some.injEq] at he
    rw [← he, solveAdjoint_snd]
    split_ifs <;> rfl
  · cases he
    rfl

/-- The value of `BackwardNewton` once every precondition check has passed. -/
theorem BackwardNewton_of_preconditions
    (self : Deformable K vertex_dim vertex_num act_dofs w_dofs) (sqrt : K → K)
    (method : String) (q v : Fin (vertex_dim * vertex_num) → K) (a : Fin act_dofs → K)
    (f_ext : Fin (vertex_dim * vertex_num) → K) (dt : K)
    (q_next v_next dl_dq_next dl_dv_next : Fin (vertex_dim * vertex_num) → K)
    (options : String → Option K)
    (out : AdjointOutputs K (vertex_dim * vertex_num) act_dofs w_dofs)
    (abs_tol rel_tol thread_ct : K)
    (hm : method = "newton_pcg" ∨ method = "newton_cholesky")
    (ha : options "abs_tol" = some abs_tol) (hr : options "rel_tol" = some rel_tol)
    (ht : options "thread_ct" = some thread_ct)
    (hq : ∀ i x, self.dirichlet_ i = some x → q_next i = x) :
    self.BackwardNewton sqrt method q v a f_ext dt q_next v_next dl_dq_next dl_dv_next
        options out
      = self.BackwardNewtonSteps sqrt method q v a f_ext dt q_next dl_dq_next dl_dv_next
          abs_tol rel_tol := by
  have hq' : ∀ i, self.dirichlet_ i = none ∨ self.dirichlet_ i = some (q_next i) := by
    intro i
    cases hd : self.dirichlet_ i with
    | none => exact Or.inl rfl
    | some x => exact Or.inr (by rw [hq i x hd])
  unfold BackwardNewton
  simp only [hm, not_true_eq_false, if_false, ha, hr, ht, hq', implies_true]

/-- Claim C8: `BackwardNewton` ends with a precondition error exactly when the method is neither
`newton_pcg` nor `newton_cholesky`, or one of the options `abs_tol`, `rel_tol`, `thread_ct` is
absent, or some Dirichlet-constrained entry of `q_next` differs from its prescribed value; in
that case the five output vectors still hold what they held on entry. When none of the
conditions holds, no precondition error is raised. -/
theorem BackwardNewton_precondition_error
    (self : Deformable K vertex_dim vertex_num act_dofs w_dofs) (sqrt : K → K)
    (method : String) (q v : Fin (vertex_dim * vertex_num) → K) (a : Fin act_dofs → K)
    (f_ext : Fin (vertex_dim * vertex_num) → K) (dt : K)
    (q_next v_next dl_dq_next dl_dv_next : Fin (vertex_dim * vertex_num) → K)
    (options : String → Option K)
    (out : AdjointOutputs K (vertex_dim * vertex_num) act_dofs w_dofs) :
    ((¬ (method = "newton_pcg" ∨ method = "newton_cholesky") ∨ options "abs_tol" = none ∨
        options "rel_tol" = none ∨ options "thread_ct" = none ∨
        ∃ i x, self.dirichlet_ i = some x ∧ q_next i ≠ x) ↔
      ∃ e, (self.BackwardNewton sqrt method q v a f_ext dt q_next v_next dl_dq_next
          dl_dv_next options out).raised = some e ∧ e.isPrecondition = true) ∧
    ((¬ (method = "newton_pcg" ∨ method = "newton_cholesky") ∨ options "abs_tol" = none ∨
        options "rel_tol" = none ∨ options "thread_ct" = none ∨
        ∃ i x, self.dirichlet_ i = some x ∧ q_next i ≠ x) →
      (self.BackwardNewton sqrt method q v a f_ext dt q_next v_next dl_dq_next
          dl_dv_next options out).out = out) := by
  by_cases hm : method = "newton_pcg" ∨ method = "newton_cholesky"
  swap
  · have hrun : self.BackwardNewton sqrt method q v a f_ext dt q_next v_next dl_dq_next
        dl_dv_next options out = ⟨out, some (Error.unsupportedMethod method)⟩ := by
      unfold BackwardNewton
      simp only [hm, not_false_eq_true, if_true]
    rw [hrun]
    exact ⟨⟨fun _ => ⟨_, rfl, rfl⟩, fun _ => Or.inl hm⟩, fun _ => rfl⟩
  cases ha : options "abs_tol" with
  | none =>
    have hrun : self.BackwardNewton sqrt method q v a f_ext dt q_next v_next dl_dq_next
        dl_dv_next options out = ⟨out, some Error.missingAbsTol⟩ := by
      unfold BackwardNewton
      simp only [hm, not_true_eq_false, if_false, ha]
    rw [hrun]
    exact ⟨⟨fun _ => ⟨_, rfl, rfl⟩, fun _ => Or.inr (Or.inl rfl)⟩, fun _ => rfl⟩
  | some abs_tol =>
  cases hr : options "rel_tol" with
  | none =>
    have hrun : self.BackwardNewton sqrt method q v a f_ext dt q_next v_next dl_dq_next
        dl_dv_next options out = ⟨out, some Error.missingRelTol⟩ := by
      unfold BackwardNewton
      simp only [hm, not_true_eq_false, if_false, ha, hr]
    rw [hrun]
    exact ⟨⟨fun _ => ⟨_, rfl, rfl⟩, fun _ => Or.inr (Or.inr (Or.inl rfl))⟩, fun _ => rfl⟩
  | some rel_tol =>
  cases ht : options "thread_ct" with
  | none =>
    have hrun : self.BackwardNewton sqrt method q v a f_ext dt q_next v_next dl_dq_next
        dl_dv_next options out = ⟨out, some Error.missingThreadCt⟩ := by
      unfold BackwardNewton
      simp only [hm, not_true_eq_false, if_false, ha, hr, ht]
    rw [hrun]
    exact ⟨⟨fun _ => ⟨_, rfl, rfl⟩, fun _ => Or.inr (Or.inr (Or.inr (Or.inl rfl)))⟩,
      fun _ => rfl⟩
  | some thread_ct =>
  by_cases hq : ∀ i, self.dirichlet_ i = none ∨ self.dirichlet_ i = some (q_next i)
  · have hq' : ∀ i x, self.dirichlet_ i = some x → q_next i = x := by
      intro i x hx
      rcases hq i with h | h
      · rw [h] at hx; cases hx
      · rw [h] at hx; exact Option.some.inj hx
    have hgood : ¬ (¬ (method = "newton_pcg" ∨ method = "newton_cholesky") ∨
        (none : Option K) = some abs_tol ∨ (none : Option K) = some rel_tol ∨
        (none : Option K) = some thread_ct ∨
        ∃ i x, self.dirichlet_ i = some x ∧ q_next i ≠ x) := by
      rintro (h | h | h | h | ⟨i, x, hx, hne⟩)
      · exact h hm
      · cases h
      · cases h
      · cases h
      · exact hne (hq' i x hx)
    have hgood' : ¬ (¬ (method = "newton_pcg" ∨ method = "newton_cholesky") ∨
        some abs_tol = none ∨ some rel_tol = none ∨ some thread_ct = none ∨
        ∃ i x, self.dirichlet_ i = some x ∧ q_next i ≠ x) := by
      rintro (h | h | h | h | ⟨i, x, hx, hne⟩)
      · exact h hm
      · cases h
      · cases h
      · cases h
      · exact hne (hq' i x hx)
    rw [BackwardNewton_of_preconditions self sqrt method q v a f_ext dt q_next v_next
      dl_dq_next dl_dv_next options out abs_tol rel_tol thread_ct hm ha hr ht hq']
    refine ⟨⟨fun h => absurd h hgood', ?_⟩, fun h => absurd h hgood'⟩
    rintro ⟨e, he, hpre⟩
    have := BackwardNewtonSteps_not_precondition self sqrt method q v a f_ext dt q_next
      dl_dq_next dl_dv_next abs_tol rel_tol e he
    rw [this] at hpre
    cases hpre
  · have hrun : self.BackwardNewton sqrt method q v a f_ext dt q_next v_next dl_dq_next
        dl_dv_next options out = ⟨out, some Error.inconsistentQNext⟩ := by
      unfold BackwardNewton
      simp only [hm, not_true_eq_false, if_false, ha, hr, ht, hq, not_false_eq_true, if_true]
    rw [hrun]
    refine ⟨⟨fun _ => ⟨_, rfl, rfl⟩, fun _ => ?_⟩, fun _ => rfl⟩
    right; right; right; right
    by_contra hcon
    apply hq
    intro i
    cases hd : self.dirichlet_ i with
    | none => exact Or.inl rfl
    | some x =>
      right
      by_contra hne
      apply hcon
      refine ⟨i, x, hd, ?_⟩
      intro heq
      apply hne
      rw [heq]

end Deformable

namespace Deformable

variable {K : Type} [LinearOrderedField K] {vertex_dim vertex_num act_dofs w_dofs : ℕ}

/-- Claim C9 as stated fails: with solvers that report failure and the seed
`dl_dv_next = (1, 0, ..., 0)`, `dt = 1`, the call ends with the error of the CG solver while
`dl_dq`, all zero on entry, holds `-dl_dv_next / dt`, the contribution of the velocity update
alone. -/
theorem BackwardNewton_solver_failure_partial_value :
    (springBodyFailingSolver.BackwardNewton id "newton_pcg" springQ springV 0 0 1 springQNext
        springVNext 0 springSeed fullOptions (zeroOutputs 8 8 0)).raised
      = some Error.cgSolverFailed ∧
    (springBodyFailingSolver.BackwardNewton id "newton_pcg" springQ springV 0 0 1 springQNext
        springVNext 0 springSeed fullOptions (zeroOutputs 8 8 0)).out.dl_dq
      = ![-1, 0, 0, 0, 0, 0, 0, 0] ∧
    (springBodyFailingSolver.BackwardNewton id "newton_pcg" springQ springV 0 0 1 springQNext
        springVNext 0 springSeed fullOptions (zeroOutputs 8 8 0)).out.dl_dq
      ≠ (zeroOutputs 8 8 0).dl_dq := by
  decide!

/-- Claim C9, amended: for either method, when every precondition holds and the linear solver
of the method reports non-success, `BackwardNewton` ends with the error of that solver and
runs none of the stages after the solve; the five output vectors have by then been reset and
the seed of the velocity update applied, so `dl_dq = -dl_dv_next / dt` and `dl_dv`, `dl_da`,
`dl_df_ext`, `dl_dw` are zero, whatever they held on entry. -/
theorem BackwardNewton_solver_failure
    (self : Deformable K vertex_dim vertex_num act_dofs w_dofs) (sqrt : K → K)
    (method : String) (q v : Fin (vertex_dim * vertex_num) → K) (a : Fin act_dofs → K)
    (f_ext : Fin (vertex_dim * vertex_num) → K) (dt : K)
    (q_next v_next dl_dq_next dl_dv_next : Fin (vertex_dim * vertex_num) → K)
    (options : String → Option K)
    (out : AdjointOutputs K (vertex_dim * vertex_num) act_dofs w_dofs)
    (abs_tol rel_tol thread_ct : K)
    (hm : method = "newton_pcg" ∨ method = "newton_cholesky")
    (ha : options "abs_tol" = some abs_tol) (hr : options "rel_tol" = some rel_tol)
    (ht : options "thread_ct" = some thread_ct)
    (hq : ∀ i x, self.dirichlet_ i = some x → q_next i = x)
    (hcg : method = "newton_pcg" →
      (self.ConjugateGradient
        (rel_tol + abs_tol / vecNorm sqrt (dl_dq_next_agg dt dl_dq_next dl_dv_next))
        (self.NewtonMatrix q_next a (dt / self.mass * dt)
          (self.frictionForward q v a f_ext dt).2)
        (dl_dq_next_agg dt dl_dq_next dl_dv_next)).success = false)
    (hch : method = "newton_cholesky" →
      (self.SimplicialLDLT
        (self.NewtonMatrix q_next a (dt / self.mass * dt)
          (self.frictionForward q v a f_ext dt).2)
        (dl_dq_next_agg dt dl_dq_next dl_dv_next)).success = false) :
    self.BackwardNewton sqrt method q v a f_ext dt q_next v_next dl_dq_next dl_dv_next
        options out
      = ⟨{ dl_dq := (1 / dt) • (-dl_dv_next), dl_dv := 0, dl_da := 0, dl_df_ext := 0,
           dl_dw := 0 },
         some (if method = "newton_pcg" then Error.cgSolverFailed
               else Error.choleskySolverFailed)⟩ := by
  rw [BackwardNewton_of_preconditions self sqrt method q v a f_ext dt q_next v_next
    dl_dq_next dl_dv_next options out abs_tol rel_tol thread_ct hm ha hr ht hq]
  have hfail : (self.solveAdjoint sqrt method abs_tol rel_tol q_next a (dt / self.mass * dt)
      (self.frictionForward q v a f_ext dt).2
      (dl_dq_next_agg dt dl_dq_next dl_dv_next)).1.success = false := by
    unfold solveAdjoint
    by_cases h : method = "newton_pcg"
    · simp only [h, if_true]
      exact hcg h
    · simp only [h, if_false]
      exact hch (hm.resolve_left h)
  unfold BackwardNewtonSteps
  simp only [hfail, if_true, solveAdjoint_snd, zero_add]

/-- The statement of `BackwardNewton_solver_failure` for the spring body whose solvers report
failure, with the method `newton_pcg`. -/
theorem BackwardNewton_solver_failure_witness :
    springBodyFailingSolver.BackwardNewton id "newton_pcg" springQ springV 0 0 1 springQNext
        springVNext 0 springSeed fullOptions (zeroOutputs 8 8 0)
      = ⟨{ dl_dq := (1 / (1 : ℚ)) • (-springSeed), dl_dv := 0, dl_da := 0, dl_df_ext := 0,
           dl_dw := 0 },
         some (if "newton_pcg" = "newton_pcg" then Error.cgSolverFailed
               else Error.choleskySolverFailed)⟩ :=
  BackwardNewton_solver_failure springBodyFailingSolver id "newton_pcg" springQ springV 0 0 1
    springQNext springVNext 0 springSeed fullOptions (zeroOutputs 8 8 0)
    (1 / 1000000) (1 / 1000000) 1 (Or.inl rfl) rfl rfl rfl
    (fun i x h => by cases h) (fun _ => rfl) (fun h => absurd h (by decide))

end Deformable

namespace Deformable

variable {K : Type} [LinearOrderedField K] {vertex_dim vertex_num act_dofs w_dofs : ℕ}

/-- Past the solve, a body whose number of actuation signals differs from its number of
degrees of freedom cannot complete line 157. -/
theorem BackwardNewtonSteps_size_mismatch
    (self : Deformable K vertex_dim vertex_num act_dofs w_dofs) (sqrt : K → K)
    (method : String) (q v : Fin (vertex_dim * vertex_num) → K) (a : Fin act_dofs → K)
    (f_ext : Fin (vertex_dim * vertex_num) → K) (dt : K)
    (q_next dl_dq_next dl_dv_next : Fin (vertex_dim * vertex_num) → K) (abs_tol rel_tol : K)
    (hsize : act_dofs ≠ vertex_dim * vertex_num)
    (hsolve : (self.solveAdjoint sqrt method abs_tol rel_tol q_next a (dt / self.mass * dt)
      (self.frictionForward q v a f_ext dt).2
      (dl_dq_next_agg dt dl_dq_next dl_dv_next)).1.success = true) :
    (self.BackwardNewtonSteps sqrt method q v a f_ext dt q_next dl_dq_next dl_dv_next
      abs_tol rel_tol).raised = some Error.eigenSizeMismatch := by
  unfold BackwardNewtonSteps
  simp only [hsolve, Bool.true_eq_false, if_false, hsize, dite_false]

/-- Claim C10 at a failing input, the call on a body with nine actuation signals and eight degrees of freedom:
both seeds are zero, every precondition holds and the solver succeeds, yet for either method
the call ends at line 157, where a vector of eight entries is added to `dl_da`, which has
nine. -/
theorem BackwardNewton_zero_seed_size_mismatch :
    (springBodyNineSignals.BackwardNewton id "newton_pcg" springQ springV 0 0 1 springQNext
        springVNext 0 0 fullOptions (zeroOutputs 8 9 0)).raised
      = some Error.eigenSizeMismatch ∧
    (springBodyNineSignals.BackwardNewton id "newton_cholesky" springQ springV 0 0 1
        springQNext springVNext 0 0 fullOptions (zeroOutputs 8 9 0)).raised
      = some Error.eigenSizeMismatch := by
  decide!

/-- Entry 5 of a vector of eight entries. -/
theorem vec8_five {α : Type} (a b c d e f g h : α) : ![a, b, c, d, e, f, g, h] 5 = f := rfl

/-- Entry 6 of a vector of eight entries. -/
theorem vec8_six {α : Type} (a b c d e f g h : α) : ![a, b, c, d, e, f, g, h] 6 = g := rfl

/-- Entry 7 of a vector of eight entries. -/
theorem vec8_seven {α : Type} (a b c d e f g h : α) : ![a, b, c, d, e, f, g, h] 7 = h := rfl

/-- The rebuilt contact of the spring body along the line `springQ + t springSeed`: vertex 0
hits the floor at time `1/2`. -/
theorem springBody_frictionForward (t : ℚ) :
    springBody.frictionForward (springQ + t • springSeed) springV 0 0 1
      = (setSegment (springBody.rhs_dirichlet (springQ + t • springSeed) springV 0 1) 0
            (![t, 1] + (1 / 2 : ℚ) • ![1 - t, -2]),
         setSegment springBody.dirichlet_ 0
            fun i => some ((![t, 1] + (1 / 2 : ℚ) • ![1 - t, -2]) i)) := by
  have hv : segment 2 (springBody.v_pred (springQ + t • springSeed) springV 0 0 1) 0
      = ![1 - t, -2] := by
    funext j
    fin_cases j <;>
      simp [segment, v_pred, springBody, mass, springQ, springV, springSeed] <;> ring
  have hq : segment 2 (springQ + t • springSeed) 0 = ![t, 1] := by
    funext j
    fin_cases j <;> simp [segment, springQ, springSeed]
  have hl : springBody.frictional_boundary_vertex_indices_ = [0] := rfl
  have hI : springBody.ForwardIntersect ![t, 1] ![1 - t, -2] 1 = some (1 / 2) := by
    simp [springBody]
  unfold frictionForward
  rw [hl, List.foldl_cons, List.foldl_nil]
  unfold frictionForwardStep
  simp only [Fin.val_zero, hv, hq]
  rw [hI]

/-- Claim C1 at a failing input, the call on the spring body with the seeds `dl_dq_next = springSeed` and
`dl_dv_next = 0`, so that the loss is the first coordinate of `q_next`. The input is a result
of the forward step. The step does not depend on the actuation signal, so the loss has
derivative zero along every direction in `a`. Along the line `q + t springSeed` the step has
a result for every `t` and the loss of every result is `1/2 + t/2`, so its derivative along
`springSeed` is `1/2`. For either method `BackwardNewton` returns
`dl_da = (-1/2, -1/4, 0, ..., 0)`, which is the term
`(dt / m) ElasticForceDifferential(q, dl_dv_pred)` that line 157 adds to `dl_da`, and
`dl_dq = (1, 1/2, 0, ..., 0)`, which lacks that term: `dl_dq . springSeed = 1`. -/
theorem BackwardNewton_elastic_term_in_dl_da :
    springBody.IsForwardStep springQ springV 0 0 1 springQNext springVNext ∧
    (∀ (q v : Fin (2 * 4) → ℚ) (a a1 : Fin 8 → ℚ) (f_ext : Fin (2 * 4) → ℚ) (dt : ℚ)
        (q_next v_next : Fin (2 * 4) → ℚ),
      springBody.IsForwardStep q v a f_ext dt q_next v_next ↔
        springBody.IsForwardStep q v a1 f_ext dt q_next v_next) ∧
    (∀ t : ℚ, springBody.IsForwardStep (springQ + t • springSeed) springV 0 0 1
      (springQNext + (t / 2) • springSeed)
      (springQNext + (t / 2) • springSeed - (springQ + t • springSeed))) ∧
    (∀ (t : ℚ) (q_next v_next : Fin (2 * 4) → ℚ),
      springBody.IsForwardStep (springQ + t • springSeed) springV 0 0 1 q_next v_next →
        dotProduct springSeed q_next + dotProduct 0 v_next = 1 / 2 + t * (1 / 2)) ∧
    (∀ method : String, method = "newton_pcg" ∨ method = "newton_cholesky" →
      (springBody.BackwardNewton id method springQ springV 0 0 1 springQNext springVNext
          springSeed 0 fullOptions (zeroOutputs 8 8 0)).raised = none ∧
      (springBody.BackwardNewton id method springQ springV 0 0 1 springQNext springVNext
          springSeed 0 fullOptions (zeroOutputs 8 8 0)).out.dl_da
        = ![-1 / 2, -1 / 4, 0, 0, 0, 0, 0, 0] ∧
      (springBody.BackwardNewton id method springQ springV 0 0 1 springQNext springVNext
          springSeed 0 fullOptions (zeroOutputs 8 8 0)).out.dl_dq
        = ![1, 1 / 2, 0, 0, 0, 0, 0, 0] ∧
      dotProduct (springBody.BackwardNewton id method springQ springV 0 0 1 springQNext
          springVNext springSeed 0 fullOptions (zeroOutputs 8 8 0)).out.dl_dq springSeed = 1 ∧
      (springBody.BackwardNewton id method springQ springV 0 0 1 springQNext springVNext
          springSeed 0 fullOptions (zeroOutputs 8 8 0)).out.dl_dv
        = ![1 / 2, 1 / 4, 0, 0, 0, 0, 0, 0] ∧
      (springBody.BackwardNewton id method springQ springV 0 0 1 springQNext springVNext
          springSeed 0 fullOptions (zeroOutputs 8 8 0)).out.dl_df_ext
        = ![1 / 2, 1 / 4, 0, 0, 0, 0, 0, 0]) := by
  refine ⟨?_, ?_, ?_, ?_, ?_⟩
  · unfold IsForwardStep
    decide!
  · intro q v a a1 f_ext dt q_next v_next
    exact Iff.rfl
  · intro t
    unfold IsForwardStep
    rw [springBody_frictionForward]
    refine ⟨?_, by simp⟩
    intro i
    fin_cases i <;>
      (simp [setSegment, rhs_dirichlet, rhs, springBody, mass, springQ, springV, springSeed,
        springQNext, vec8_five, vec8_six, vec8_seven]
       try ring)
  · intro t q_next v_next h
    have h0 := h.1 ⟨0, by norm_num⟩
    rw [springBody_frictionForward] at h0
    simp [setSegment] at h0
    have hd : dotProduct springSeed q_next = q_next 0 := by
      simp [dotProduct, springSeed, Fin.sum_univ_eight, vec8_five, vec8_six, vec8_seven]
    rw [hd, h0, zero_dotProduct]
    ring
  · rintro method (rfl | rfl)
    · decide!
    · decide!

end Deformable

section ZeroVectors

variable {K : Type} [LinearOrderedField K]

/-- A block of the zero vector is zero. -/
theorem segment_zero {n : ℕ} (vd : ℕ) (i : ℕ) :
    segment vd (0 : Fin n → K) i = 0 := by
  funext j
  unfold segment
  split_ifs <;> rfl

/-- Writing a zero block into the zero vector leaves it zero. -/
theorem setSegment_zero {n vd : ℕ} (i : ℕ) :
    setSegment (0 : Fin n → K) i (0 : Fin vd → K) = 0 := by
  funext idx
  unfold setSegment
  split_ifs <;> rfl

end ZeroVectors

namespace Deformable

variable {K : Type} [LinearOrderedField K] {vertex_dim vertex_num act_dofs w_dofs : ℕ}

/-- With a zero right-hand-side gradient and a boundary whose backward operator maps the zero
seed to zero, the loop that reverses the contacts keeps its three vectors zero. -/
theorem foldl_frictionBackwardStep_zero
    (self : Deformable K vertex_dim vertex_num act_dofs w_dofs)
    (q v_pred : Fin (vertex_dim * vertex_num) → K) (dt : K)
    (hbi : ∀ qi vi t, self.BackwardIntersect qi vi t 0 = (0, 0))
    (l : List (Fin vertex_num)) :
    l.foldl (self.frictionBackwardStep q v_pred dt 0)
        { dl_drhs_dirichlet := 0, dl_dq := 0, dl_dv_pred := 0 }
      = { dl_drhs_dirichlet := 0, dl_dq := 0, dl_dv_pred := 0 } := by
  induction l with
  | nil => rfl
  | cons idx l ih =>
    rw [List.foldl_cons]
    have hstep : self.frictionBackwardStep q v_pred dt 0
        { dl_drhs_dirichlet := 0, dl_dq := 0, dl_dv_pred := 0 } idx
        = { dl_drhs_dirichlet := 0, dl_dq := 0, dl_dv_pred := 0 } := by
      unfold frictionBackwardStep
      cases hI : self.ForwardIntersect (segment vertex_dim q idx.val)
          (segment vertex_dim v_pred idx.val) dt with
      | none => simp only [hI]
      | some t_hit => simp only [hI, segment_zero, hbi, add_zero, setSegment_zero]
    rw [hstep, ih]

/-- When the number of actuation signals equals the number of degrees of freedom, zero seeds
give zero gradients: for either method, if the solver returns the zero solution of the zero
right-hand side and reports success, and the Newton operator, the boundary, the state forces,
the elastic force and the projective-dynamics force map a zero seed to zero, then
`BackwardNewton` completes and returns five zero vectors. -/
theorem BackwardNewton_zero_seed_of_size_eq
    (self : Deformable K vertex_dim vertex_num act_dofs w_dofs) (sqrt : K → K)
    (method : String) (q v : Fin (vertex_dim * vertex_num) → K) (a : Fin act_dofs → K)
    (f_ext : Fin (vertex_dim * vertex_num) → K) (dt : K)
    (q_next v_next : Fin (vertex_dim * vertex_num) → K) (options : String → Option K)
    (out : AdjointOutputs K (vertex_dim * vertex_num) act_dofs w_dofs)
    (abs_tol rel_tol thread_ct : K)
    (hm : method = "newton_pcg" ∨ method = "newton_cholesky")
    (ha : options "abs_tol" = some abs_tol) (hr : options "rel_tol" = some rel_tol)
    (ht : options "thread_ct" = some thread_ct)
    (hq : ∀ i x, self.dirichlet_ i = some x → q_next i = x)
    (hsize : act_dofs = vertex_dim * vertex_num)
    (hcg : ∀ tol op, self.ConjugateGradient tol op 0 = ⟨0, true⟩)
    (hch : ∀ op, self.SimplicialLDLT op 0 = ⟨0, true⟩)
    (hop : ∀ h2m d, self.NewtonMatrixOp q_next a h2m d 0 = 0)
    (hbi : ∀ qi vi t, self.BackwardIntersect qi vi t 0 = (0, 0))
    (hbs : ∀ f, self.BackwardStateForce q v f 0 = (0, 0))
    (hel : self.ElasticForceDifferential q 0 = 0)
    (hpd : self.PdEnergyForceDifferentialOp q 0 0 = 0) :
    self.BackwardNewton sqrt method q v a f_ext dt q_next v_next 0 0 options out
      = ⟨{ dl_dq := 0, dl_dv := 0, dl_da := 0, dl_df_ext := 0, dl_dw := 0 }, none⟩ := by
  rw [BackwardNewton_of_preconditions self sqrt method q v a f_ext dt q_next v_next
    0 0 options out abs_tol rel_tol thread_ct hm ha hr ht hq]
  have hagg : dl_dq_next_agg dt (0 : Fin (vertex_dim * vertex_num) → K) 0 = 0 := by
    unfold dl_dq_next_agg
    simp
  have hsol : ∀ d, (self.solveAdjoint sqrt method abs_tol rel_tol q_next a
      (dt / self.mass * dt) d 0).1 = ⟨0, true⟩ := by
    intro d
    unfold solveAdjoint
    split_ifs
    · exact hcg _ _
    · exact hch _
  have hawz : ∀ d : Fin (vertex_dim * vertex_num) → Option K,
      adjoint_with_zero d (0 : Fin (vertex_dim * vertex_num) → K) = 0 := by
    intro d
    funext i
    unfold adjoint_with_zero
    split_ifs <;> rfl
  have hdrf : ∀ d, self.dl_drhs_friction q_next a (dt / self.mass * dt) d 0 = 0 := by
    intro d
    funext i
    unfold dl_drhs_friction
    simp only [hawz, neg_zero, hop, Pi.zero_apply, add_zero, ite_self]
  have hdr : self.dl_drhs (0 : Fin (vertex_dim * vertex_num) → K) = 0 := by
    funext i
    unfold dl_drhs
    split_ifs <;> rfl
  unfold BackwardNewtonSteps
  simp only [hagg, hsol, Bool.true_eq_false, if_false, hsize, dite_true, hawz, hdrf,
    neg_zero, smul_zero, add_zero, zero_add, foldl_frictionBackwardStep_zero self _ _ _ hbi,
    hdr, hbs, hel, hpd, zero_vecMul]
  congr 1

end Deformable

section Repulsion

variable {K : Type} [LinearOrderedField K]

end Repulsion

namespace PlanarCollisionStateForce

end PlanarCollisionStateForce

namespace PlanarCollisionStateForce

/-- The object that a successful `Initialize` leaves behind. -/
theorem Initialize_success {vertex_dim : ℕ} (self : PlanarCollisionStateForce ℝ vertex_dim)
    (k d0 : ℝ) (m : Fin vertex_dim → ℝ) (c : ℝ)
    (hnorm : singularNormalThreshold ℝ < Real.sqrt (∑ i, m i * m i)) (hk : 0 < k) (hd0 : 0 < d0) :
    Initialize Real.sqrt self k d0 m c
      = ({ parameters := ![k, d0]
           normal_ := fun i => m i / Real.sqrt (∑ i, m i * m i)
           offset_ := c / Real.sqrt (∑ i, m i * m i)
           nnt_ := vecMulVec (fun i => m i / Real.sqrt (∑ i, m i * m i))
             (fun i => m i / Real.sqrt (∑ i, m i * m i)) }, none) := by
  have hn : vecNorm Real.sqrt m = Real.sqrt (∑ i, m i * m i) := rfl
  have hgt : Real.sqrt (∑ i, m i * m i) > singularNormalThreshold ℝ := hnorm
  unfold Initialize
  simp only [hn, hgt, not_true_eq_false, if_false, hk, hd0, and_self, gt_iff_lt]

/-- The norm of a rescaled normal. -/
theorem sqrt_sum_smul {vertex_dim : ℕ} (m : Fin vertex_dim → ℝ) (s : ℝ) (hs : 0 < s) :
    Real.sqrt (∑ i, (s • m) i * (s • m) i) = s * Real.sqrt (∑ i, m i * m i) := by
  have h1 : ∑ i, (s • m) i * (s • m) i = s ^ 2 * ∑ i, m i * m i := by
    rw [Finset.mul_sum]
    apply Finset.sum_congr rfl
    intro i _
    simp only [Pi.smul_apply, smul_eq_mul]
    ring
  rw [h1, Real.sqrt_mul (sq_nonneg s), Real.sqrt_sq (le_of_lt hs)]

/-- The stored normal has unit length. -/
theorem unit_normal {vertex_dim : ℕ} (m : Fin vertex_dim → ℝ)
    (hpos : 0 < Real.sqrt (∑ i, m i * m i)) :
    dotProduct (fun i => m i / Real.sqrt (∑ i, m i * m i))
      (fun i => m i / Real.sqrt (∑ i, m i * m i)) = 1 := by
  have hne : Real.sqrt (∑ i, m i * m i) ≠ 0 := ne_of_gt hpos
  have hnn : 0 ≤ ∑ i, m i * m i := Finset.sum_nonneg fun i _ => mul_self_nonneg (m i)
  have hsq : Real.sqrt (∑ i, m i * m i) * Real.sqrt (∑ i, m i * m i) = ∑ i, m i * m i :=
    Real.mul_self_sqrt hnn
  have h1 : dotProduct (fun i => m i / Real.sqrt (∑ i, m i * m i))
      (fun i => m i / Real.sqrt (∑ i, m i * m i))
      = (∑ i, m i * m i) / (Real.sqrt (∑ i, m i * m i) * Real.sqrt (∑ i, m i * m i)) := by
    simp only [dotProduct, Finset.sum_div]
    apply Finset.sum_congr rfl
    intro i _
    field_simp
  rw [h1, hsq]
  exact div_self (by rw [← hsq]; exact mul_ne_zero hne hne)

end PlanarCollisionStateForce

namespace PlanarCollisionStateForce

/-- The value `(m . x + c) / |m|` is the Euclidean signed distance of `x` to the plane
`m . y + c = 0`: no point of the plane is closer to `x` than its absolute value, and the point
`x - d n`, with `n = m / |m|`, lies on the plane at exactly that distance. -/
theorem euclidean_signed_distance {vertex_dim : ℕ} (m : Fin vertex_dim → ℝ) (c : ℝ)
    (hpos : 0 < Real.sqrt (∑ i, m i * m i)) (x : Fin vertex_dim → ℝ) :
    (∀ y : Fin vertex_dim → ℝ, dotProduct m y + c = 0 →
      ((dotProduct m x + c) / Real.sqrt (∑ i, m i * m i)) ^ 2 ≤ ∑ i, (x i - y i) ^ 2) ∧
    dotProduct m (x - ((dotProduct m x + c) / Real.sqrt (∑ i, m i * m i)) •
      fun i => m i / Real.sqrt (∑ i, m i * m i)) + c = 0 ∧
    ∑ i, (x i - (x - ((dotProduct m x + c) / Real.sqrt (∑ i, m i * m i)) •
      fun i => m i / Real.sqrt (∑ i, m i * m i)) i) ^ 2
      = ((dotProduct m x + c) / Real.sqrt (∑ i, m i * m i)) ^ 2 := by
  have hne : Real.sqrt (∑ i, m i * m i) ≠ 0 := ne_of_gt hpos
  have hnn : 0 ≤ ∑ i, m i * m i := Finset.sum_nonneg fun i _ => mul_self_nonneg (m i)
  have hsq : Real.sqrt (∑ i, m i * m i) * Real.sqrt (∑ i, m i * m i) = ∑ i, m i * m i :=
    Real.mul_self_sqrt hnn
  have hunit := unit_normal m hpos
  have hunit' : ∑ i, (m i / Real.sqrt (∑ i, m i * m i)) ^ 2 = 1 := by
    rw [← hunit]
    simp only [dotProduct]
    apply Finset.sum_congr rfl
    intro i _
    ring
  refine ⟨?_, ?_, ?_⟩
  · intro y hy
    have h1 : (dotProduct m x + c) / Real.sqrt (∑ i, m i * m i)
        = ∑ i, (m i / Real.sqrt (∑ i, m i * m i)) * (x i - y i) := by
      have h2 : dotProduct m x + c = dotProduct m x - dotProduct m y := by linarith
      rw [h2]
      simp only [dotProduct, ← Finset.sum_sub_distrib, Finset.sum_div]
      apply Finset.sum_congr rfl
      intro i _
      field_simp
      ring
    rw [h1]
    have hcs := Finset.sum_mul_sq_le_sq_mul_sq Finset.univ
      (fun i => m i / Real.sqrt (∑ i, m i * m i)) (fun i => x i - y i)
    rw [hunit', one_mul] at hcs
    exact hcs
  · have hmn : dotProduct m (fun i => m i / Real.sqrt (∑ i, m i * m i))
        = Real.sqrt (∑ i, m i * m i) := by
      have h3 : dotProduct m (fun i => m i / Real.sqrt (∑ i, m i * m i))
          = (∑ i, m i * m i) / Real.sqrt (∑ i, m i * m i) := by
        simp only [dotProduct, Finset.sum_div]
        apply Finset.sum_congr rfl
        intro i _
        ring
      rw [h3, div_eq_iff hne]
      exact hsq.symm
    rw [dotProduct_sub, dotProduct_smul, hmn, smul_eq_mul]
    have hcancel : (dotProduct m x + c) / Real.sqrt (∑ i, m i * m i)
        * Real.sqrt (∑ i, m i * m i) = dotProduct m x + c := div_mul_cancel₀ _ hne
    linarith
  · have h4 : ∀ i, (x i - (x - ((dotProduct m x + c) / Real.sqrt (∑ i, m i * m i)) •
        fun i => m i / Real.sqrt (∑ i, m i * m i)) i) ^ 2
        = ((dotProduct m x + c) / Real.sqrt (∑ i, m i * m i)) ^ 2
            * (m i / Real.sqrt (∑ i, m i * m i)) ^ 2 := by
      intro i
      simp only [Pi.sub_apply, Pi.smul_apply, smul_eq_mul]
      ring
    rw [Finset.sum_congr rfl (fun i _ => h4 i), ← Finset.mul_sum, hunit', mul_one]

/-- Claim C17: after a successful `Initialize` with input normal `m` of Euclidean norm above
the value of the literal `1e-5` and offset `c`, the stored normal is the unit vector `m / |m|`,
the stored offset is `c / |m|` and `nnt_` is the outer product of the stored normal with
itself. Rescaling the input pair to `(s m, s c)` with `s > 0` and the norm still above that
value builds the same object, so `ForwardForce` and `BackwardForce` do not change. The signed distance `d` is
`(m . x + c) / |m|`, the Euclidean signed distance of the vertex to the plane
`m . x + c = 0`. -/
theorem Initialize_normalizes {vertex_dim : ℕ} (self : PlanarCollisionStateForce ℝ vertex_dim)
    (k d0 : ℝ) (m : Fin vertex_dim → ℝ) (c s : ℝ)
    (hnorm : singularNormalThreshold ℝ < Real.sqrt (∑ i, m i * m i)) (hk : 0 < k) (hd0 : 0 < d0)
    (hs : 0 < s) (hsn : singularNormalThreshold ℝ < Real.sqrt (∑ i, (s • m) i * (s • m) i)) :
    (Initialize Real.sqrt self k d0 m c).2 = none ∧
    (Initialize Real.sqrt self k d0 m c).1.normal_
      = (fun i => m i / Real.sqrt (∑ i, m i * m i)) ∧
    dotProduct (Initialize Real.sqrt self k d0 m c).1.normal_
      (Initialize Real.sqrt self k d0 m c).1.normal_ = 1 ∧
    (Initialize Real.sqrt self k d0 m c).1.offset_ = c / Real.sqrt (∑ i, m i * m i) ∧
    (Initialize Real.sqrt self k d0 m c).1.nnt_
      = vecMulVec (Initialize Real.sqrt self k d0 m c).1.normal_
          (Initialize Real.sqrt self k d0 m c).1.normal_ ∧
    Initialize Real.sqrt self k d0 (s • m) (s * c) = Initialize Real.sqrt self k d0 m c ∧
    (∀ {n l : ℕ} (q : Fin n → ℝ) (v : Fin l → ℝ),
      (Initialize Real.sqrt self k d0 (s • m) (s * c)).1.ForwardForce q v
        = (Initialize Real.sqrt self k d0 m c).1.ForwardForce q v) ∧
    (∀ {n : ℕ} (q v f dl_df : Fin n → ℝ),
      (Initialize Real.sqrt self k d0 (s • m) (s * c)).1.BackwardForce q v f dl_df
        = (Initialize Real.sqrt self k d0 m c).1.BackwardForce q v f dl_df) ∧
    (∀ {n : ℕ} (q : Fin n → ℝ) (i : ℕ),
      (Initialize Real.sqrt self k d0 m c).1.signedDistance q i
        = (dotProduct m (segment vertex_dim q i) + c) / Real.sqrt (∑ i, m i * m i)) ∧
    (∀ x y : Fin vertex_dim → ℝ, dotProduct m y + c = 0 →
      ((dotProduct m x + c) / Real.sqrt (∑ i, m i * m i)) ^ 2 ≤ ∑ i, (x i - y i) ^ 2) ∧
    (∀ x : Fin vertex_dim → ℝ,
      dotProduct m (x - ((dotProduct m x + c) / Real.sqrt (∑ i, m i * m i)) •
        fun i => m i / Real.sqrt (∑ i, m i * m i)) + c = 0 ∧
      ∑ i, (x i - (x - ((dotProduct m x + c) / Real.sqrt (∑ i, m i * m i)) •
        fun i => m i / Real.sqrt (∑ i, m i * m i)) i) ^ 2
        = ((dotProduct m x + c) / Real.sqrt (∑ i, m i * m i)) ^ 2) := by
  have hpos : 0 < Real.sqrt (∑ i, m i * m i) := lt_trans (by norm_num [singularNormalThreshold]) hnorm
  have hne : Real.sqrt (∑ i, m i * m i) ≠ 0 := ne_of_gt hpos
  have hsne : s ≠ 0 := ne_of_gt hs
  have hscaled : Initialize Real.sqrt self k d0 (s • m) (s * c)
      = Initialize Real.sqrt self k d0 m c := by
    rw [Initialize_success self k d0 (s • m) (s * c) hsn hk hd0,
      Initialize_success self k d0 m c hnorm hk hd0, sqrt_sum_smul m s hs]
    have hnl : (fun i => (s • m) i / (s * Real.sqrt (∑ i, m i * m i)))
        = fun i => m i / Real.sqrt (∑ i, m i * m i) := by
      funext i
      simp only [Pi.smul_apply, smul_eq_mul]
      field_simp
      ring
    have hof : s * c / (s * Real.sqrt (∑ i, m i * m i))
        = c / Real.sqrt (∑ i, m i * m i) := by
      field_simp
      ring
    rw [hnl, hof]
  rw [hscaled, Initialize_success self k d0 m c hnorm hk hd0]
  refine ⟨rfl, rfl, unit_normal m hpos, rfl, rfl, rfl, fun _ _ => rfl, fun _ _ _ _ => rfl,
    ?_, fun x y hy => (euclidean_signed_distance m c hpos x).1 y hy,
    fun x => (euclidean_signed_distance m c hpos x).2⟩
  intro n q i
  simp only [signedDistance, dotProduct, add_div, Finset.sum_div]
  congr 1
  apply Finset.sum_congr rfl
  intro j _
  ring

end PlanarCollisionStateForce

namespace PlanarCollisionStateForce

/-- The statement of `Initialize_normalizes` for the normal `(0, 0, 1)`, the offset `3`, the
stiffness `100`, the cutoff `1/10` and the scale `2`. -/
theorem Initialize_normalizes_witness :
    singularNormalThreshold ℝ < Real.sqrt (∑ i, (![0, 0, 1] : Fin 3 → ℝ) i * (![0, 0, 1] : Fin 3 → ℝ) i) ∧
    (0 : ℝ) < 100 ∧ (0 : ℝ) < 1 / 10 ∧ (0 : ℝ) < 2 ∧
    singularNormalThreshold ℝ < Real.sqrt (∑ i, ((2 : ℝ) • (![0, 0, 1] : Fin 3 → ℝ)) i
      * ((2 : ℝ) • (![0, 0, 1] : Fin 3 → ℝ)) i) ∧
    (Initialize Real.sqrt blankForce 100 (1 / 10) (![0, 0, 1] : Fin 3 → ℝ) 3).2 = none ∧
    (Initialize Real.sqrt blankForce 100 (1 / 10) (![0, 0, 1] : Fin 3 → ℝ) 3).1.normal_
      = (fun i => (![0, 0, 1] : Fin 3 → ℝ) i / Real.sqrt (∑ i, (![0, 0, 1] : Fin 3 → ℝ) i * (![0, 0, 1] : Fin 3 → ℝ) i)) ∧
    dotProduct (Initialize Real.sqrt blankForce 100 (1 / 10) (![0, 0, 1] : Fin 3 → ℝ) 3).1.normal_
      (Initialize Real.sqrt blankForce 100 (1 / 10) (![0, 0, 1] : Fin 3 → ℝ) 3).1.normal_ = 1 ∧
    (Initialize Real.sqrt blankForce 100 (1 / 10) (![0, 0, 1] : Fin 3 → ℝ) 3).1.offset_ = 3 / Real.sqrt (∑ i, (![0, 0, 1] : Fin 3 → ℝ) i * (![0, 0, 1] : Fin 3 → ℝ) i) ∧
    (Initialize Real.sqrt blankForce 100 (1 / 10) (![0, 0, 1] : Fin 3 → ℝ) 3).1.nnt_
      = vecMulVec (Initialize Real.sqrt blankForce 100 (1 / 10) (![0, 0, 1] : Fin 3 → ℝ) 3).1.normal_
          (Initialize Real.sqrt blankForce 100 (1 / 10) (![0, 0, 1] : Fin 3 → ℝ) 3).1.normal_ ∧
    Initialize Real.sqrt blankForce 100 (1 / 10) ((2 : ℝ) • (![0, 0, 1] : Fin 3 → ℝ)) (2 * 3) = Initialize Real.sqrt blankForce 100 (1 / 10) (![0, 0, 1] : Fin 3 → ℝ) 3 ∧
    (∀ {n l : ℕ} (q : Fin n → ℝ) (v : Fin l → ℝ),
      (Initialize Real.sqrt blankForce 100 (1 / 10) ((2 : ℝ) • (![0, 0, 1] : Fin 3 → ℝ)) (2 * 3)).1.ForwardForce q v
        = (Initialize Real.sqrt blankForce 100 (1 / 10) (![0, 0, 1] : Fin 3 → ℝ) 3).1.ForwardForce q v) ∧
    (∀ {n : ℕ} (q v f dl_df : Fin n → ℝ),
      (Initialize Real.sqrt blankForce 100 (1 / 10) ((2 : ℝ) • (![0, 0, 1] : Fin 3 → ℝ)) (2 * 3)).1.BackwardForce q v f dl_df
        = (Initialize Real.sqrt blankForce 100 (1 / 10) (![0, 0, 1] : Fin 3 → ℝ) 3).1.BackwardForce q v f dl_df) ∧
    (∀ {n : ℕ} (q : Fin n → ℝ) (i : ℕ),
      (Initialize Real.sqrt blankForce 100 (1 / 10) (![0, 0, 1] : Fin 3 → ℝ) 3).1.signedDistance q i
        = (dotProduct (![0, 0, 1] : Fin 3 → ℝ) (segment 3 q i) + 3) / Real.sqrt (∑ i, (![0, 0, 1] : Fin 3 → ℝ) i * (![0, 0, 1] : Fin 3 → ℝ) i)) ∧
    (∀ x y : Fin 3 → ℝ, dotProduct (![0, 0, 1] : Fin 3 → ℝ) y + 3 = 0 →
      ((dotProduct (![0, 0, 1] : Fin 3 → ℝ) x + 3) / Real.sqrt (∑ i, (![0, 0, 1] : Fin 3 → ℝ) i * (![0, 0, 1] : Fin 3 → ℝ) i)) ^ 2 ≤ ∑ i, (x i - y i) ^ 2) ∧
    (∀ x : Fin 3 → ℝ,
      dotProduct (![0, 0, 1] : Fin 3 → ℝ) (x - ((dotProduct (![0, 0, 1] : Fin 3 → ℝ) x + 3) / Real.sqrt (∑ i, (![0, 0, 1] : Fin 3 → ℝ) i * (![0, 0, 1] : Fin 3 → ℝ) i)) •
        fun i => (![0, 0, 1] : Fin 3 → ℝ) i / Real.sqrt (∑ i, (![0, 0, 1] : Fin 3 → ℝ) i * (![0, 0, 1] : Fin 3 → ℝ) i)) + 3 = 0 ∧
      ∑ i, (x i - (x - ((dotProduct (![0, 0, 1] : Fin 3 → ℝ) x + 3) / Real.sqrt (∑ i, (![0, 0, 1] : Fin 3 → ℝ) i * (![0, 0, 1] : Fin 3 → ℝ) i)) •
        fun i => (![0, 0, 1] : Fin 3 → ℝ) i / Real.sqrt (∑ i, (![0, 0, 1] : Fin 3 → ℝ) i * (![0, 0, 1] : Fin 3 → ℝ) i)) i) ^ 2
        = ((dotProduct (![0, 0, 1] : Fin 3 → ℝ) x + 3) / Real.sqrt (∑ i, (![0, 0, 1] : Fin 3 → ℝ) i * (![0, 0, 1] : Fin 3 → ℝ) i)) ^ 2) :=
  have hsum : ∑ i, (![0, 0, 1] : Fin 3 → ℝ) i * (![0, 0, 1] : Fin 3 → ℝ) i = 1 := by
    simp [Fin.sum_univ_three]
  have h1 : singularNormalThreshold ℝ < Real.sqrt (∑ i, (![0, 0, 1] : Fin 3 → ℝ) i
      * (![0, 0, 1] : Fin 3 → ℝ) i) := by
    rw [hsum, Real.sqrt_one]
    norm_num [singularNormalThreshold]
  have h2 : singularNormalThreshold ℝ < Real.sqrt (∑ i, ((2 : ℝ) • (![0, 0, 1] : Fin 3 → ℝ)) i
      * ((2 : ℝ) • (![0, 0, 1] : Fin 3 → ℝ)) i) := by
    rw [sqrt_sum_smul _ _ two_pos, hsum, Real.sqrt_one]
    norm_num [singularNormalThreshold]
  ⟨h1, by norm_num, by norm_num, two_pos, h2,
    Initialize_normalizes blankForce 100 (1 / 10) ![0, 0, 1] 3 2 h1 (by norm_num)
      (by norm_num) two_pos h2⟩

end PlanarCollisionStateForce

namespace Deformable

variable {K : Type} [LinearOrderedField K] {vertex_dim vertex_num act_dofs w_dofs : ℕ}

/-- The run past the checks after a successful solve on a body whose number of actuation
signals differs from its number of degrees of freedom: the call ends at line 157 with `dl_dq`
and `dl_dv` as lines 145-156 left them. -/
theorem BackwardNewtonSteps_of_size_ne
    (self : Deformable K vertex_dim vertex_num act_dofs w_dofs) (sqrt : K → K)
    (method : String) (q v : Fin (vertex_dim * vertex_num) → K) (a : Fin act_dofs → K)
    (f_ext : Fin (vertex_dim * vertex_num) → K) (dt : K)
    (q_next dl_dq_next dl_dv_next : Fin (vertex_dim * vertex_num) → K) (abs_tol rel_tol : K)
    (adjoint : Fin (vertex_dim * vertex_num) → K)
    (hsolve : (self.solveAdjoint sqrt method abs_tol rel_tol q_next a (dt / self.mass * dt)
      (self.frictionForward q v a f_ext dt).2
      (dl_dq_next_agg dt dl_dq_next dl_dv_next)).1 = ⟨adjoint, true⟩)
    (hsize : act_dofs ≠ vertex_dim * vertex_num) :
    (self.BackwardNewtonSteps sqrt method q v a f_ext dt q_next dl_dq_next dl_dv_next
        abs_tol rel_tol).raised = some Error.eigenSizeMismatch ∧
    (self.BackwardNewtonSteps sqrt method q v a f_ext dt q_next dl_dq_next dl_dv_next
        abs_tol rel_tol).out.dl_dq
      = (self.frictionBackward q (self.v_pred q v a f_ext dt) dt
            (self.dl_drhs_friction q_next a (dt / self.mass * dt)
              (self.frictionForward q v a f_ext dt).2 adjoint)
            (0 + (1 / dt) • -dl_dv_next)).dl_dq
        + self.dl_drhs
          (self.frictionBackward q (self.v_pred q v a f_ext dt) dt
            (self.dl_drhs_friction q_next a (dt / self.mass * dt)
              (self.frictionForward q v a f_ext dt).2 adjoint)
            (0 + (1 / dt) • -dl_dv_next)).dl_drhs_dirichlet
        + (self.BackwardStateForce q v (self.ForwardStateForce q v)
            ((dt / self.mass * dt) • self.dl_drhs
              (self.frictionBackward q (self.v_pred q v a f_ext dt) dt
                (self.dl_drhs_friction q_next a (dt / self.mass * dt)
                  (self.frictionForward q v a f_ext dt).2 adjoint)
                (0 + (1 / dt) • -dl_dv_next)).dl_drhs_dirichlet)).1 ∧
    (self.BackwardNewtonSteps sqrt method q v a f_ext dt q_next dl_dq_next dl_dv_next
        abs_tol rel_tol).out.dl_dv
      = 0 + dt • self.dl_drhs
          (self.frictionBackward q (self.v_pred q v a f_ext dt) dt
            (self.dl_drhs_friction q_next a (dt / self.mass * dt)
              (self.frictionForward q v a f_ext dt).2 adjoint)
            (0 + (1 / dt) • -dl_dv_next)).dl_drhs_dirichlet
        + (self.BackwardStateForce q v (self.ForwardStateForce q v)
            ((dt / self.mass * dt) • self.dl_drhs
              (self.frictionBackward q (self.v_pred q v a f_ext dt) dt
                (self.dl_drhs_friction q_next a (dt / self.mass * dt)
                  (self.frictionForward q v a f_ext dt).2 adjoint)
                (0 + (1 / dt) • -dl_dv_next)).dl_drhs_dirichlet)).2
        + (self.frictionBackward q (self.v_pred q v a f_ext dt) dt
            (self.dl_drhs_friction q_next a (dt / self.mass * dt)
              (self.frictionForward q v a f_ext dt).2 adjoint)
            (0 + (1 / dt) • -dl_dv_next)).dl_dv_pred := by
  unfold BackwardNewtonSteps frictionBackward
  simp only [hsolve, Bool.true_eq_false, if_false, dif_neg hsize, and_self]

/-- The run past the checks after a successful solve on a body whose number of actuation
signals equals its number of degrees of freedom: the call completes, with `dl_dq` and `dl_dv`
as lines 145-165 leave them. -/
theorem BackwardNewtonSteps_of_size_eq
    (self : Deformable K vertex_dim vertex_num act_dofs w_dofs) (sqrt : K → K)
    (method : String) (q v : Fin (vertex_dim * vertex_num) → K) (a : Fin act_dofs → K)
    (f_ext : Fin (vertex_dim * vertex_num) → K) (dt : K)
    (q_next dl_dq_next dl_dv_next : Fin (vertex_dim * vertex_num) → K) (abs_tol rel_tol : K)
    (adjoint : Fin (vertex_dim * vertex_num) → K)
    (hsolve : (self.solveAdjoint sqrt method abs_tol rel_tol q_next a (dt / self.mass * dt)
      (self.frictionForward q v a f_ext dt).2
      (dl_dq_next_agg dt dl_dq_next dl_dv_next)).1 = ⟨adjoint, true⟩)
    (hsize : act_dofs = vertex_dim * vertex_num) :
    (self.BackwardNewtonSteps sqrt method q v a f_ext dt q_next dl_dq_next dl_dv_next
        abs_tol rel_tol).raised = none ∧
    (self.BackwardNewtonSteps sqrt method q v a f_ext dt q_next dl_dq_next dl_dv_next
        abs_tol rel_tol).out.dl_dq
      = (self.frictionBackward q (self.v_pred q v a f_ext dt) dt
            (self.dl_drhs_friction q_next a (dt / self.mass * dt)
              (self.frictionForward q v a f_ext dt).2 adjoint)
            (0 + (1 / dt) • -dl_dv_next)).dl_dq
        + self.dl_drhs
          (self.frictionBackward q (self.v_pred q v a f_ext dt) dt
            (self.dl_drhs_friction q_next a (dt / self.mass * dt)
              (self.frictionForward q v a f_ext dt).2 adjoint)
            (0 + (1 / dt) • -dl_dv_next)).dl_drhs_dirichlet
        + (self.BackwardStateForce q v (self.ForwardStateForce q v)
            ((dt / self.mass * dt) • self.dl_drhs
              (self.frictionBackward q (self.v_pred q v a f_ext dt) dt
                (self.dl_drhs_friction q_next a (dt / self.mass * dt)
                  (self.frictionForward q v a f_ext dt).2 adjoint)
                (0 + (1 / dt) • -dl_dv_next)).dl_drhs_dirichlet)).1
        + (self.BackwardStateForce q v (self.ForwardStateForce q v)
            ((dt / self.mass) •
              (self.frictionBackward q (self.v_pred q v a f_ext dt) dt
                (self.dl_drhs_friction q_next a (dt / self.mass * dt)
                  (self.frictionForward q v a f_ext dt).2 adjoint)
                (0 + (1 / dt) • -dl_dv_next)).dl_dv_pred)).1
        + self.PdEnergyForceDifferentialOp q
            ((dt / self.mass) •
              (self.frictionBackward q (self.v_pred q v a f_ext dt) dt
                (self.dl_drhs_friction q_next a (dt / self.mass * dt)
                  (self.frictionForward q v a f_ext dt).2 adjoint)
                (0 + (1 / dt) • -dl_dv_next)).dl_dv_pred) 0
        + (dt / self.mass) • vecMul
            (self.frictionBackward q (self.v_pred q v a f_ext dt) dt
              (self.dl_drhs_friction q_next a (dt / self.mass * dt)
                (self.frictionForward q v a f_ext dt).2 adjoint)
              (0 + (1 / dt) • -dl_dv_next)).dl_dv_pred
            (ToSparseMatrix (vertex_dim * vertex_num) (vertex_dim * vertex_num)
              (self.ActuationForceDifferential q a).1) ∧
    (self.BackwardNewtonSteps sqrt method q v a f_ext dt q_next dl_dq_next dl_dv_next
        abs_tol rel_tol).out.dl_dv
      = 0 + dt • self.dl_drhs
          (self.frictionBackward q (self.v_pred q v a f_ext dt) dt
            (self.dl_drhs_friction q_next a (dt / self.mass * dt)
              (self.frictionForward q v a f_ext dt).2 adjoint)
            (0 + (1 / dt) • -dl_dv_next)).dl_drhs_dirichlet
        + (self.BackwardStateForce q v (self.ForwardStateForce q v)
            ((dt / self.mass * dt) • self.dl_drhs
              (self.frictionBackward q (self.v_pred q v a f_ext dt) dt
                (self.dl_drhs_friction q_next a (dt / self.mass * dt)
                  (self.frictionForward q v a f_ext dt).2 adjoint)
                (0 + (1 / dt) • -dl_dv_next)).dl_drhs_dirichlet)).2
        + (self.frictionBackward q (self.v_pred q v a f_ext dt) dt
            (self.dl_drhs_friction q_next a (dt / self.mass * dt)
              (self.frictionForward q v a f_ext dt).2 adjoint)
            (0 + (1 / dt) • -dl_dv_next)).dl_dv_pred
        + (self.BackwardStateForce q v (self.ForwardStateForce q v)
            ((dt / self.mass) •
              (self.frictionBackward q (self.v_pred q v a f_ext dt) dt
                (self.dl_drhs_friction q_next a (dt / self.mass * dt)
                  (self.frictionForward q v a f_ext dt).2 adjoint)
                (0 + (1 / dt) • -dl_dv_next)).dl_dv_pred)).2 := by
  unfold BackwardNewtonSteps frictionBackward
  simp only [hsolve, Bool.true_eq_false, if_false, dif_pos hsize, and_self]

end Deformable

namespace Deformable

variable {K : Type} [LinearOrderedField K] {vertex_dim vertex_num act_dofs w_dofs : ℕ}

/-- The solve of the method `newton_pcg` is the call of the conjugate-gradient routine. -/
theorem solveAdjoint_pcg (self : Deformable K vertex_dim vertex_num act_dofs w_dofs)
    (sqrt : K → K) (abs_tol rel_tol : K) (q_next : Fin (vertex_dim * vertex_num) → K)
    (a : Fin act_dofs → K) (h2m : K) (d : Fin (vertex_dim * vertex_num) → Option K)
    (g : Fin (vertex_dim * vertex_num) → K) :
    self.solveAdjoint sqrt "newton_pcg" abs_tol rel_tol q_next a h2m d g
      = (self.ConjugateGradient (rel_tol + abs_tol / vecNorm sqrt g)
          (self.NewtonMatrix q_next a h2m d) g, Error.cgSolverFailed) := by
  unfold solveAdjoint
  rw [if_pos rfl]

/-- The solve of the method `newton_cholesky` is the call of the direct routine. -/
theorem solveAdjoint_cholesky (self : Deformable K vertex_dim vertex_num act_dofs w_dofs)
    (sqrt : K → K) (abs_tol rel_tol : K) (q_next : Fin (vertex_dim * vertex_num) → K)
    (a : Fin act_dofs → K) (h2m : K) (d : Fin (vertex_dim * vertex_num) → Option K)
    (g : Fin (vertex_dim * vertex_num) → K) :
    self.solveAdjoint sqrt "newton_cholesky" abs_tol rel_tol q_next a h2m d g
      = (self.SimplicialLDLT (self.NewtonMatrix q_next a h2m d) g,
          Error.choleskySolverFailed) := by
  unfold solveAdjoint
  rw [if_neg (by decide)]

omit [LinearOrderedField K] in
/-- A solver result that reports success is its vector paired with `true`. -/
theorem SolveResult_eq_of_success {n : ℕ} (r : SolveResult K n) (h : r.success = true) :
    r = ⟨r.x, true⟩ := by
  cases r with
  | mk x s =>
    simp only at h
    rw [h]

/-- After a successful solve the run does not end with a solver error. -/
theorem BackwardNewtonSteps_raised_of_solve_success
    (self : Deformable K vertex_dim vertex_num act_dofs w_dofs) (sqrt : K → K)
    (method : String) (q v : Fin (vertex_dim * vertex_num) → K) (a : Fin act_dofs → K)
    (f_ext : Fin (vertex_dim * vertex_num) → K) (dt : K)
    (q_next dl_dq_next dl_dv_next : Fin (vertex_dim * vertex_num) → K) (abs_tol rel_tol : K)
    (hsolve : (self.solveAdjoint sqrt method abs_tol rel_tol q_next a (dt / self.mass * dt)
      (self.frictionForward q v a f_ext dt).2
      (dl_dq_next_agg dt dl_dq_next dl_dv_next)).1.success = true) :
    (self.BackwardNewtonSteps sqrt method q v a f_ext dt q_next dl_dq_next dl_dv_next
        abs_tol rel_tol).raised = none ∨
    (self.BackwardNewtonSteps sqrt method q v a f_ext dt q_next dl_dq_next dl_dv_next
        abs_tol rel_tol).raised = some Error.eigenSizeMismatch := by
  have h := SolveResult_eq_of_success _ hsolve
  by_cases hsize : act_dofs = vertex_dim * vertex_num
  · exact Or.inl (BackwardNewtonSteps_of_size_eq self sqrt method q v a f_ext dt q_next
      dl_dq_next dl_dv_next abs_tol rel_tol _ h hsize).1
  · exact Or.inr (BackwardNewtonSteps_of_size_ne self sqrt method q v a f_ext dt q_next
      dl_dq_next dl_dv_next abs_tol rel_tol _ h hsize).1

end Deformable

namespace Deformable

variable {K : Type} [LinearOrderedField K] {vertex_dim vertex_num act_dofs w_dofs : ℕ}

end Deformable

namespace Deformable

variable {K : Type} [LinearOrderedField K] {vertex_dim vertex_num act_dofs w_dofs : ℕ}

/-- Claim C12 as stated fails: on the light two-vertex body at rest, with the seed
`dl_dq_next = (0, 1)` of norm 1, `dl_dv_next = 0`, `dt = 1` and `abs_tol = rel_tol = 10^-6`, both
methods complete. The conjugate-gradient result meets its stopping test, the square of its
residual being below the square of `rel_tol * ‖g‖ + abs_tol`, and the direct result is exact.
Yet the two outputs `dl_df_ext` are `(1/2000, 500/501)` and `(0, 500/501)`: they differ by `250`
times `rel_tol * ‖g‖ + abs_tol`, and their distance exceeds `200` times the tolerance
`rel_tol + abs_tol / ‖g‖` times the length of the direct result. -/
theorem BackwardNewton_method_gap :
    stiffBody.IsForwardStep 0 0 0 0 1 0 0 ∧
    ∑ i, (dl_dq_next_agg 1 stiffSeed 0) i * (dl_dq_next_agg 1 stiffSeed 0) i = 1 ∧
    vecNorm id (dl_dq_next_agg 1 stiffSeed 0) = 1 ∧
    (stiffBody.ConjugateGradient (1 / 1000000 + 1 / 1000000 / vecNorm id (dl_dq_next_agg 1 stiffSeed 0))
        (stiffBody.NewtonMatrix 0 0 (1 / stiffBody.mass * 1)
        (stiffBody.frictionForward 0 0 0 0 1).2) (dl_dq_next_agg 1 stiffSeed 0)).success = true ∧
    ∑ i, (((stiffBody.NewtonMatrix 0 0 (1 / stiffBody.mass * 1)
        (stiffBody.frictionForward 0 0 0 0 1).2).mulVec
        (stiffBody.ConjugateGradient (1 / 1000000 + 1 / 1000000 / vecNorm id (dl_dq_next_agg 1 stiffSeed 0))
        (stiffBody.NewtonMatrix 0 0 (1 / stiffBody.mass * 1)
        (stiffBody.frictionForward 0 0 0 0 1).2) (dl_dq_next_agg 1 stiffSeed 0)).x
      - (dl_dq_next_agg 1 stiffSeed 0)) i) ^ 2
      < (1 / 1000000 * vecNorm id (dl_dq_next_agg 1 stiffSeed 0) + 1 / 1000000) ^ 2 ∧
    (stiffBody.SimplicialLDLT
        (stiffBody.NewtonMatrix 0 0 (1 / stiffBody.mass * 1)
        (stiffBody.frictionForward 0 0 0 0 1).2) (dl_dq_next_agg 1 stiffSeed 0)).success = true ∧
    (stiffBody.NewtonMatrix 0 0 (1 / stiffBody.mass * 1)
        (stiffBody.frictionForward 0 0 0 0 1).2).mulVec
        (stiffBody.SimplicialLDLT
        (stiffBody.NewtonMatrix 0 0 (1 / stiffBody.mass * 1)
        (stiffBody.frictionForward 0 0 0 0 1).2) (dl_dq_next_agg 1 stiffSeed 0)).x
      = (dl_dq_next_agg 1 stiffSeed 0) ∧
    (stiffBody.BackwardNewton id "newton_pcg" 0 0 0 0 1 0 0 stiffSeed 0 fullOptions
        (zeroOutputs 2 2 0)).raised = none ∧
    (stiffBody.BackwardNewton id "newton_cholesky" 0 0 0 0 1 0 0 stiffSeed 0 fullOptions
        (zeroOutputs 2 2 0)).raised = none ∧
    (stiffBody.BackwardNewton id "newton_pcg" 0 0 0 0 1 0 0 stiffSeed 0 fullOptions
        (zeroOutputs 2 2 0)).out.dl_df_ext = ![1 / 2000, 500 / 501] ∧
    (stiffBody.BackwardNewton id "newton_cholesky" 0 0 0 0 1 0 0 stiffSeed 0 fullOptions
        (zeroOutputs 2 2 0)).out.dl_df_ext = ![0, 500 / 501] ∧
    (stiffBody.BackwardNewton id "newton_pcg" 0 0 0 0 1 0 0 stiffSeed 0 fullOptions
        (zeroOutputs 2 2 0)).out.dl_df_ext 0
      - (stiffBody.BackwardNewton id "newton_cholesky" 0 0 0 0 1 0 0 stiffSeed 0 fullOptions
        (zeroOutputs 2 2 0)).out.dl_df_ext 0
      = 250 * (1 / 1000000 * vecNorm id (dl_dq_next_agg 1 stiffSeed 0) + 1 / 1000000) ∧
    (200 * (1 / 1000000 + 1 / 1000000 / vecNorm id (dl_dq_next_agg 1 stiffSeed 0))) ^ 2
        * ∑ i, ((stiffBody.BackwardNewton id "newton_cholesky" 0 0 0 0 1 0 0 stiffSeed 0 fullOptions
        (zeroOutputs 2 2 0)).out.dl_df_ext i) ^ 2
      < ∑ i, ((stiffBody.BackwardNewton id "newton_pcg" 0 0 0 0 1 0 0 stiffSeed 0 fullOptions
        (zeroOutputs 2 2 0)).out.dl_df_ext i
          - (stiffBody.BackwardNewton id "newton_cholesky" 0 0 0 0 1 0 0 stiffSeed 0 fullOptions
        (zeroOutputs 2 2 0)).out.dl_df_ext i) ^ 2 := by
  refine ⟨?_, ?_, ?_, ?_, ?_, ?_, ?_, ?_, ?_, ?_, ?_, ?_, ?_⟩
  · unfold IsForwardStep
    decide!
  all_goals decide!

/-- Claim C12, amended: let every precondition hold, let `g = dl_dq_next + dl_dv_next / dt` have a
positive norm, and let both solvers report success. The method `newton_pcg` propagates the
vector that the conjugate-gradient routine returns for the matrix
`NewtonMatrix(q_next, a, dt^2 / m, dirichlet_with_friction)` and the right-hand side `g`, the method
`newton_cholesky` propagates the vector that the direct routine returns for the same matrix
and the same right-hand side, and `dl_df_ext` is the same function of that vector in both
calls; the two calls end in the same way; and when the two routines return the same vector,
the two calls return the same five gradients. -/
theorem BackwardNewton_method_equivalence
    (self : Deformable K vertex_dim vertex_num act_dofs w_dofs) (sqrt : K → K)
    (q v : Fin (vertex_dim * vertex_num) → K) (a : Fin act_dofs → K)
    (f_ext : Fin (vertex_dim * vertex_num) → K) (dt : K)
    (q_next v_next dl_dq_next dl_dv_next : Fin (vertex_dim * vertex_num) → K)
    (options : String → Option K)
    (out : AdjointOutputs K (vertex_dim * vertex_num) act_dofs w_dofs)
    (abs_tol rel_tol thread_ct : K)
    (ha : options "abs_tol" = some abs_tol) (hr : options "rel_tol" = some rel_tol)
    (ht : options "thread_ct" = some thread_ct)
    (hq : ∀ i x, self.dirichlet_ i = some x → q_next i = x)
    (_hg : 0 < vecNorm sqrt (dl_dq_next_agg dt dl_dq_next dl_dv_next))
    (hcg : (self.ConjugateGradient
        (rel_tol + abs_tol / vecNorm sqrt (dl_dq_next_agg dt dl_dq_next dl_dv_next))
        (self.NewtonMatrix q_next a (dt / self.mass * dt)
          (self.frictionForward q v a f_ext dt).2)
        (dl_dq_next_agg dt dl_dq_next dl_dv_next)).success = true)
    (hch : (self.SimplicialLDLT
        (self.NewtonMatrix q_next a (dt / self.mass * dt)
          (self.frictionForward q v a f_ext dt).2)
        (dl_dq_next_agg dt dl_dq_next dl_dv_next)).success = true) :
    (self.BackwardNewton sqrt "newton_pcg" q v a f_ext dt q_next v_next dl_dq_next dl_dv_next
        options out).out.dl_df_ext
      = 0 + (dt / self.mass * dt) • self.dl_drhs
            (self.frictionBackward q (self.v_pred q v a f_ext dt) dt
            (self.dl_drhs_friction q_next a (dt / self.mass * dt)
              (self.frictionForward q v a f_ext dt).2
              (self.ConjugateGradient
        (rel_tol + abs_tol / vecNorm sqrt (dl_dq_next_agg dt dl_dq_next dl_dv_next))
        (self.NewtonMatrix q_next a (dt / self.mass * dt)
          (self.frictionForward q v a f_ext dt).2)
        (dl_dq_next_agg dt dl_dq_next dl_dv_next)).x)
            (0 + (1 / dt) • -dl_dv_next)).dl_drhs_dirichlet
          + (dt / self.mass) •
            (self.frictionBackward q (self.v_pred q v a f_ext dt) dt
            (self.dl_drhs_friction q_next a (dt / self.mass * dt)
              (self.frictionForward q v a f_ext dt).2
              (self.ConjugateGradient
        (rel_tol + abs_tol / vecNorm sqrt (dl_dq_next_agg dt dl_dq_next dl_dv_next))
        (self.NewtonMatrix q_next a (dt / self.mass * dt)
          (self.frictionForward q v a f_ext dt).2)
        (dl_dq_next_agg dt dl_dq_next dl_dv_next)).x)
            (0 + (1 / dt) • -dl_dv_next)).dl_dv_pred ∧
    (self.BackwardNewton sqrt "newton_cholesky" q v a f_ext dt q_next v_next dl_dq_next dl_dv_next
        options out).out.dl_df_ext
      = 0 + (dt / self.mass * dt) • self.dl_drhs
            (self.frictionBackward q (self.v_pred q v a f_ext dt) dt
            (self.dl_drhs_friction q_next a (dt / self.mass * dt)
              (self.frictionForward q v a f_ext dt).2
              (self.SimplicialLDLT
        (self.NewtonMatrix q_next a (dt / self.mass * dt)
          (self.frictionForward q v a f_ext dt).2)
        (dl_dq_next_agg dt dl_dq_next dl_dv_next)).x)
            (0 + (1 / dt) • -dl_dv_next)).dl_drhs_dirichlet
          + (dt / self.mass) •
            (self.frictionBackward q (self.v_pred q v a f_ext dt) dt
            (self.dl_drhs_friction q_next a (dt / self.mass * dt)
              (self.frictionForward q v a f_ext dt).2
              (self.SimplicialLDLT
        (self.NewtonMatrix q_next a (dt / self.mass * dt)
          (self.frictionForward q v a f_ext dt).2)
        (dl_dq_next_agg dt dl_dq_next dl_dv_next)).x)
            (0 + (1 / dt) • -dl_dv_next)).dl_dv_pred ∧
    (self.BackwardNewton sqrt "newton_pcg" q v a f_ext dt q_next v_next dl_dq_next dl_dv_next
        options out).raised
      = (self.BackwardNewton sqrt "newton_cholesky" q v a f_ext dt q_next v_next dl_dq_next dl_dv_next
        options out).raised ∧
    ((self.ConjugateGradient
        (rel_tol + abs_tol / vecNorm sqrt (dl_dq_next_agg dt dl_dq_next dl_dv_next))
        (self.NewtonMatrix q_next a (dt / self.mass * dt)
          (self.frictionForward q v a f_ext dt).2)
        (dl_dq_next_agg dt dl_dq_next dl_dv_next)).x
      = (self.SimplicialLDLT
        (self.NewtonMatrix q_next a (dt / self.mass * dt)
          (self.frictionForward q v a f_ext dt).2)
        (dl_dq_next_agg dt dl_dq_next dl_dv_next)).x →
      (self.BackwardNewton sqrt "newton_pcg" q v a f_ext dt q_next v_next dl_dq_next dl_dv_next
        options out)
        = (self.BackwardNewton sqrt "newton_cholesky" q v a f_ext dt q_next v_next dl_dq_next dl_dv_next
        options out)) := by
  have hne : ¬ "newton_cholesky" = "newton_pcg" := by decide
  have hrunP := BackwardNewton_of_preconditions self sqrt "newton_pcg" q v a f_ext dt q_next
    v_next dl_dq_next dl_dv_next options out abs_tol rel_tol thread_ct (Or.inl rfl) ha hr ht hq
  have hrunC := BackwardNewton_of_preconditions self sqrt "newton_cholesky" q v a f_ext dt
    q_next v_next dl_dq_next dl_dv_next options out abs_tol rel_tol thread_ct (Or.inr rfl) ha hr
    ht hq
  have hsP : (self.solveAdjoint sqrt "newton_pcg" abs_tol rel_tol q_next a
      (dt / self.mass * dt) (self.frictionForward q v a f_ext dt).2
      (dl_dq_next_agg dt dl_dq_next dl_dv_next)).1
      = ⟨(self.ConjugateGradient
        (rel_tol + abs_tol / vecNorm sqrt (dl_dq_next_agg dt dl_dq_next dl_dv_next))
        (self.NewtonMatrix q_next a (dt / self.mass * dt)
          (self.frictionForward q v a f_ext dt).2)
        (dl_dq_next_agg dt dl_dq_next dl_dv_next)).x, true⟩ := by
    rw [solveAdjoint_pcg]
    exact SolveResult_eq_of_success _ hcg
  have hsC : (self.solveAdjoint sqrt "newton_cholesky" abs_tol rel_tol q_next a
      (dt / self.mass * dt) (self.frictionForward q v a f_ext dt).2
      (dl_dq_next_agg dt dl_dq_next dl_dv_next)).1
      = ⟨(self.SimplicialLDLT
        (self.NewtonMatrix q_next a (dt / self.mass * dt)
          (self.frictionForward q v a f_ext dt).2)
        (dl_dq_next_agg dt dl_dq_next dl_dv_next)).x, true⟩ := by
    rw [solveAdjoint_cholesky]
    exact SolveResult_eq_of_success _ hch
  have hextP : (self.BackwardNewtonSteps sqrt "newton_pcg" q v a f_ext dt q_next dl_dq_next dl_dv_next
      abs_tol rel_tol).out.dl_df_ext
      = 0 + (dt / self.mass * dt) • self.dl_drhs (self.frictionBackward q (self.v_pred q v a f_ext dt) dt
        (self.dl_drhs_friction q_next a (dt / self.mass * dt)
          (self.frictionForward q v a f_ext dt).2 (self.ConjugateGradient
            (rel_tol + abs_tol / vecNorm sqrt (dl_dq_next_agg dt dl_dq_next dl_dv_next))
            (self.NewtonMatrix q_next a (dt / self.mass * dt)
            (self.frictionForward q v a f_ext dt).2)
            (dl_dq_next_agg dt dl_dq_next dl_dv_next)).x)
        (0 + (1 / dt) • -dl_dv_next)).dl_drhs_dirichlet
        + (dt / self.mass) • (self.frictionBackward q (self.v_pred q v a f_ext dt) dt
        (self.dl_drhs_friction q_next a (dt / self.mass * dt)
          (self.frictionForward q v a f_ext dt).2 (self.ConjugateGradient
            (rel_tol + abs_tol / vecNorm sqrt (dl_dq_next_agg dt dl_dq_next dl_dv_next))
            (self.NewtonMatrix q_next a (dt / self.mass * dt)
            (self.frictionForward q v a f_ext dt).2)
            (dl_dq_next_agg dt dl_dq_next dl_dv_next)).x)
        (0 + (1 / dt) • -dl_dv_next)).dl_dv_pred := by
    unfold BackwardNewtonSteps frictionBackward
    simp only [hsP, Bool.true_eq_false, if_false]
    split_ifs <;> rfl
  have hextC : (self.BackwardNewtonSteps sqrt "newton_cholesky" q v a f_ext dt q_next dl_dq_next dl_dv_next
      abs_tol rel_tol).out.dl_df_ext
      = 0 + (dt / self.mass * dt) • self.dl_drhs (self.frictionBackward q (self.v_pred q v a f_ext dt) dt
        (self.dl_drhs_friction q_next a (dt / self.mass * dt)
          (self.frictionForward q v a f_ext dt).2 (self.SimplicialLDLT
            (self.NewtonMatrix q_next a (dt / self.mass * dt)
            (self.frictionForward q v a f_ext dt).2)
            (dl_dq_next_agg dt dl_dq_next dl_dv_next)).x)
        (0 + (1 / dt) • -dl_dv_next)).dl_drhs_dirichlet
        + (dt / self.mass) • (self.frictionBackward q (self.v_pred q v a f_ext dt) dt
        (self.dl_drhs_friction q_next a (dt / self.mass * dt)
          (self.frictionForward q v a f_ext dt).2 (self.SimplicialLDLT
            (self.NewtonMatrix q_next a (dt / self.mass * dt)
            (self.frictionForward q v a f_ext dt).2)
            (dl_dq_next_agg dt dl_dq_next dl_dv_next)).x)
        (0 + (1 / dt) • -dl_dv_next)).dl_dv_pred := by
    unfold BackwardNewtonSteps frictionBackward
    simp only [hsC, Bool.true_eq_false, if_false]
    split_ifs <;> rfl
  rw [hrunP, hrunC]
  refine ⟨?_, ?_, ?_, ?_⟩
  · exact hextP
  · exact hextC
  · by_cases hsize : act_dofs = vertex_dim * vertex_num
    · rw [(BackwardNewtonSteps_of_size_eq self sqrt "newton_pcg" q v a f_ext dt q_next
        dl_dq_next dl_dv_next abs_tol rel_tol _ hsP hsize).1,
        (BackwardNewtonSteps_of_size_eq self sqrt "newton_cholesky" q v a f_ext dt q_next
        dl_dq_next dl_dv_next abs_tol rel_tol _ hsC hsize).1]
    · rw [(BackwardNewtonSteps_of_size_ne self sqrt "newton_pcg" q v a f_ext dt q_next
        dl_dq_next dl_dv_next abs_tol rel_tol _ hsP hsize).1,
        (BackwardNewtonSteps_of_size_ne self sqrt "newton_cholesky" q v a f_ext dt q_next
        dl_dq_next dl_dv_next abs_tol rel_tol _ hsC hsize).1]
  · intro hx
    unfold BackwardNewtonSteps
    simp only [solveAdjoint, if_true, hne, if_false, hcg, hch, hx, Bool.true_eq_false]

/-- The statement of `BackwardNewton_method_equivalence` for the spring body, whose two solvers are exact on
its diagonal Newton matrix and so return the same vector, and the seed `springSeed`. -/
theorem BackwardNewton_method_equivalence_witness :
    fullOptions "abs_tol" = some (1 / 1000000 : ℚ) ∧
    fullOptions "rel_tol" = some (1 / 1000000 : ℚ) ∧
    fullOptions "thread_ct" = some (1 : ℚ) ∧
    (∀ i x, springBody.dirichlet_ i = some x → springQNext i = x) ∧
    0 < vecNorm id (dl_dq_next_agg (1 : ℚ) springSeed (0 : Fin (2 * 4) → ℚ)) ∧
    ((springBody.ConjugateGradient
        ((1 / 1000000 : ℚ) + (1 / 1000000 : ℚ) / vecNorm id (dl_dq_next_agg (1 : ℚ) springSeed (0 : Fin (2 * 4) → ℚ)))
        (springBody.NewtonMatrix springQNext (0 : Fin 8 → ℚ) ((1 : ℚ) / springBody.mass * (1 : ℚ))
          (springBody.frictionForward springQ springV (0 : Fin 8 → ℚ) (0 : Fin (2 * 4) → ℚ) (1 : ℚ)).2)
        (dl_dq_next_agg (1 : ℚ) springSeed (0 : Fin (2 * 4) → ℚ))).success = true) ∧
    ((springBody.SimplicialLDLT
        (springBody.NewtonMatrix springQNext (0 : Fin 8 → ℚ) ((1 : ℚ) / springBody.mass * (1 : ℚ))
          (springBody.frictionForward springQ springV (0 : Fin 8 → ℚ) (0 : Fin (2 * 4) → ℚ) (1 : ℚ)).2)
        (dl_dq_next_agg (1 : ℚ) springSeed (0 : Fin (2 * 4) → ℚ))).success = true) ∧
    ((springBody.ConjugateGradient
        ((1 / 1000000 : ℚ) + (1 / 1000000 : ℚ) / vecNorm id (dl_dq_next_agg (1 : ℚ) springSeed (0 : Fin (2 * 4) → ℚ)))
        (springBody.NewtonMatrix springQNext (0 : Fin 8 → ℚ) ((1 : ℚ) / springBody.mass * (1 : ℚ))
          (springBody.frictionForward springQ springV (0 : Fin 8 → ℚ) (0 : Fin (2 * 4) → ℚ) (1 : ℚ)).2)
        (dl_dq_next_agg (1 : ℚ) springSeed (0 : Fin (2 * 4) → ℚ))).x
      = (springBody.SimplicialLDLT
        (springBody.NewtonMatrix springQNext (0 : Fin 8 → ℚ) ((1 : ℚ) / springBody.mass * (1 : ℚ))
          (springBody.frictionForward springQ springV (0 : Fin 8 → ℚ) (0 : Fin (2 * 4) → ℚ) (1 : ℚ)).2)
        (dl_dq_next_agg (1 : ℚ) springSeed (0 : Fin (2 * 4) → ℚ))).x) ∧
    (springBody.BackwardNewton id "newton_pcg" springQ springV (0 : Fin 8 → ℚ) (0 : Fin (2 * 4) → ℚ) (1 : ℚ) springQNext springVNext springSeed (0 : Fin (2 * 4) → ℚ)
        fullOptions (zeroOutputs 8 8 0)).out.dl_df_ext
      = 0 + ((1 : ℚ) / springBody.mass * (1 : ℚ)) • springBody.dl_drhs
            (springBody.frictionBackward springQ (springBody.v_pred springQ springV (0 : Fin 8 → ℚ) (0 : Fin (2 * 4) → ℚ) (1 : ℚ)) (1 : ℚ)
            (springBody.dl_drhs_friction springQNext (0 : Fin 8 → ℚ) ((1 : ℚ) / springBody.mass * (1 : ℚ))
              (springBody.frictionForward springQ springV (0 : Fin 8 → ℚ) (0 : Fin (2 * 4) → ℚ) (1 : ℚ)).2
              (springBody.ConjugateGradient
        ((1 / 1000000 : ℚ) + (1 / 1000000 : ℚ) / vecNorm id (dl_dq_next_agg (1 : ℚ) springSeed (0 : Fin (2 * 4) → ℚ)))
        (springBody.NewtonMatrix springQNext (0 : Fin 8 → ℚ) ((1 : ℚ) / springBody.mass * (1 : ℚ))
          (springBody.frictionForward springQ springV (0 : Fin 8 → ℚ) (0 : Fin (2 * 4) → ℚ) (1 : ℚ)).2)
        (dl_dq_next_agg (1 : ℚ) springSeed (0 : Fin (2 * 4) → ℚ))).x)
            (0 + (1 / (1 : ℚ)) • -(0 : Fin (2 * 4) → ℚ))).dl_drhs_dirichlet
          + ((1 : ℚ) / springBody.mass) •
            (springBody.frictionBackward springQ (springBody.v_pred springQ springV (0 : Fin 8 → ℚ) (0 : Fin (2 * 4) → ℚ) (1 : ℚ)) (1 : ℚ)
            (springBody.dl_drhs_friction springQNext (0 : Fin 8 → ℚ) ((1 : ℚ) / springBody.mass * (1 : ℚ))
              (springBody.frictionForward springQ springV (0 : Fin 8 → ℚ) (0 : Fin (2 * 4) → ℚ) (1 : ℚ)).2
              (springBody.ConjugateGradient
        ((1 / 1000000 : ℚ) + (1 / 1000000 : ℚ) / vecNorm id (dl_dq_next_agg (1 : ℚ) springSeed (0 : Fin (2 * 4) → ℚ)))
        (springBody.NewtonMatrix springQNext (0 : Fin 8 → ℚ) ((1 : ℚ) / springBody.mass * (1 : ℚ))
          (springBody.frictionForward springQ springV (0 : Fin 8 → ℚ) (0 : Fin (2 * 4) → ℚ) (1 : ℚ)).2)
        (dl_dq_next_agg (1 : ℚ) springSeed (0 : Fin (2 * 4) → ℚ))).x)
            (0 + (1 / (1 : ℚ)) • -(0 : Fin (2 * 4) → ℚ))).dl_dv_pred ∧
    (springBody.BackwardNewton id "newton_cholesky" springQ springV (0 : Fin 8 → ℚ) (0 : Fin (2 * 4) → ℚ) (1 : ℚ) springQNext springVNext springSeed (0 : Fin (2 * 4) → ℚ)
        fullOptions (zeroOutputs 8 8 0)).out.dl_df_ext
      = 0 + ((1 : ℚ) / springBody.mass * (1 : ℚ)) • springBody.dl_drhs
            (springBody.frictionBackward springQ (springBody.v_pred springQ springV (0 : Fin 8 → ℚ) (0 : Fin (2 * 4) → ℚ) (1 : ℚ)) (1 : ℚ)
            (springBody.dl_drhs_friction springQNext (0 : Fin 8 → ℚ) ((1 : ℚ) / springBody.mass * (1 : ℚ))
              (springBody.frictionForward springQ springV (0 : Fin 8 → ℚ) (0 : Fin (2 * 4) → ℚ) (1 : ℚ)).2
              (springBody.SimplicialLDLT
        (springBody.NewtonMatrix springQNext (0 : Fin 8 → ℚ) ((1 : ℚ) / springBody.mass * (1 : ℚ))
          (springBody.frictionForward springQ springV (0 : Fin 8 → ℚ) (0 : Fin (2 * 4) → ℚ) (1 : ℚ)).2)
        (dl_dq_next_agg (1 : ℚ) springSeed (0 : Fin (2 * 4) → ℚ))).x)
            (0 + (1 / (1 : ℚ)) • -(0 : Fin (2 * 4) → ℚ))).dl_drhs_dirichlet
          + ((1 : ℚ) / springBody.mass) •
            (springBody.frictionBackward springQ (springBody.v_pred springQ springV (0 : Fin 8 → ℚ) (0 : Fin (2 * 4) → ℚ) (1 : ℚ)) (1 : ℚ)
            (springBody.dl_drhs_friction springQNext (0 : Fin 8 → ℚ) ((1 : ℚ) / springBody.mass * (1 : ℚ))
              (springBody.frictionForward springQ springV (0 : Fin 8 → ℚ) (0 : Fin (2 * 4) → ℚ) (1 : ℚ)).2
              (springBody.SimplicialLDLT
        (springBody.NewtonMatrix springQNext (0 : Fin 8 → ℚ) ((1 : ℚ) / springBody.mass * (1 : ℚ))
          (springBody.frictionForward springQ springV (0 : Fin 8 → ℚ) (0 : Fin (2 * 4) → ℚ) (1 : ℚ)).2)
        (dl_dq_next_agg (1 : ℚ) springSeed (0 : Fin (2 * 4) → ℚ))).x)
            (0 + (1 / (1 : ℚ)) • -(0 : Fin (2 * 4) → ℚ))).dl_dv_pred ∧
    (springBody.BackwardNewton id "newton_pcg" springQ springV (0 : Fin 8 → ℚ) (0 : Fin (2 * 4) → ℚ) (1 : ℚ) springQNext springVNext springSeed (0 : Fin (2 * 4) → ℚ)
        fullOptions (zeroOutputs 8 8 0)).raised
      = (springBody.BackwardNewton id "newton_cholesky" springQ springV (0 : Fin 8 → ℚ) (0 : Fin (2 * 4) → ℚ) (1 : ℚ) springQNext springVNext springSeed (0 : Fin (2 * 4) → ℚ)
        fullOptions (zeroOutputs 8 8 0)).raised ∧
    ((springBody.ConjugateGradient
        ((1 / 1000000 : ℚ) + (1 / 1000000 : ℚ) / vecNorm id (dl_dq_next_agg (1 : ℚ) springSeed (0 : Fin (2 * 4) → ℚ)))
        (springBody.NewtonMatrix springQNext (0 : Fin 8 → ℚ) ((1 : ℚ) / springBody.mass * (1 : ℚ))
          (springBody.frictionForward springQ springV (0 : Fin 8 → ℚ) (0 : Fin (2 * 4) → ℚ) (1 : ℚ)).2)
        (dl_dq_next_agg (1 : ℚ) springSeed (0 : Fin (2 * 4) → ℚ))).x
      = (springBody.SimplicialLDLT
        (springBody.NewtonMatrix springQNext (0 : Fin 8 → ℚ) ((1 : ℚ) / springBody.mass * (1 : ℚ))
          (springBody.frictionForward springQ springV (0 : Fin 8 → ℚ) (0 : Fin (2 * 4) → ℚ) (1 : ℚ)).2)
        (dl_dq_next_agg (1 : ℚ) springSeed (0 : Fin (2 * 4) → ℚ))).x →
      (springBody.BackwardNewton id "newton_pcg" springQ springV (0 : Fin 8 → ℚ) (0 : Fin (2 * 4) → ℚ) (1 : ℚ) springQNext springVNext springSeed (0 : Fin (2 * 4) → ℚ)
        fullOptions (zeroOutputs 8 8 0))
        = (springBody.BackwardNewton id "newton_cholesky" springQ springV (0 : Fin 8 → ℚ) (0 : Fin (2 * 4) → ℚ) (1 : ℚ) springQNext springVNext springSeed (0 : Fin (2 * 4) → ℚ)
        fullOptions (zeroOutputs 8 8 0))) :=
  ⟨rfl, rfl, rfl, (fun i x h => by cases h), (by decide!), rfl, rfl, rfl,
    BackwardNewton_method_equivalence springBody id springQ springV 0 0 1 springQNext
      springVNext springSeed 0 fullOptions (zeroOutputs 8 8 0) (1 / 1000000) (1 / 1000000) 1
      rfl rfl rfl (fun i x h => by cases h) (by decide!) rfl rfl⟩

end Deformable

namespace Deformable

variable {K : Type} [LinearOrderedField K] {vertex_dim vertex_num act_dofs w_dofs : ℕ}

/-- The vector `adjoint_with_zero` at one index. -/
theorem adjoint_with_zero_apply {n : ℕ} (d : Fin n → Option K) (adjoint : Fin n → K)
    (i : Fin n) :
    adjoint_with_zero d adjoint i = if (d i).isSome then 0 else adjoint i := rfl

/-- The solved system, read row by row: a frozen row returns the entry of the right-hand
side, a free row is the row of the unconstrained operator applied to `adjoint_with_zero`. -/
theorem frozen_system_rows {n : ℕ} (A : Matrix (Fin n) (Fin n) K) (d : Fin n → Option K)
    (adjoint g : Fin n → K)
    (hsolve : (Matrix.of fun i j =>
        if (d i).isSome ∨ (d j).isSome then (if i = j then (1 : K) else 0) else A i j).mulVec
          adjoint = g) :
    (∀ i, (d i).isSome → adjoint i = g i) ∧
    (∀ i, (d i).isSome = false → (A.mulVec (adjoint_with_zero d adjoint)) i = g i) := by
  constructor
  · intro i hi
    rw [← hsolve]
    simp only [Matrix.mulVec, dotProduct, Matrix.of_apply, hi, true_or, if_true, ite_mul,
      one_mul, zero_mul, Finset.sum_ite_eq, Finset.mem_univ]
  · intro i hi
    rw [← hsolve]
    simp only [Matrix.mulVec, dotProduct, Matrix.of_apply, hi, Bool.false_eq_true, false_or]
    apply Finset.sum_congr rfl
    intro j _
    rw [adjoint_with_zero_apply]
    by_cases hj : (d j).isSome = true
    · have hij : i ≠ j := by
        rintro rfl
        rw [hj] at hi
        exact Bool.noConfusion hi
      simp only [hj, if_true, if_neg hij, mul_zero, zero_mul]
    · simp only [hj, Bool.false_eq_true, if_false]

/-- Claim C13: let `A` be the symmetric unconstrained Newton operator, `d` the frozen set, `g` the
right-hand side, and let `adjoint` solve the system whose matrix is `A` on the free rows and
columns and the identity on the frozen ones. Then the vector `dl_drhs_friction` of
`BackwardNewton` is `adjoint` on the free entries, where it solves the transposed free block
`sum over the free j of A j i * dl_drhs_friction j = g i`, it is
`g i - sum over the free j of A j i * adjoint j` on a frozen entry `i`, and it is the transposed
Jacobian of the constrained linearised solve applied to `g`: for every pair `(dq, drhs)` with
`dq = drhs` on the frozen entries and `A dq = drhs` on the free rows, the pairing of `g`
with `dq` is the pairing of `dl_drhs_friction` with `drhs`. -/
theorem dl_drhs_friction_transposed_jacobian
    (self : Deformable K vertex_dim vertex_num act_dofs w_dofs)
    (q_next : Fin (vertex_dim * vertex_num) → K) (a : Fin act_dofs → K) (h2m : K)
    (d : Fin (vertex_dim * vertex_num) → Option K)
    (g adjoint : Fin (vertex_dim * vertex_num) → K)
    (A : Matrix (Fin (vertex_dim * vertex_num)) (Fin (vertex_dim * vertex_num)) K)
    (hA : A.IsSymm)
    (hop : ∀ x, self.NewtonMatrixOp q_next a h2m (fun _ => none) x = A.mulVec x)
    (hsolve : (Matrix.of fun i j =>
        if (d i).isSome ∨ (d j).isSome then (if i = j then (1 : K) else 0) else A i j).mulVec
          adjoint = g) :
    (∀ i, (d i).isSome = false →
      self.dl_drhs_friction q_next a h2m d adjoint i = adjoint i) ∧
    (∀ i, (d i).isSome = false →
      ∑ j, A j i * (if (d j).isSome then 0 else self.dl_drhs_friction q_next a h2m d adjoint j)
        = g i) ∧
    (∀ i, (d i).isSome →
      self.dl_drhs_friction q_next a h2m d adjoint i
        = g i - ∑ j, A j i * (if (d j).isSome then 0 else adjoint j)) ∧
    (∀ dq drhs : Fin (vertex_dim * vertex_num) → K,
      (∀ i, (d i).isSome → dq i = drhs i) →
      (∀ i, (d i).isSome = false → (A.mulVec dq) i = drhs i) →
      dotProduct g dq = dotProduct (self.dl_drhs_friction q_next a h2m d adjoint) drhs) := by
  obtain ⟨hC, hF⟩ := frozen_system_rows A d adjoint g hsolve
  have hAz : ∀ i, (A.mulVec (adjoint_with_zero d adjoint)) i
      = ∑ j, A j i * (if (d j).isSome then 0 else adjoint j) := by
    intro i
    simp only [Matrix.mulVec, dotProduct, adjoint_with_zero_apply]
    apply Finset.sum_congr rfl
    intro j _
    rw [← hA.apply i j]
  have hfree : ∀ i, (d i).isSome = false →
      self.dl_drhs_friction q_next a h2m d adjoint i = adjoint i := by
    intro i hi
    unfold dl_drhs_friction
    simp only [hi, Bool.false_eq_true, if_false]
  have hfrozen : ∀ i, (d i).isSome →
      self.dl_drhs_friction q_next a h2m d adjoint i
        = g i - (A.mulVec (adjoint_with_zero d adjoint)) i := by
    intro i hi
    unfold dl_drhs_friction
    simp only [hi, if_true, hop, Matrix.mulVec_neg, Pi.neg_apply, hC i hi]
    ring
  refine ⟨hfree, ?_, ?_, ?_⟩
  · intro i hi
    rw [← hF i hi, hAz]
    apply Finset.sum_congr rfl
    intro j _
    by_cases hj : (d j).isSome = true
    · simp only [hj, if_true]
    · have hj' : (d j).isSome = false := by simpa using hj
      simp only [hj, if_false, hfree j hj']
  · intro i hi
    rw [hfrozen i hi, hAz]
  · intro dq drhs hdC hdF
    have hsym : dotProduct (adjoint_with_zero d adjoint) (A.mulVec dq)
        = dotProduct (A.mulVec (adjoint_with_zero d adjoint)) dq := by
      rw [Matrix.dotProduct_mulVec, ← Matrix.mulVec_transpose, hA.eq]
    have hterm : ∀ i, self.dl_drhs_friction q_next a h2m d adjoint i * drhs i
        = adjoint_with_zero d adjoint i * (A.mulVec dq) i
          - (A.mulVec (adjoint_with_zero d adjoint)) i * dq i + g i * dq i := by
      intro i
      by_cases hi : (d i).isSome = true
      · rw [hfrozen i hi, ← hdC i hi, adjoint_with_zero_apply, if_pos hi]
        ring
      · have hi' : (d i).isSome = false := by simpa using hi
        rw [hfree i hi', ← hdF i hi', hF i hi', adjoint_with_zero_apply, if_neg hi]
        ring
    have hsum : dotProduct (self.dl_drhs_friction q_next a h2m d adjoint) drhs
        = dotProduct (adjoint_with_zero d adjoint) (A.mulVec dq)
          - dotProduct (A.mulVec (adjoint_with_zero d adjoint)) dq + dotProduct g dq := by
      simp only [dotProduct]
      rw [← Finset.sum_sub_distrib, ← Finset.sum_add_distrib]
      exact Finset.sum_congr rfl fun i _ => hterm i
    rw [hsum, hsym]
    ring

/-- The statement of `dl_drhs_friction_transposed_jacobian` for the chain of two vertices with vertex 0
frozen, the right-hand side `(3, 4)` and the solution `(3, 2)` of the pinned system. -/
theorem dl_drhs_friction_transposed_jacobian_witness :
    chainOperator.IsSymm ∧
    (∀ x, chainBody.NewtonMatrixOp chainQNext (0 : Fin 0 → ℚ) (1 : ℚ) (fun _ => none) x = chainOperator.mulVec x) ∧
    ((Matrix.of fun i j =>
        if (chainBody.dirichlet_ i).isSome ∨ (chainBody.dirichlet_ j).isSome then (if i = j then (1 : ℚ) else 0) else chainOperator i j).mulVec
          chainAdjoint = chainSeed) ∧
    (∀ i, (chainBody.dirichlet_ i).isSome = false →
      chainBody.dl_drhs_friction chainQNext (0 : Fin 0 → ℚ) (1 : ℚ) chainBody.dirichlet_ chainAdjoint i = chainAdjoint i) ∧
    (∀ i, (chainBody.dirichlet_ i).isSome = false →
      ∑ j, chainOperator j i * (if (chainBody.dirichlet_ j).isSome then 0 else chainBody.dl_drhs_friction chainQNext (0 : Fin 0 → ℚ) (1 : ℚ) chainBody.dirichlet_ chainAdjoint j)
        = chainSeed i) ∧
    (∀ i, (chainBody.dirichlet_ i).isSome →
      chainBody.dl_drhs_friction chainQNext (0 : Fin 0 → ℚ) (1 : ℚ) chainBody.dirichlet_ chainAdjoint i
        = chainSeed i - ∑ j, chainOperator j i * (if (chainBody.dirichlet_ j).isSome then 0 else chainAdjoint j)) ∧
    (∀ dq drhs : Fin (1 * 2) → ℚ,
      (∀ i, (chainBody.dirichlet_ i).isSome → dq i = drhs i) →
      (∀ i, (chainBody.dirichlet_ i).isSome = false → (chainOperator.mulVec dq) i = drhs i) →
      dotProduct chainSeed dq = dotProduct (chainBody.dl_drhs_friction chainQNext (0 : Fin 0 → ℚ) (1 : ℚ) chainBody.dirichlet_ chainAdjoint) drhs) :=
  have hA : chainOperator.IsSymm := by
    unfold Matrix.IsSymm
    decide!
  have hM : (Matrix.of fun i j : Fin (1 * 2) =>
      if ((fun _ => none : Fin (1 * 2) → Option ℚ) i).isSome
          ∨ ((fun _ => none : Fin (1 * 2) → Option ℚ) j).isSome
        then (if i = j then (1 : ℚ) else 0)
        else (1 - (1 : ℚ) • chainStiffness) i j) = chainOperator := by
    decide!
  have hop : ∀ x, chainBody.NewtonMatrixOp chainQNext (0 : Fin 0 → ℚ) (1 : ℚ) (fun _ => none) x
      = chainOperator.mulVec x := fun x => congrArg (fun M => Matrix.mulVec M x) hM
  have hsolve : (Matrix.of fun i j =>
      if (chainBody.dirichlet_ i).isSome ∨ (chainBody.dirichlet_ j).isSome
        then (if i = j then (1 : ℚ) else 0) else chainOperator i j).mulVec chainAdjoint
      = chainSeed := by
    decide!
  ⟨hA, hop, hsolve,
    dl_drhs_friction_transposed_jacobian chainBody chainQNext 0 1 chainBody.dirichlet_
      chainSeed chainAdjoint chainOperator hA hop hsolve⟩

end Deformable

namespace Deformable

variable {K : Type} [LinearOrderedField K] {vertex_dim vertex_num act_dofs w_dofs : ℕ}

/-- A mesh that has a degree of freedom has a positive vertex dimension. -/
theorem pos_of_dof {vd vn : ℕ} (i : Fin (vd * vn)) : 0 < vd := by
  rcases Nat.eq_zero_or_pos vd with h0 | h0
  · have h := i.isLt
    have h1 : vd * vn = 0 := by rw [h0, Nat.zero_mul]
    omega
  · exact h0

/-- A vertex whose contact test does not fire leaves the forward loop state as it is. -/
theorem frictionForwardStep_none (self : Deformable K vertex_dim vertex_num act_dofs w_dofs)
    (q v_pred : Fin (vertex_dim * vertex_num) → K) (dt : K)
    (st : (Fin (vertex_dim * vertex_num) → K) × (Fin (vertex_dim * vertex_num) → Option K))
    (idx : Fin vertex_num)
    (h : self.ForwardIntersect (segment vertex_dim q idx.val)
      (segment vertex_dim v_pred idx.val) dt = none) :
    self.frictionForwardStep q v_pred dt st idx = st := by
  unfold frictionForwardStep
  simp only [h]

/-- A vertex whose contact test fires has its block overwritten in both components. -/
theorem frictionForwardStep_some (self : Deformable K vertex_dim vertex_num act_dofs w_dofs)
    (q v_pred : Fin (vertex_dim * vertex_num) → K) (dt : K)
    (st : (Fin (vertex_dim * vertex_num) → K) × (Fin (vertex_dim * vertex_num) → Option K))
    (idx : Fin vertex_num) (t : K)
    (h : self.ForwardIntersect (segment vertex_dim q idx.val)
      (segment vertex_dim v_pred idx.val) dt = some t) :
    self.frictionForwardStep q v_pred dt st idx
      = (setSegment st.1 idx.val
          (segment vertex_dim q idx.val + t • segment vertex_dim v_pred idx.val),
         setSegment st.2 idx.val fun i =>
          some ((segment vertex_dim q idx.val + t • segment vertex_dim v_pred idx.val) i)) := by
  unfold frictionForwardStep
  simp only [h]

/-- The forward loop leaves an entry as it is when no listed vertex of its block fires. -/
theorem foldl_frictionForwardStep_miss
    (self : Deformable K vertex_dim vertex_num act_dofs w_dofs)
    (q v_pred : Fin (vertex_dim * vertex_num) → K) (dt : K)
    (i : Fin (vertex_dim * vertex_num)) (l : List (Fin vertex_num)) :
    ∀ st : (Fin (vertex_dim * vertex_num) → K) × (Fin (vertex_dim * vertex_num) → Option K),
      (∀ idx ∈ l, i.val / vertex_dim = idx.val →
        self.ForwardIntersect (segment vertex_dim q idx.val)
          (segment vertex_dim v_pred idx.val) dt = none) →
      (l.foldl (self.frictionForwardStep q v_pred dt) st).1 i = st.1 i ∧
      (l.foldl (self.frictionForwardStep q v_pred dt) st).2 i = st.2 i := by
  have hvd : 0 < vertex_dim := pos_of_dof i
  induction l with
  | nil => intro st _; exact ⟨rfl, rfl⟩
  | cons hd tl ih =>
    intro st h
    rw [List.foldl_cons]
    obtain ⟨h1, h2⟩ := ih (self.frictionForwardStep q v_pred dt st hd)
      (fun idx hidx => h idx (List.mem_cons_of_mem _ hidx))
    rw [h1, h2]
    cases hI : self.ForwardIntersect (segment vertex_dim q hd.val)
        (segment vertex_dim v_pred hd.val) dt with
    | none => rw [frictionForwardStep_none self q v_pred dt st hd hI]; exact ⟨rfl, rfl⟩
    | some t =>
      have hne : ¬ i.val / vertex_dim = hd.val := by
        intro he
        have := h hd (List.mem_cons_self _ _) he
        rw [hI] at this
        exact Option.noConfusion this
      rw [frictionForwardStep_some self q v_pred dt st hd t hI]
      simp only [setSegment_apply _ _ _ _ hvd, if_neg hne, and_self]

/-- The forward loop writes the contact point into the block of every listed vertex that
fires. -/
theorem foldl_frictionForwardStep_hit
    (self : Deformable K vertex_dim vertex_num act_dofs w_dofs)
    (q v_pred : Fin (vertex_dim * vertex_num) → K) (dt : K)
    (i : Fin (vertex_dim * vertex_num)) (j : Fin vertex_dim) (l : List (Fin vertex_num)) :
    ∀ (st : (Fin (vertex_dim * vertex_num) → K) × (Fin (vertex_dim * vertex_num) → Option K))
      (idx : Fin vertex_num) (t : K), idx ∈ l →
      self.ForwardIntersect (segment vertex_dim q idx.val)
        (segment vertex_dim v_pred idx.val) dt = some t →
      i.val = vertex_dim * idx.val + j.val →
      (l.foldl (self.frictionForwardStep q v_pred dt) st).1 i
        = (segment vertex_dim q idx.val + t • segment vertex_dim v_pred idx.val) j ∧
      (l.foldl (self.frictionForwardStep q v_pred dt) st).2 i
        = some ((segment vertex_dim q idx.val + t • segment vertex_dim v_pred idx.val) j) := by
  have hvd : 0 < vertex_dim := Nat.lt_of_le_of_lt (Nat.zero_le _) j.isLt
  induction l with
  | nil => intro st idx t hmem; exact absurd hmem (List.not_mem_nil _)
  | cons hd tl ih =>
    intro st idx t hmem hI hblk
    rw [List.foldl_cons]
    by_cases htl : idx ∈ tl
    · exact ih _ idx t htl hI hblk
    · have hhd : idx = hd := by
        rcases List.mem_cons.1 hmem with h | h
        · exact h
        · exact absurd h htl
      subst hhd
      have hdiv : i.val / vertex_dim = idx.val := by rw [hblk]; exact block_div j
      have hmod : (⟨i.val % vertex_dim, Nat.mod_lt _ hvd⟩ : Fin vertex_dim) = j := by
        apply Fin.ext
        simp only [hblk]
        exact block_mod j
      obtain ⟨h1, h2⟩ := foldl_frictionForwardStep_miss self q v_pred dt i tl
        (self.frictionForwardStep q v_pred dt st idx) (by
          intro idx1 hidx1 he
          have : idx1 = idx := Fin.ext (by rw [← he, hdiv])
          rw [this] at hidx1
          exact absurd hidx1 htl)
      rw [h1, h2, frictionForwardStep_some self q v_pred dt st idx t hI]
      simp only [setSegment_apply _ _ _ _ hvd, if_pos hdiv, hmod, and_self]

/-- A vertex whose contact test does not fire leaves the backward loop state as it is. -/
theorem frictionBackwardStep_none (self : Deformable K vertex_dim vertex_num act_dofs w_dofs)
    (q v_pred : Fin (vertex_dim * vertex_num) → K) (dt : K)
    (dl_drhs_friction : Fin (vertex_dim * vertex_num) → K)
    (st : FrictionBackwardState K (vertex_dim * vertex_num)) (idx : Fin vertex_num)
    (h : self.ForwardIntersect (segment vertex_dim q idx.val)
      (segment vertex_dim v_pred idx.val) dt = none) :
    self.frictionBackwardStep q v_pred dt dl_drhs_friction st idx = st := by
  unfold frictionBackwardStep
  simp only [h]

/-- A vertex whose contact test fires has its block of `dl_drhs_dirichlet` zeroed and the two
results of `BackwardIntersect` added to its blocks of `dl_dq` and `dl_dv_pred`. -/
theorem frictionBackwardStep_some (self : Deformable K vertex_dim vertex_num act_dofs w_dofs)
    (q v_pred : Fin (vertex_dim * vertex_num) → K) (dt : K)
    (dl_drhs_friction : Fin (vertex_dim * vertex_num) → K)
    (st : FrictionBackwardState K (vertex_dim * vertex_num)) (idx : Fin vertex_num) (t : K)
    (h : self.ForwardIntersect (segment vertex_dim q idx.val)
      (segment vertex_dim v_pred idx.val) dt = some t) :
    self.frictionBackwardStep q v_pred dt dl_drhs_friction st idx
      = { dl_drhs_dirichlet := setSegment st.dl_drhs_dirichlet idx.val (0 : Fin vertex_dim → K)
          dl_dq := setSegment st.dl_dq idx.val (segment vertex_dim st.dl_dq idx.val
            + (self.BackwardIntersect (segment vertex_dim q idx.val)
                (segment vertex_dim v_pred idx.val) t
                (segment vertex_dim dl_drhs_friction idx.val)).1)
          dl_dv_pred := setSegment st.dl_dv_pred idx.val (segment vertex_dim st.dl_dv_pred idx.val
            + (self.BackwardIntersect (segment vertex_dim q idx.val)
                (segment vertex_dim v_pred idx.val) t
                (segment vertex_dim dl_drhs_friction idx.val)).2) } := by
  unfold frictionBackwardStep
  simp only [h]

end Deformable

namespace Deformable

variable {K : Type} [LinearOrderedField K] {vertex_dim vertex_num act_dofs w_dofs : ℕ}

/-- The backward loop leaves an entry of its three vectors as it is when no listed vertex of
its block fires. -/
theorem foldl_frictionBackwardStep_miss
    (self : Deformable K vertex_dim vertex_num act_dofs w_dofs)
    (q v_pred : Fin (vertex_dim * vertex_num) → K) (dt : K)
    (dl_drhs_friction : Fin (vertex_dim * vertex_num) → K)
    (i : Fin (vertex_dim * vertex_num)) (l : List (Fin vertex_num)) :
    ∀ st : FrictionBackwardState K (vertex_dim * vertex_num),
      (∀ idx ∈ l, i.val / vertex_dim = idx.val →
        self.ForwardIntersect (segment vertex_dim q idx.val)
          (segment vertex_dim v_pred idx.val) dt = none) →
      (l.foldl (self.frictionBackwardStep q v_pred dt dl_drhs_friction) st).dl_drhs_dirichlet i
        = st.dl_drhs_dirichlet i ∧
      (l.foldl (self.frictionBackwardStep q v_pred dt dl_drhs_friction) st).dl_dq i
        = st.dl_dq i ∧
      (l.foldl (self.frictionBackwardStep q v_pred dt dl_drhs_friction) st).dl_dv_pred i
        = st.dl_dv_pred i := by
  have hvd : 0 < vertex_dim := pos_of_dof i
  induction l with
  | nil => intro st _; exact ⟨rfl, rfl, rfl⟩
  | cons hd tl ih =>
    intro st h
    rw [List.foldl_cons]
    obtain ⟨h1, h2, h3⟩ := ih (self.frictionBackwardStep q v_pred dt dl_drhs_friction st hd)
      (fun idx hidx => h idx (List.mem_cons_of_mem _ hidx))
    rw [h1, h2, h3]
    cases hI : self.ForwardIntersect (segment vertex_dim q hd.val)
        (segment vertex_dim v_pred hd.val) dt with
    | none =>
      rw [frictionBackwardStep_none self q v_pred dt dl_drhs_friction st hd hI]
      exact ⟨rfl, rfl, rfl⟩
    | some t =>
      have hne : ¬ i.val / vertex_dim = hd.val := by
        intro he
        have := h hd (List.mem_cons_self _ _) he
        rw [hI] at this
        exact Option.noConfusion this
      rw [frictionBackwardStep_some self q v_pred dt dl_drhs_friction st hd t hI]
      simp only [setSegment_apply _ _ _ _ hvd, if_neg hne, and_self]

/-- The backward loop zeroes `dl_drhs_dirichlet` on the block of every listed vertex that
fires. -/
theorem foldl_frictionBackwardStep_hit_zero
    (self : Deformable K vertex_dim vertex_num act_dofs w_dofs)
    (q v_pred : Fin (vertex_dim * vertex_num) → K) (dt : K)
    (dl_drhs_friction : Fin (vertex_dim * vertex_num) → K)
    (i : Fin (vertex_dim * vertex_num)) (l : List (Fin vertex_num)) :
    ∀ (st : FrictionBackwardState K (vertex_dim * vertex_num)) (idx : Fin vertex_num),
      idx ∈ l →
      (self.ForwardIntersect (segment vertex_dim q idx.val)
        (segment vertex_dim v_pred idx.val) dt).isSome →
      i.val / vertex_dim = idx.val →
      (l.foldl (self.frictionBackwardStep q v_pred dt dl_drhs_friction) st).dl_drhs_dirichlet i
        = 0 := by
  have hvd : 0 < vertex_dim := pos_of_dof i
  induction l with
  | nil => intro st idx hmem; exact absurd hmem (List.not_mem_nil _)
  | cons hd tl ih =>
    intro st idx hmem hI hdiv
    rw [List.foldl_cons]
    by_cases htl : idx ∈ tl
    · exact ih _ idx htl hI hdiv
    · have hhd : idx = hd := by
        rcases List.mem_cons.1 hmem with h | h
        · exact h
        · exact absurd h htl
      subst hhd
      obtain ⟨t, ht⟩ := Option.isSome_iff_exists.1 hI
      obtain ⟨h1, -, -⟩ := foldl_frictionBackwardStep_miss self q v_pred dt dl_drhs_friction i tl
        (self.frictionBackwardStep q v_pred dt dl_drhs_friction st idx) (by
          intro idx1 hidx1 he
          have : idx1 = idx := Fin.ext (by rw [← he, hdiv])
          rw [this] at hidx1
          exact absurd hidx1 htl)
      rw [h1, frictionBackwardStep_some self q v_pred dt dl_drhs_friction st idx t ht]
      simp only [setSegment_apply _ _ _ _ hvd, if_pos hdiv, Pi.zero_apply]

/-- Over a list without repetition, the backward loop adds the two results of
`BackwardIntersect`, called with the block of `q`, the block of `v_pred` and the hit time of the
forward test, to the blocks of `dl_dq` and `dl_dv_pred` of every listed vertex that fires. -/
theorem foldl_frictionBackwardStep_hit
    (self : Deformable K vertex_dim vertex_num act_dofs w_dofs)
    (q v_pred : Fin (vertex_dim * vertex_num) → K) (dt : K)
    (dl_drhs_friction : Fin (vertex_dim * vertex_num) → K)
    (i : Fin (vertex_dim * vertex_num)) (j : Fin vertex_dim) (l : List (Fin vertex_num)) :
    ∀ (st : FrictionBackwardState K (vertex_dim * vertex_num)) (idx : Fin vertex_num) (t : K),
      l.Nodup → idx ∈ l →
      self.ForwardIntersect (segment vertex_dim q idx.val)
        (segment vertex_dim v_pred idx.val) dt = some t →
      i.val = vertex_dim * idx.val + j.val →
      (l.foldl (self.frictionBackwardStep q v_pred dt dl_drhs_friction) st).dl_dq i
        = st.dl_dq i + (self.BackwardIntersect (segment vertex_dim q idx.val)
            (segment vertex_dim v_pred idx.val) t
            (segment vertex_dim dl_drhs_friction idx.val)).1 j ∧
      (l.foldl (self.frictionBackwardStep q v_pred dt dl_drhs_friction) st).dl_dv_pred i
        = st.dl_dv_pred i + (self.BackwardIntersect (segment vertex_dim q idx.val)
            (segment vertex_dim v_pred idx.val) t
            (segment vertex_dim dl_drhs_friction idx.val)).2 j := by
  have hvd : 0 < vertex_dim := pos_of_dof i
  induction l with
  | nil => intro st idx t _ hmem; exact absurd hmem (List.not_mem_nil _)
  | cons hd tl ih =>
    intro st idx t hnd hmem hI hblk
    have hdiv : i.val / vertex_dim = idx.val := by rw [hblk]; exact block_div j
    have hmod : (⟨i.val % vertex_dim, Nat.mod_lt _ hvd⟩ : Fin vertex_dim) = j := by
      apply Fin.ext
      simp only [hblk]
      exact block_mod j
    obtain ⟨hhdtl, hndtl⟩ := List.nodup_cons.1 hnd
    rw [List.foldl_cons]
    rcases List.mem_cons.1 hmem with hhd | htl
    · subst hhd
      obtain ⟨-, h2, h3⟩ := foldl_frictionBackwardStep_miss self q v_pred dt dl_drhs_friction
        i tl (self.frictionBackwardStep q v_pred dt dl_drhs_friction st idx) (by
          intro idx1 hidx1 he
          have : idx1 = idx := Fin.ext (by rw [← he, hdiv])
          rw [this] at hidx1
          exact absurd hidx1 hhdtl)
      rw [h2, h3, frictionBackwardStep_some self q v_pred dt dl_drhs_friction st idx t hI]
      have hs1 := segment_div_mod hvd st.dl_dq i
      have hs2 := segment_div_mod hvd st.dl_dv_pred i
      rw [hdiv, hmod] at hs1 hs2
      simp only [setSegment_apply _ _ _ _ hvd, if_pos hdiv, hmod, Pi.add_apply, hs1, hs2,
        and_self]
    · obtain ⟨h2, h3⟩ := ih (self.frictionBackwardStep q v_pred dt dl_drhs_friction st hd)
        idx t hndtl htl hI hblk
      rw [h2, h3]
      have hne : ¬ i.val / vertex_dim = hd.val := by
        intro he
        have : idx = hd := Fin.ext (by rw [← he, hdiv])
        rw [this] at htl
        exact hhdtl htl
      cases hIhd : self.ForwardIntersect (segment vertex_dim q hd.val)
          (segment vertex_dim v_pred hd.val) dt with
      | none =>
        rw [frictionBackwardStep_none self q v_pred dt dl_drhs_friction st hd hIhd]
        exact ⟨rfl, rfl⟩
      | some t1 =>
        rw [frictionBackwardStep_some self q v_pred dt dl_drhs_friction st hd t1 hIhd]
        simp only [setSegment_apply _ _ _ _ hvd, if_neg hne, and_self]

end Deformable

namespace Deformable

variable {K : Type} [LinearOrderedField K] {vertex_dim vertex_num act_dofs w_dofs : ℕ}

/-- A map that is the contact point on the block of every listed vertex that fires and
`dirichlet_` elsewhere is the frozen set that the forward loop builds. -/
theorem frictionForward_snd_eq
    (self : Deformable K vertex_dim vertex_num act_dofs w_dofs)
    (q v : Fin (vertex_dim * vertex_num) → K) (a : Fin act_dofs → K)
    (f_ext : Fin (vertex_dim * vertex_num) → K) (dt : K)
    (D : Fin (vertex_dim * vertex_num) → Option K)
    (hhit : ∀ idx ∈ self.frictional_boundary_vertex_indices_, ∀ t : K,
      self.ForwardIntersect (segment vertex_dim q idx.val)
          (segment vertex_dim (self.v_pred q v a f_ext dt) idx.val) dt = some t →
      ∀ (i : Fin (vertex_dim * vertex_num)) (j : Fin vertex_dim),
        i.val = vertex_dim * idx.val + j.val →
        D i = some ((segment vertex_dim q idx.val
            + t • segment vertex_dim (self.v_pred q v a f_ext dt) idx.val) j))
    (hmiss : ∀ i : Fin (vertex_dim * vertex_num),
      (∀ idx ∈ self.frictional_boundary_vertex_indices_, i.val / vertex_dim = idx.val →
        self.ForwardIntersect (segment vertex_dim q idx.val)
          (segment vertex_dim (self.v_pred q v a f_ext dt) idx.val) dt = none) →
      D i = self.dirichlet_ i) :
    (self.frictionForward q v a f_ext dt).2 = D := by
  funext i
  have hvd : 0 < vertex_dim := pos_of_dof i
  by_cases hex : ∃ idx ∈ self.frictional_boundary_vertex_indices_,
      i.val / vertex_dim = idx.val ∧
        (self.ForwardIntersect (segment vertex_dim q idx.val)
          (segment vertex_dim (self.v_pred q v a f_ext dt) idx.val) dt).isSome
  · obtain ⟨idx, hidx, hdiv, hsome⟩ := hex
    obtain ⟨t, ht⟩ := Option.isSome_iff_exists.1 hsome
    have hij : i.val = vertex_dim * idx.val
        + (⟨i.val % vertex_dim, Nat.mod_lt _ hvd⟩ : Fin vertex_dim).val := by
      rw [← hdiv]
      exact (Nat.div_add_mod _ _).symm
    rw [hhit idx hidx t ht i _ hij]
    exact (foldl_frictionForwardStep_hit self q (self.v_pred q v a f_ext dt) dt i _
      self.frictional_boundary_vertex_indices_
      (self.rhs_dirichlet q v f_ext dt, self.dirichlet_) idx t hidx ht hij).2
  · have hnone : ∀ idx ∈ self.frictional_boundary_vertex_indices_,
        i.val / vertex_dim = idx.val →
        self.ForwardIntersect (segment vertex_dim q idx.val)
          (segment vertex_dim (self.v_pred q v a f_ext dt) idx.val) dt = none := by
      intro idx hidx hdiv
      cases hI : self.ForwardIntersect (segment vertex_dim q idx.val)
          (segment vertex_dim (self.v_pred q v a f_ext dt) idx.val) dt with
      | none => rfl
      | some t => exact absurd ⟨idx, hidx, hdiv, by rw [hI]; rfl⟩ hex
    rw [hmiss i hnone]
    exact (foldl_frictionForwardStep_miss self q (self.v_pred q v a f_ext dt) dt i
      self.frictional_boundary_vertex_indices_
      (self.rhs_dirichlet q v f_ext dt, self.dirichlet_) hnone).2

/-- Claim C16: take one call of `BackwardNewton`, past its checks, on a body whose list of
frictional-boundary vertices has no repetition. Let `D` be `dirichlet_` overridden, on the block
of every listed vertex whose `ForwardIntersect(q_i, v_pred_i, dt)` fires, by the contact point
`q_i + t_hit * v_pred_i`, and let the solve of lines 72-96 on the matrix
`NewtonMatrix(q_next, a, dt^2 / m, D)` succeed and return `adjoint`. Then `D` is the frozen set
that the call builds, a degree of freedom being frozen exactly when it is a Dirichlet index
or lies in the block of a listed vertex that fires; the call does not end with a solver
error; and the output `dl_df_ext` shows the same vertices reversed: on the block of a listed vertex
that fires it is `dt / m` times the second result of
`BackwardIntersect(q_i, v_pred_i, t_hit, .)` applied to the block of `dl_drhs_friction`, where
`dl_drhs_friction` is built from `adjoint` and `D`, and everywhere else it is `dt^2 / m` times the
entry of `dl_drhs_friction`, or zero at a Dirichlet index. -/
theorem BackwardNewton_contact_set_consistent
    (self : Deformable K vertex_dim vertex_num act_dofs w_dofs) (sqrt : K → K)
    (method : String) (q v : Fin (vertex_dim * vertex_num) → K) (a : Fin act_dofs → K)
    (f_ext : Fin (vertex_dim * vertex_num) → K) (dt : K)
    (q_next dl_dq_next dl_dv_next : Fin (vertex_dim * vertex_num) → K) (abs_tol rel_tol : K)
    (D : Fin (vertex_dim * vertex_num) → Option K)
    (adjoint : Fin (vertex_dim * vertex_num) → K)
    (hnd : self.frictional_boundary_vertex_indices_.Nodup)
    (hhit : ∀ idx ∈ self.frictional_boundary_vertex_indices_, ∀ t : K,
      self.ForwardIntersect (segment vertex_dim q idx.val)
          (segment vertex_dim (self.v_pred q v a f_ext dt) idx.val) dt = some t →
      ∀ (i : Fin (vertex_dim * vertex_num)) (j : Fin vertex_dim),
        i.val = vertex_dim * idx.val + j.val →
        D i = some ((segment vertex_dim q idx.val
            + t • segment vertex_dim (self.v_pred q v a f_ext dt) idx.val) j))
    (hmiss : ∀ i : Fin (vertex_dim * vertex_num),
      (∀ idx ∈ self.frictional_boundary_vertex_indices_, i.val / vertex_dim = idx.val →
        self.ForwardIntersect (segment vertex_dim q idx.val)
          (segment vertex_dim (self.v_pred q v a f_ext dt) idx.val) dt = none) →
      D i = self.dirichlet_ i)
    (hs : (self.solveAdjoint sqrt method abs_tol rel_tol q_next a (dt / self.mass * dt) D
        (dl_dq_next_agg dt dl_dq_next dl_dv_next)).1.success = true)
    (hx : (self.solveAdjoint sqrt method abs_tol rel_tol q_next a (dt / self.mass * dt) D
        (dl_dq_next_agg dt dl_dq_next dl_dv_next)).1.x = adjoint) :
    (self.frictionForward q v a f_ext dt).2 = D ∧
    (∀ i, (D i).isSome ↔
      ((self.dirichlet_ i).isSome ∨
        ∃ idx ∈ self.frictional_boundary_vertex_indices_, i.val / vertex_dim = idx.val ∧
          (self.ForwardIntersect (segment vertex_dim q idx.val)
          (segment vertex_dim (self.v_pred q v a f_ext dt) idx.val) dt).isSome)) ∧
    ((self.BackwardNewtonSteps sqrt method q v a f_ext dt q_next dl_dq_next dl_dv_next
          abs_tol rel_tol).raised = none ∨
      (self.BackwardNewtonSteps sqrt method q v a f_ext dt q_next dl_dq_next dl_dv_next
          abs_tol rel_tol).raised = some Error.eigenSizeMismatch) ∧
    (∀ idx ∈ self.frictional_boundary_vertex_indices_, ∀ t : K,
      self.ForwardIntersect (segment vertex_dim q idx.val)
          (segment vertex_dim (self.v_pred q v a f_ext dt) idx.val) dt = some t →
      ∀ (i : Fin (vertex_dim * vertex_num)) (j : Fin vertex_dim),
        i.val = vertex_dim * idx.val + j.val →
        (self.BackwardNewtonSteps sqrt method q v a f_ext dt q_next dl_dq_next dl_dv_next
          abs_tol rel_tol).out.dl_df_ext i
          = dt / self.mass * (self.BackwardIntersect (segment vertex_dim q idx.val)
              (segment vertex_dim (self.v_pred q v a f_ext dt) idx.val) t
              (segment vertex_dim
                (self.dl_drhs_friction q_next a (dt / self.mass * dt) D adjoint)
                idx.val)).2 j) ∧
    (∀ i : Fin (vertex_dim * vertex_num),
      (∀ idx ∈ self.frictional_boundary_vertex_indices_, i.val / vertex_dim = idx.val →
        self.ForwardIntersect (segment vertex_dim q idx.val)
          (segment vertex_dim (self.v_pred q v a f_ext dt) idx.val) dt = none) →
      (self.BackwardNewtonSteps sqrt method q v a f_ext dt q_next dl_dq_next dl_dv_next
          abs_tol rel_tol).out.dl_df_ext i
        = dt / self.mass * dt * (if (self.dirichlet_ i).isSome then 0
            else (self.dl_drhs_friction q_next a (dt / self.mass * dt) D adjoint) i)) := by
  have hD := frictionForward_snd_eq self q v a f_ext dt D hhit hmiss
  have hsolve : (self.solveAdjoint sqrt method abs_tol rel_tol q_next a (dt / self.mass * dt)
      (self.frictionForward q v a f_ext dt).2
      (dl_dq_next_agg dt dl_dq_next dl_dv_next)).1 = ⟨adjoint, true⟩ := by
    rw [hD, SolveResult_eq_of_success _ hs, hx]
  have hs1 : (self.solveAdjoint sqrt method abs_tol rel_tol q_next a (dt / self.mass * dt)
      (self.frictionForward q v a f_ext dt).2
      (dl_dq_next_agg dt dl_dq_next dl_dv_next)).1.success = true := by
    rw [hsolve]
  have hext : (self.BackwardNewtonSteps sqrt method q v a f_ext dt q_next dl_dq_next dl_dv_next
      abs_tol rel_tol).out.dl_df_ext
      = 0 + (dt / self.mass * dt) • self.dl_drhs (self.frictionBackward q (self.v_pred q v a f_ext dt) dt
        (self.dl_drhs_friction q_next a (dt / self.mass * dt)
          (self.frictionForward q v a f_ext dt).2 adjoint)
        (0 + (1 / dt) • -dl_dv_next)).dl_drhs_dirichlet
        + (dt / self.mass) • (self.frictionBackward q (self.v_pred q v a f_ext dt) dt
        (self.dl_drhs_friction q_next a (dt / self.mass * dt)
          (self.frictionForward q v a f_ext dt).2 adjoint)
        (0 + (1 / dt) • -dl_dv_next)).dl_dv_pred := by
    unfold BackwardNewtonSteps frictionBackward
    simp only [hsolve, Bool.true_eq_false, if_false]
    split_ifs <;> rfl
  rw [hD] at hext
  refine ⟨hD, ?_, ?_, ?_, ?_⟩
  · intro i
    have hvd : 0 < vertex_dim := pos_of_dof i
    by_cases hex : ∃ idx ∈ self.frictional_boundary_vertex_indices_,
        i.val / vertex_dim = idx.val ∧
          (self.ForwardIntersect (segment vertex_dim q idx.val)
          (segment vertex_dim (self.v_pred q v a f_ext dt) idx.val) dt).isSome
    · obtain ⟨idx, hidx, hdiv, hsome⟩ := hex
      obtain ⟨t, ht⟩ := Option.isSome_iff_exists.1 hsome
      have hij : i.val = vertex_dim * idx.val
          + (⟨i.val % vertex_dim, Nat.mod_lt _ hvd⟩ : Fin vertex_dim).val := by
        rw [← hdiv]
        exact (Nat.div_add_mod _ _).symm
      rw [hhit idx hidx t ht i _ hij]
      exact ⟨fun _ => Or.inr ⟨idx, hidx, hdiv, hsome⟩, fun _ => rfl⟩
    · have hnone : ∀ idx ∈ self.frictional_boundary_vertex_indices_,
          i.val / vertex_dim = idx.val →
          self.ForwardIntersect (segment vertex_dim q idx.val)
          (segment vertex_dim (self.v_pred q v a f_ext dt) idx.val) dt = none := by
        intro idx hidx hdiv
        cases hI : self.ForwardIntersect (segment vertex_dim q idx.val)
          (segment vertex_dim (self.v_pred q v a f_ext dt) idx.val) dt with
        | none => rfl
        | some t => exact absurd ⟨idx, hidx, hdiv, by rw [hI]; rfl⟩ hex
      rw [hmiss i hnone]
      exact ⟨fun h => Or.inl h, fun h => h.elim id fun h1 => absurd h1 hex⟩
  · exact BackwardNewtonSteps_raised_of_solve_success self sqrt method q v a f_ext dt q_next
      dl_dq_next dl_dv_next abs_tol rel_tol hs1
  · intro idx hidx t ht i j hij
    have hdiv : i.val / vertex_dim = idx.val := by rw [hij]; exact block_div j
    have hz : (self.frictionBackward q (self.v_pred q v a f_ext dt) dt
        (self.dl_drhs_friction q_next a (dt / self.mass * dt) D adjoint)
        (0 + (1 / dt) • -dl_dv_next)).dl_drhs_dirichlet i = 0 :=
      foldl_frictionBackwardStep_hit_zero self q (self.v_pred q v a f_ext dt) dt
        (self.dl_drhs_friction q_next a (dt / self.mass * dt) D adjoint) i
        self.frictional_boundary_vertex_indices_ _ idx hidx (by rw [ht]; rfl) hdiv
    have hp : (self.frictionBackward q (self.v_pred q v a f_ext dt) dt
        (self.dl_drhs_friction q_next a (dt / self.mass * dt) D adjoint)
        (0 + (1 / dt) • -dl_dv_next)).dl_dv_pred i
        = (self.BackwardIntersect (segment vertex_dim q idx.val)
            (segment vertex_dim (self.v_pred q v a f_ext dt) idx.val) t
            (segment vertex_dim (self.dl_drhs_friction q_next a (dt / self.mass * dt) D adjoint)
              idx.val)).2 j := by
      unfold frictionBackward
      rw [(foldl_frictionBackwardStep_hit self q (self.v_pred q v a f_ext dt) dt
        (self.dl_drhs_friction q_next a (dt / self.mass * dt) D adjoint) i j
        self.frictional_boundary_vertex_indices_ _ idx t hnd hidx ht hij).2]
      exact zero_add _
    have hd : self.dl_drhs (self.frictionBackward q (self.v_pred q v a f_ext dt) dt
        (self.dl_drhs_friction q_next a (dt / self.mass * dt) D adjoint)
        (0 + (1 / dt) • -dl_dv_next)).dl_drhs_dirichlet i = 0 := by
      unfold dl_drhs
      rw [hz]
      exact ite_self _
    rw [hext, Pi.add_apply, Pi.add_apply, Pi.smul_apply, Pi.smul_apply, hp, hd, smul_zero,
      Pi.zero_apply, zero_add, zero_add, smul_eq_mul]
  · intro i hi
    obtain ⟨h1, -, h3⟩ := foldl_frictionBackwardStep_miss self q (self.v_pred q v a f_ext dt)
      dt (self.dl_drhs_friction q_next a (dt / self.mass * dt) D adjoint) i
      self.frictional_boundary_vertex_indices_
      { dl_drhs_dirichlet := (self.dl_drhs_friction q_next a (dt / self.mass * dt) D adjoint),
        dl_dq := 0 + (1 / dt) • -dl_dv_next, dl_dv_pred := 0 } hi
    have hz : (self.frictionBackward q (self.v_pred q v a f_ext dt) dt
        (self.dl_drhs_friction q_next a (dt / self.mass * dt) D adjoint)
        (0 + (1 / dt) • -dl_dv_next)).dl_drhs_dirichlet i
        = (self.dl_drhs_friction q_next a (dt / self.mass * dt) D adjoint) i := h1
    have hp : (self.frictionBackward q (self.v_pred q v a f_ext dt) dt
        (self.dl_drhs_friction q_next a (dt / self.mass * dt) D adjoint)
        (0 + (1 / dt) • -dl_dv_next)).dl_dv_pred i = 0 := h3
    have hd : self.dl_drhs (self.frictionBackward q (self.v_pred q v a f_ext dt) dt
        (self.dl_drhs_friction q_next a (dt / self.mass * dt) D adjoint)
        (0 + (1 / dt) • -dl_dv_next)).dl_drhs_dirichlet i
        = if (self.dirichlet_ i).isSome then 0
          else (self.dl_drhs_friction q_next a (dt / self.mass * dt) D adjoint) i := by
      unfold dl_drhs
      rw [hz]
    rw [hext, Pi.add_apply, Pi.add_apply, Pi.smul_apply, Pi.smul_apply, hp, hd, smul_zero,
      add_zero, Pi.zero_apply, zero_add, smul_eq_mul]
/-- The statement of `BackwardNewton_contact_set_consistent` for the spring body with a Dirichlet index,
whose vertex 0 reaches the floor at time `1/2`, with the direct solver. -/
theorem BackwardNewton_contact_set_consistent_witness :
    (0 : Fin 4) ∈ pinnedSpringBody.frictional_boundary_vertex_indices_ ∧
    pinnedSpringBody.ForwardIntersect (segment 2 springQ (0 : Fin 4).val)
      (segment 2 (pinnedSpringBody.v_pred springQ springV (0 : Fin 8 → ℚ) 0 1) (0 : Fin 4).val) 1
      = some (1 / 2) ∧
    (pinnedSpringBody.dirichlet_ 7).isSome ∧
    (pinnedSpringBody.frictional_boundary_vertex_indices_.Nodup) ∧
    (∀ idx ∈ pinnedSpringBody.frictional_boundary_vertex_indices_, ∀ t : ℚ,
      pinnedSpringBody.ForwardIntersect (segment 2 springQ idx.val)
          (segment 2 (pinnedSpringBody.v_pred springQ springV (0 : Fin 8 → ℚ) (0 : Fin (2 * 4) → ℚ) (1 : ℚ)) idx.val) (1 : ℚ) = some t →
      ∀ (i : Fin (2 * 4)) (j : Fin 2),
        i.val = 2 * idx.val + j.val →
        pinnedFrozen i = some ((segment 2 springQ idx.val
            + t • segment 2 (pinnedSpringBody.v_pred springQ springV (0 : Fin 8 → ℚ) (0 : Fin (2 * 4) → ℚ) (1 : ℚ)) idx.val) j)) ∧
    (∀ i : Fin (2 * 4),
      (∀ idx ∈ pinnedSpringBody.frictional_boundary_vertex_indices_, i.val / 2 = idx.val →
        pinnedSpringBody.ForwardIntersect (segment 2 springQ idx.val)
          (segment 2 (pinnedSpringBody.v_pred springQ springV (0 : Fin 8 → ℚ) (0 : Fin (2 * 4) → ℚ) (1 : ℚ)) idx.val) (1 : ℚ) = none) →
      pinnedFrozen i = pinnedSpringBody.dirichlet_ i) ∧
    ((pinnedSpringBody.solveAdjoint id "newton_cholesky" (1 / 1000000 : ℚ) (1 / 1000000 : ℚ) springQNext (0 : Fin 8 → ℚ) ((1 : ℚ) / pinnedSpringBody.mass * (1 : ℚ)) pinnedFrozen
        (dl_dq_next_agg (1 : ℚ) springSeed (0 : Fin (2 * 4) → ℚ))).1.success = true) ∧
    ((pinnedSpringBody.solveAdjoint id "newton_cholesky" (1 / 1000000 : ℚ) (1 / 1000000 : ℚ) springQNext (0 : Fin 8 → ℚ) ((1 : ℚ) / pinnedSpringBody.mass * (1 : ℚ)) pinnedFrozen
        (dl_dq_next_agg (1 : ℚ) springSeed (0 : Fin (2 * 4) → ℚ))).1.x = springSeed) ∧
    (pinnedSpringBody.frictionForward springQ springV (0 : Fin 8 → ℚ) (0 : Fin (2 * 4) → ℚ) (1 : ℚ)).2 = pinnedFrozen ∧
    (∀ i, (pinnedFrozen i).isSome ↔
      ((pinnedSpringBody.dirichlet_ i).isSome ∨
        ∃ idx ∈ pinnedSpringBody.frictional_boundary_vertex_indices_, i.val / 2 = idx.val ∧
          (pinnedSpringBody.ForwardIntersect (segment 2 springQ idx.val)
          (segment 2 (pinnedSpringBody.v_pred springQ springV (0 : Fin 8 → ℚ) (0 : Fin (2 * 4) → ℚ) (1 : ℚ)) idx.val) (1 : ℚ)).isSome)) ∧
    ((pinnedSpringBody.BackwardNewtonSteps id "newton_cholesky" springQ springV (0 : Fin 8 → ℚ) (0 : Fin (2 * 4) → ℚ) (1 : ℚ) springQNext springSeed (0 : Fin (2 * 4) → ℚ)
          (1 / 1000000 : ℚ) (1 / 1000000 : ℚ)).raised = none ∨
      (pinnedSpringBody.BackwardNewtonSteps id "newton_cholesky" springQ springV (0 : Fin 8 → ℚ) (0 : Fin (2 * 4) → ℚ) (1 : ℚ) springQNext springSeed (0 : Fin (2 * 4) → ℚ)
          (1 / 1000000 : ℚ) (1 / 1000000 : ℚ)).raised = some Error.eigenSizeMismatch) ∧
    (∀ idx ∈ pinnedSpringBody.frictional_boundary_vertex_indices_, ∀ t : ℚ,
      pinnedSpringBody.ForwardIntersect (segment 2 springQ idx.val)
          (segment 2 (pinnedSpringBody.v_pred springQ springV (0 : Fin 8 → ℚ) (0 : Fin (2 * 4) → ℚ) (1 : ℚ)) idx.val) (1 : ℚ) = some t →
      ∀ (i : Fin (2 * 4)) (j : Fin 2),
        i.val = 2 * idx.val + j.val →
        (pinnedSpringBody.BackwardNewtonSteps id "newton_cholesky" springQ springV (0 : Fin 8 → ℚ) (0 : Fin (2 * 4) → ℚ) (1 : ℚ) springQNext springSeed (0 : Fin (2 * 4) → ℚ)
          (1 / 1000000 : ℚ) (1 / 1000000 : ℚ)).out.dl_df_ext i
          = (1 : ℚ) / pinnedSpringBody.mass * (pinnedSpringBody.BackwardIntersect (segment 2 springQ idx.val)
              (segment 2 (pinnedSpringBody.v_pred springQ springV (0 : Fin 8 → ℚ) (0 : Fin (2 * 4) → ℚ) (1 : ℚ)) idx.val) t
              (segment 2
                (pinnedSpringBody.dl_drhs_friction springQNext (0 : Fin 8 → ℚ) ((1 : ℚ) / pinnedSpringBody.mass * (1 : ℚ)) pinnedFrozen springSeed)
                idx.val)).2 j) ∧
    (∀ i : Fin (2 * 4),
      (∀ idx ∈ pinnedSpringBody.frictional_boundary_vertex_indices_, i.val / 2 = idx.val →
        pinnedSpringBody.ForwardIntersect (segment 2 springQ idx.val)
          (segment 2 (pinnedSpringBody.v_pred springQ springV (0 : Fin 8 → ℚ) (0 : Fin (2 * 4) → ℚ) (1 : ℚ)) idx.val) (1 : ℚ) = none) →
      (pinnedSpringBody.BackwardNewtonSteps id "newton_cholesky" springQ springV (0 : Fin 8 → ℚ) (0 : Fin (2 * 4) → ℚ) (1 : ℚ) springQNext springSeed (0 : Fin (2 * 4) → ℚ)
          (1 / 1000000 : ℚ) (1 / 1000000 : ℚ)).out.dl_df_ext i
        = (1 : ℚ) / pinnedSpringBody.mass * (1 : ℚ) * (if (pinnedSpringBody.dirichlet_ i).isSome then 0
            else (pinnedSpringBody.dl_drhs_friction springQNext (0 : Fin 8 → ℚ) ((1 : ℚ) / pinnedSpringBody.mass * (1 : ℚ)) pinnedFrozen springSeed) i)) :=
  have hFI : pinnedSpringBody.ForwardIntersect (segment 2 springQ (0 : Fin 4).val)
      (segment 2 (pinnedSpringBody.v_pred springQ springV (0 : Fin 8 → ℚ) 0 1) (0 : Fin 4).val) 1
      = some (1 / 2) := by
    decide!
  have hhit : ∀ idx ∈ pinnedSpringBody.frictional_boundary_vertex_indices_, ∀ t : ℚ,
      pinnedSpringBody.ForwardIntersect (segment 2 springQ idx.val)
          (segment 2 (pinnedSpringBody.v_pred springQ springV 0 0 1) idx.val) 1 = some t →
      ∀ (i : Fin (2 * 4)) (j : Fin 2),
        i.val = 2 * idx.val + j.val →
        pinnedFrozen i = some ((segment 2 springQ idx.val
            + t • segment 2 (pinnedSpringBody.v_pred springQ springV 0 0 1) idx.val) j) := by
    intro idx hidx t ht
    have h0 : idx = 0 := List.mem_singleton.1 hidx
    subst h0
    have ht1 : t = 1 / 2 := (Option.some.inj (hFI.symm.trans ht)).symm
    subst ht1
    decide!
  have hmiss : ∀ i : Fin (2 * 4),
      (∀ idx ∈ pinnedSpringBody.frictional_boundary_vertex_indices_, i.val / 2 = idx.val →
        pinnedSpringBody.ForwardIntersect (segment 2 springQ idx.val)
          (segment 2 (pinnedSpringBody.v_pred springQ springV 0 0 1) idx.val) 1 = none) →
      pinnedFrozen i = pinnedSpringBody.dirichlet_ i := by
    decide!
  ⟨List.mem_singleton_self _, hFI, rfl, List.nodup_singleton _, hhit, hmiss, rfl, (by decide!),
    BackwardNewton_contact_set_consistent pinnedSpringBody id "newton_cholesky" springQ springV
      0 0 1 springQNext springSeed 0 (1 / 1000000) (1 / 1000000) pinnedFrozen springSeed
      (List.nodup_singleton _) hhit hmiss rfl (by decide!)⟩

end Deformable

namespace Deformable

variable {K : Type} [LinearOrderedField K] {vertex_dim vertex_num act_dofs w_dofs : ℕ}

/-- Claim C11: take one call of `BackwardNewton`, past its checks, whose solve succeeds and returns
`adjoint`, and let `i` be a Dirichlet index or a degree of freedom of a listed vertex whose
contact test fires. The vector `dl_drhs` that leaves the Dirichlet reversal is zero at `i`, and
the outputs show that the updates `dl_dq += dl_drhs`, `dl_dv += dl_drhs * h` and
`dl_df_ext += dl_drhs * h2m` of lines 145-147 added nothing at `i`: `dl_df_ext(i)` is
`(dt / m) dl_dv_pred(i)`; `dl_dq(i)` is what the friction reversal left there plus the results of
the state-force, projective-dynamics and actuation operators; `dl_dv(i)` is `dl_dv_pred(i)` plus
the results of the state-force operator. This holds both when line 157 can be completed and
when the call ends there. At a Dirichlet index outside every block that fires, `dl_df_ext(i)`
is zero. -/
theorem BackwardNewton_dirichlet_invariant
    (self : Deformable K vertex_dim vertex_num act_dofs w_dofs) (sqrt : K → K)
    (method : String) (q v : Fin (vertex_dim * vertex_num) → K) (a : Fin act_dofs → K)
    (f_ext : Fin (vertex_dim * vertex_num) → K) (dt : K)
    (q_next dl_dq_next dl_dv_next : Fin (vertex_dim * vertex_num) → K) (abs_tol rel_tol : K)
    (adjoint : Fin (vertex_dim * vertex_num) → K)
    (hs : (self.solveAdjoint sqrt method abs_tol rel_tol q_next a (dt / self.mass * dt)
        (self.frictionForward q v a f_ext dt).2
        (dl_dq_next_agg dt dl_dq_next dl_dv_next)).1.success = true)
    (hx : (self.solveAdjoint sqrt method abs_tol rel_tol q_next a (dt / self.mass * dt)
        (self.frictionForward q v a f_ext dt).2
        (dl_dq_next_agg dt dl_dq_next dl_dv_next)).1.x = adjoint) :
    (∀ i : Fin (vertex_dim * vertex_num),
      ((self.dirichlet_ i).isSome ∨
        ∃ idx ∈ self.frictional_boundary_vertex_indices_, i.val / vertex_dim = idx.val ∧
          (self.ForwardIntersect (segment vertex_dim q idx.val)
            (segment vertex_dim (self.v_pred q v a f_ext dt) idx.val) dt).isSome) →
      (self.dl_drhs
            (self.frictionBackward q (self.v_pred q v a f_ext dt) dt
              (self.dl_drhs_friction q_next a (dt / self.mass * dt)
                (self.frictionForward q v a f_ext dt).2 adjoint)
              (0 + (1 / dt) • -dl_dv_next)).dl_drhs_dirichlet) i = 0 ∧
      (self.BackwardNewtonSteps sqrt method q v a f_ext dt q_next dl_dq_next dl_dv_next
            abs_tol rel_tol).out.dl_df_ext i
        = dt / self.mass * (self.frictionBackward q (self.v_pred q v a f_ext dt) dt
              (self.dl_drhs_friction q_next a (dt / self.mass * dt)
                (self.frictionForward q v a f_ext dt).2 adjoint)
              (0 + (1 / dt) • -dl_dv_next)).dl_dv_pred i ∧
      (act_dofs ≠ vertex_dim * vertex_num →
        (self.BackwardNewtonSteps sqrt method q v a f_ext dt q_next dl_dq_next dl_dv_next
            abs_tol rel_tol).out.dl_dq i
          = (self.frictionBackward q (self.v_pred q v a f_ext dt) dt
              (self.dl_drhs_friction q_next a (dt / self.mass * dt)
                (self.frictionForward q v a f_ext dt).2 adjoint)
              (0 + (1 / dt) • -dl_dv_next)).dl_dq i
            + (self.BackwardStateForce q v (self.ForwardStateForce q v)
            ((dt / self.mass * dt) • (self.dl_drhs
            (self.frictionBackward q (self.v_pred q v a f_ext dt) dt
              (self.dl_drhs_friction q_next a (dt / self.mass * dt)
                (self.frictionForward q v a f_ext dt).2 adjoint)
              (0 + (1 / dt) • -dl_dv_next)).dl_drhs_dirichlet))).1 i ∧
        (self.BackwardNewtonSteps sqrt method q v a f_ext dt q_next dl_dq_next dl_dv_next
            abs_tol rel_tol).out.dl_dv i
          = (self.BackwardStateForce q v (self.ForwardStateForce q v)
            ((dt / self.mass * dt) • (self.dl_drhs
            (self.frictionBackward q (self.v_pred q v a f_ext dt) dt
              (self.dl_drhs_friction q_next a (dt / self.mass * dt)
                (self.frictionForward q v a f_ext dt).2 adjoint)
              (0 + (1 / dt) • -dl_dv_next)).dl_drhs_dirichlet))).2 i
            + (self.frictionBackward q (self.v_pred q v a f_ext dt) dt
              (self.dl_drhs_friction q_next a (dt / self.mass * dt)
                (self.frictionForward q v a f_ext dt).2 adjoint)
              (0 + (1 / dt) • -dl_dv_next)).dl_dv_pred i) ∧
      (act_dofs = vertex_dim * vertex_num →
        (self.BackwardNewtonSteps sqrt method q v a f_ext dt q_next dl_dq_next dl_dv_next
            abs_tol rel_tol).out.dl_dq i
          = (self.frictionBackward q (self.v_pred q v a f_ext dt) dt
              (self.dl_drhs_friction q_next a (dt / self.mass * dt)
                (self.frictionForward q v a f_ext dt).2 adjoint)
              (0 + (1 / dt) • -dl_dv_next)).dl_dq i
            + (self.BackwardStateForce q v (self.ForwardStateForce q v)
            ((dt / self.mass * dt) • (self.dl_drhs
            (self.frictionBackward q (self.v_pred q v a f_ext dt) dt
              (self.dl_drhs_friction q_next a (dt / self.mass * dt)
                (self.frictionForward q v a f_ext dt).2 adjoint)
              (0 + (1 / dt) • -dl_dv_next)).dl_drhs_dirichlet))).1 i
            + (self.BackwardStateForce q v (self.ForwardStateForce q v)
            ((dt / self.mass) • (self.frictionBackward q (self.v_pred q v a f_ext dt) dt
              (self.dl_drhs_friction q_next a (dt / self.mass * dt)
                (self.frictionForward q v a f_ext dt).2 adjoint)
              (0 + (1 / dt) • -dl_dv_next)).dl_dv_pred)).1 i
            + (self.PdEnergyForceDifferentialOp q
            ((dt / self.mass) • (self.frictionBackward q (self.v_pred q v a f_ext dt) dt
              (self.dl_drhs_friction q_next a (dt / self.mass * dt)
                (self.frictionForward q v a f_ext dt).2 adjoint)
              (0 + (1 / dt) • -dl_dv_next)).dl_dv_pred) 0) i
            + ((dt / self.mass) • vecMul (self.frictionBackward q (self.v_pred q v a f_ext dt) dt
              (self.dl_drhs_friction q_next a (dt / self.mass * dt)
                (self.frictionForward q v a f_ext dt).2 adjoint)
              (0 + (1 / dt) • -dl_dv_next)).dl_dv_pred
            (ToSparseMatrix (vertex_dim * vertex_num) (vertex_dim * vertex_num)
              (self.ActuationForceDifferential q a).1)) i ∧
        (self.BackwardNewtonSteps sqrt method q v a f_ext dt q_next dl_dq_next dl_dv_next
            abs_tol rel_tol).out.dl_dv i
          = (self.BackwardStateForce q v (self.ForwardStateForce q v)
            ((dt / self.mass * dt) • (self.dl_drhs
            (self.frictionBackward q (self.v_pred q v a f_ext dt) dt
              (self.dl_drhs_friction q_next a (dt / self.mass * dt)
                (self.frictionForward q v a f_ext dt).2 adjoint)
              (0 + (1 / dt) • -dl_dv_next)).dl_drhs_dirichlet))).2 i
            + (self.frictionBackward q (self.v_pred q v a f_ext dt) dt
              (self.dl_drhs_friction q_next a (dt / self.mass * dt)
                (self.frictionForward q v a f_ext dt).2 adjoint)
              (0 + (1 / dt) • -dl_dv_next)).dl_dv_pred i
            + (self.BackwardStateForce q v (self.ForwardStateForce q v)
            ((dt / self.mass) • (self.frictionBackward q (self.v_pred q v a f_ext dt) dt
              (self.dl_drhs_friction q_next a (dt / self.mass * dt)
                (self.frictionForward q v a f_ext dt).2 adjoint)
              (0 + (1 / dt) • -dl_dv_next)).dl_dv_pred)).2 i)) ∧
    (∀ i : Fin (vertex_dim * vertex_num), (self.dirichlet_ i).isSome →
      (∀ idx ∈ self.frictional_boundary_vertex_indices_, i.val / vertex_dim = idx.val →
        (self.ForwardIntersect (segment vertex_dim q idx.val)
            (segment vertex_dim (self.v_pred q v a f_ext dt) idx.val) dt) = none) →
      (self.BackwardNewtonSteps sqrt method q v a f_ext dt q_next dl_dq_next dl_dv_next
            abs_tol rel_tol).out.dl_df_ext i = 0) := by
  have hsolve : (self.solveAdjoint sqrt method abs_tol rel_tol q_next a (dt / self.mass * dt)
        (self.frictionForward q v a f_ext dt).2
        (dl_dq_next_agg dt dl_dq_next dl_dv_next)).1 = ⟨adjoint, true⟩ := by
    rw [SolveResult_eq_of_success _ hs, hx]
  have hext : (self.BackwardNewtonSteps sqrt method q v a f_ext dt q_next dl_dq_next dl_dv_next
      abs_tol rel_tol).out.dl_df_ext
      = 0 + (dt / self.mass * dt) • self.dl_drhs (self.frictionBackward q (self.v_pred q v a f_ext dt) dt
        (self.dl_drhs_friction q_next a (dt / self.mass * dt)
          (self.frictionForward q v a f_ext dt).2 adjoint)
        (0 + (1 / dt) • -dl_dv_next)).dl_drhs_dirichlet
        + (dt / self.mass) • (self.frictionBackward q (self.v_pred q v a f_ext dt) dt
        (self.dl_drhs_friction q_next a (dt / self.mass * dt)
          (self.frictionForward q v a f_ext dt).2 adjoint)
        (0 + (1 / dt) • -dl_dv_next)).dl_dv_pred := by
    unfold BackwardNewtonSteps frictionBackward
    simp only [hsolve, Bool.true_eq_false, if_false]
    split_ifs <;> rfl
  have hzero : ∀ i : Fin (vertex_dim * vertex_num),
      ((self.dirichlet_ i).isSome ∨
        ∃ idx ∈ self.frictional_boundary_vertex_indices_, i.val / vertex_dim = idx.val ∧
          (self.ForwardIntersect (segment vertex_dim q idx.val)
            (segment vertex_dim (self.v_pred q v a f_ext dt) idx.val) dt).isSome) →
      (self.dl_drhs
            (self.frictionBackward q (self.v_pred q v a f_ext dt) dt
              (self.dl_drhs_friction q_next a (dt / self.mass * dt)
                (self.frictionForward q v a f_ext dt).2 adjoint)
              (0 + (1 / dt) • -dl_dv_next)).dl_drhs_dirichlet) i = 0 := by
    intro i hi
    unfold dl_drhs
    by_cases hd : (self.dirichlet_ i).isSome = true
    · simp only [hd, if_true]
    · simp only [hd, Bool.false_eq_true, if_false]
      rcases hi with h | ⟨idx, hidx, hdiv, hsome⟩
      · exact absurd h hd
      · exact foldl_frictionBackwardStep_hit_zero self q (self.v_pred q v a f_ext dt) dt
          (self.dl_drhs_friction q_next a (dt / self.mass * dt)
                (self.frictionForward q v a f_ext dt).2 adjoint) i
          self.frictional_boundary_vertex_indices_ _ idx hidx hsome hdiv
  refine ⟨?_, ?_⟩
  · intro i hi
    have h0 := hzero i hi
    refine ⟨h0, ?_, ?_, ?_⟩
    · rw [hext, Pi.add_apply, Pi.add_apply, Pi.smul_apply, Pi.smul_apply, h0, smul_zero,
        Pi.zero_apply, zero_add, zero_add, smul_eq_mul]
    · intro hsize
      have hq1 : (self.BackwardNewtonSteps sqrt method q v a f_ext dt q_next dl_dq_next dl_dv_next
      abs_tol rel_tol).out.dl_dq
          = (self.frictionBackward q (self.v_pred q v a f_ext dt) dt
        (self.dl_drhs_friction q_next a (dt / self.mass * dt)
          (self.frictionForward q v a f_ext dt).2 adjoint)
        (0 + (1 / dt) • -dl_dv_next)).dl_dq + self.dl_drhs (self.frictionBackward q (self.v_pred q v a f_ext dt) dt
        (self.dl_drhs_friction q_next a (dt / self.mass * dt)
          (self.frictionForward q v a f_ext dt).2 adjoint)
        (0 + (1 / dt) • -dl_dv_next)).dl_drhs_dirichlet
            + (self.BackwardStateForce q v (self.ForwardStateForce q v)
          ((dt / self.mass * dt) • self.dl_drhs (self.frictionBackward q (self.v_pred q v a f_ext dt) dt
        (self.dl_drhs_friction q_next a (dt / self.mass * dt)
          (self.frictionForward q v a f_ext dt).2 adjoint)
        (0 + (1 / dt) • -dl_dv_next)).dl_drhs_dirichlet)).1 := by
        unfold BackwardNewtonSteps frictionBackward
        simp only [hsolve, Bool.true_eq_false, if_false, dif_neg hsize]
      have hv1 : (self.BackwardNewtonSteps sqrt method q v a f_ext dt q_next dl_dq_next dl_dv_next
      abs_tol rel_tol).out.dl_dv
          = 0 + dt • self.dl_drhs (self.frictionBackward q (self.v_pred q v a f_ext dt) dt
        (self.dl_drhs_friction q_next a (dt / self.mass * dt)
          (self.frictionForward q v a f_ext dt).2 adjoint)
        (0 + (1 / dt) • -dl_dv_next)).dl_drhs_dirichlet
            + (self.BackwardStateForce q v (self.ForwardStateForce q v)
          ((dt / self.mass * dt) • self.dl_drhs (self.frictionBackward q (self.v_pred q v a f_ext dt) dt
        (self.dl_drhs_friction q_next a (dt / self.mass * dt)
          (self.frictionForward q v a f_ext dt).2 adjoint)
        (0 + (1 / dt) • -dl_dv_next)).dl_drhs_dirichlet)).2
            + (self.frictionBackward q (self.v_pred q v a f_ext dt) dt
        (self.dl_drhs_friction q_next a (dt / self.mass * dt)
          (self.frictionForward q v a f_ext dt).2 adjoint)
        (0 + (1 / dt) • -dl_dv_next)).dl_dv_pred := by
        unfold BackwardNewtonSteps frictionBackward
        simp only [hsolve, Bool.true_eq_false, if_false, dif_neg hsize]
      constructor
      · rw [hq1, Pi.add_apply, Pi.add_apply, h0, add_zero]
      · rw [hv1, Pi.add_apply, Pi.add_apply, Pi.add_apply, Pi.smul_apply, h0, smul_zero,
          Pi.zero_apply, zero_add, zero_add]
    · intro hsize
      have hq1 : (self.BackwardNewtonSteps sqrt method q v a f_ext dt q_next dl_dq_next dl_dv_next
      abs_tol rel_tol).out.dl_dq
          = (self.frictionBackward q (self.v_pred q v a f_ext dt) dt
        (self.dl_drhs_friction q_next a (dt / self.mass * dt)
          (self.frictionForward q v a f_ext dt).2 adjoint)
        (0 + (1 / dt) • -dl_dv_next)).dl_dq + self.dl_drhs (self.frictionBackward q (self.v_pred q v a f_ext dt) dt
        (self.dl_drhs_friction q_next a (dt / self.mass * dt)
          (self.frictionForward q v a f_ext dt).2 adjoint)
        (0 + (1 / dt) • -dl_dv_next)).dl_drhs_dirichlet
            + (self.BackwardStateForce q v (self.ForwardStateForce q v)
          ((dt / self.mass * dt) • self.dl_drhs (self.frictionBackward q (self.v_pred q v a f_ext dt) dt
        (self.dl_drhs_friction q_next a (dt / self.mass * dt)
          (self.frictionForward q v a f_ext dt).2 adjoint)
        (0 + (1 / dt) • -dl_dv_next)).dl_drhs_dirichlet)).1
            + (self.BackwardStateForce q v (self.ForwardStateForce q v)
          ((dt / self.mass) • (self.frictionBackward q (self.v_pred q v a f_ext dt) dt
        (self.dl_drhs_friction q_next a (dt / self.mass * dt)
          (self.frictionForward q v a f_ext dt).2 adjoint)
        (0 + (1 / dt) • -dl_dv_next)).dl_dv_pred)).1
            + self.PdEnergyForceDifferentialOp q
                ((dt / self.mass) • (self.frictionBackward q (self.v_pred q v a f_ext dt) dt
        (self.dl_drhs_friction q_next a (dt / self.mass * dt)
          (self.frictionForward q v a f_ext dt).2 adjoint)
        (0 + (1 / dt) • -dl_dv_next)).dl_dv_pred) 0
            + (dt / self.mass) • vecMul (self.frictionBackward q (self.v_pred q v a f_ext dt) dt
        (self.dl_drhs_friction q_next a (dt / self.mass * dt)
          (self.frictionForward q v a f_ext dt).2 adjoint)
        (0 + (1 / dt) • -dl_dv_next)).dl_dv_pred
                (ToSparseMatrix (vertex_dim * vertex_num) (vertex_dim * vertex_num)
                  (self.ActuationForceDifferential q a).1) := by
        unfold BackwardNewtonSteps frictionBackward
        simp only [hsolve, Bool.true_eq_false, if_false, dif_pos hsize]
      have hv1 : (self.BackwardNewtonSteps sqrt method q v a f_ext dt q_next dl_dq_next dl_dv_next
      abs_tol rel_tol).out.dl_dv
          = 0 + dt • self.dl_drhs (self.frictionBackward q (self.v_pred q v a f_ext dt) dt
        (self.dl_drhs_friction q_next a (dt / self.mass * dt)
          (self.frictionForward q v a f_ext dt).2 adjoint)
        (0 + (1 / dt) • -dl_dv_next)).dl_drhs_dirichlet
            + (self.BackwardStateForce q v (self.ForwardStateForce q v)
          ((dt / self.mass * dt) • self.dl_drhs (self.frictionBackward q (self.v_pred q v a f_ext dt) dt
        (self.dl_drhs_friction q_next a (dt / self.mass * dt)
          (self.frictionForward q v a f_ext dt).2 adjoint)
        (0 + (1 / dt) • -dl_dv_next)).dl_drhs_dirichlet)).2
            + (self.frictionBackward q (self.v_pred q v a f_ext dt) dt
        (self.dl_drhs_friction q_next a (dt / self.mass * dt)
          (self.frictionForward q v a f_ext dt).2 adjoint)
        (0 + (1 / dt) • -dl_dv_next)).dl_dv_pred
            + (self.BackwardStateForce q v (self.ForwardStateForce q v)
          ((dt / self.mass) • (self.frictionBackward q (self.v_pred q v a f_ext dt) dt
        (self.dl_drhs_friction q_next a (dt / self.mass * dt)
          (self.frictionForward q v a f_ext dt).2 adjoint)
        (0 + (1 / dt) • -dl_dv_next)).dl_dv_pred)).2 := by
        unfold BackwardNewtonSteps frictionBackward
        simp only [hsolve, Bool.true_eq_false, if_false, dif_pos hsize]
      constructor
      · rw [hq1, Pi.add_apply, Pi.add_apply, Pi.add_apply, Pi.add_apply, Pi.add_apply, h0,
          add_zero]
      · rw [hv1, Pi.add_apply, Pi.add_apply, Pi.add_apply, Pi.add_apply, Pi.smul_apply, h0,
          smul_zero, Pi.zero_apply, zero_add, zero_add]
  · intro i hd hnone
    have h0 := hzero i (Or.inl hd)
    have hp : (self.frictionBackward q (self.v_pred q v a f_ext dt) dt
              (self.dl_drhs_friction q_next a (dt / self.mass * dt)
                (self.frictionForward q v a f_ext dt).2 adjoint)
              (0 + (1 / dt) • -dl_dv_next)).dl_dv_pred i = 0 :=
      (foldl_frictionBackwardStep_miss self q (self.v_pred q v a f_ext dt) dt
        (self.dl_drhs_friction q_next a (dt / self.mass * dt)
                (self.frictionForward q v a f_ext dt).2 adjoint) i
        self.frictional_boundary_vertex_indices_ _ hnone).2.2
    rw [hext, Pi.add_apply, Pi.add_apply, Pi.smul_apply, Pi.smul_apply, h0, hp, smul_zero,
      smul_zero, Pi.zero_apply, zero_add, zero_add]
/-- The statement of `BackwardNewton_dirichlet_invariant` for the spring body with the Dirichlet index 7,
whose vertex 0 reaches the floor at time `1/2`, with the direct solver. -/
theorem BackwardNewton_dirichlet_invariant_witness :
    (pinnedSpringBody.dirichlet_ 7).isSome ∧
    (0 : Fin 4) ∈ pinnedSpringBody.frictional_boundary_vertex_indices_ ∧
    (pinnedSpringBody.ForwardIntersect (segment 2 springQ (0 : Fin 4).val)
      (segment 2 (pinnedSpringBody.v_pred springQ springV (0 : Fin 8 → ℚ) 0 1)
        (0 : Fin 4).val) 1).isSome ∧
    ((pinnedSpringBody.solveAdjoint id "newton_cholesky" (1 / 1000000 : ℚ) (1 / 1000000 : ℚ) springQNext (0 : Fin 8 → ℚ) ((1 : ℚ) / pinnedSpringBody.mass * (1 : ℚ))
        (pinnedSpringBody.frictionForward springQ springV (0 : Fin 8 → ℚ) (0 : Fin (2 * 4) → ℚ) (1 : ℚ)).2
        (dl_dq_next_agg (1 : ℚ) springSeed (0 : Fin (2 * 4) → ℚ))).1.success = true) ∧
    ((pinnedSpringBody.solveAdjoint id "newton_cholesky" (1 / 1000000 : ℚ) (1 / 1000000 : ℚ) springQNext (0 : Fin 8 → ℚ) ((1 : ℚ) / pinnedSpringBody.mass * (1 : ℚ))
        (pinnedSpringBody.frictionForward springQ springV (0 : Fin 8 → ℚ) (0 : Fin (2 * 4) → ℚ) (1 : ℚ)).2
        (dl_dq_next_agg (1 : ℚ) springSeed (0 : Fin (2 * 4) → ℚ))).1.x = springSeed) ∧
    (∀ i : Fin (2 * 4),
      ((pinnedSpringBody.dirichlet_ i).isSome ∨
        ∃ idx ∈ pinnedSpringBody.frictional_boundary_vertex_indices_, i.val / 2 = idx.val ∧
          (pinnedSpringBody.ForwardIntersect (segment 2 springQ idx.val)
            (segment 2 (pinnedSpringBody.v_pred springQ springV (0 : Fin 8 → ℚ) (0 : Fin (2 * 4) → ℚ) (1 : ℚ)) idx.val) (1 : ℚ)).isSome) →
      (pinnedSpringBody.dl_drhs
            (pinnedSpringBody.frictionBackward springQ (pinnedSpringBody.v_pred springQ springV (0 : Fin 8 → ℚ) (0 : Fin (2 * 4) → ℚ) (1 : ℚ)) (1 : ℚ)
              (pinnedSpringBody.dl_drhs_friction springQNext (0 : Fin 8 → ℚ) ((1 : ℚ) / pinnedSpringBody.mass * (1 : ℚ))
                (pinnedSpringBody.frictionForward springQ springV (0 : Fin 8 → ℚ) (0 : Fin (2 * 4) → ℚ) (1 : ℚ)).2 springSeed)
              (0 + (1 / (1 : ℚ)) • -(0 : Fin (2 * 4) → ℚ))).dl_drhs_dirichlet) i = 0 ∧
      (pinnedSpringBody.BackwardNewtonSteps id "newton_cholesky" springQ springV (0 : Fin 8 → ℚ) (0 : Fin (2 * 4) → ℚ) (1 : ℚ) springQNext springSeed (0 : Fin (2 * 4) → ℚ)
            (1 / 1000000 : ℚ) (1 / 1000000 : ℚ)).out.dl_df_ext i
        = (1 : ℚ) / pinnedSpringBody.mass * (pinnedSpringBody.frictionBackward springQ (pinnedSpringBody.v_pred springQ springV (0 : Fin 8 → ℚ) (0 : Fin (2 * 4) → ℚ) (1 : ℚ)) (1 : ℚ)
              (pinnedSpringBody.dl_drhs_friction springQNext (0 : Fin 8 → ℚ) ((1 : ℚ) / pinnedSpringBody.mass * (1 : ℚ))
                (pinnedSpringBody.frictionForward springQ springV (0 : Fin 8 → ℚ) (0 : Fin (2 * 4) → ℚ) (1 : ℚ)).2 springSeed)
              (0 + (1 / (1 : ℚ)) • -(0 : Fin (2 * 4) → ℚ))).dl_dv_pred i ∧
      (8 ≠ 2 * 4 →
        (pinnedSpringBody.BackwardNewtonSteps id "newton_cholesky" springQ springV (0 : Fin 8 → ℚ) (0 : Fin (2 * 4) → ℚ) (1 : ℚ) springQNext springSeed (0 : Fin (2 * 4) → ℚ)
            (1 / 1000000 : ℚ) (1 / 1000000 : ℚ)).out.dl_dq i
          = (pinnedSpringBody.frictionBackward springQ (pinnedSpringBody.v_pred springQ springV (0 : Fin 8 → ℚ) (0 : Fin (2 * 4) → ℚ) (1 : ℚ)) (1 : ℚ)
              (pinnedSpringBody.dl_drhs_friction springQNext (0 : Fin 8 → ℚ) ((1 : ℚ) / pinnedSpringBody.mass * (1 : ℚ))
                (pinnedSpringBody.frictionForward springQ springV (0 : Fin 8 → ℚ) (0 : Fin (2 * 4) → ℚ) (1 : ℚ)).2 springSeed)
              (0 + (1 / (1 : ℚ)) • -(0 : Fin (2 * 4) → ℚ))).dl_dq i
            + (pinnedSpringBody.BackwardStateForce springQ springV (pinnedSpringBody.ForwardStateForce springQ springV)
            (((1 : ℚ) / pinnedSpringBody.mass * (1 : ℚ)) • (pinnedSpringBody.dl_drhs
            (pinnedSpringBody.frictionBackward springQ (pinnedSpringBody.v_pred springQ springV (0 : Fin 8 → ℚ) (0 : Fin (2 * 4) → ℚ) (1 : ℚ)) (1 : ℚ)
              (pinnedSpringBody.dl_drhs_friction springQNext (0 : Fin 8 → ℚ) ((1 : ℚ) / pinnedSpringBody.mass * (1 : ℚ))
                (pinnedSpringBody.frictionForward springQ springV (0 : Fin 8 → ℚ) (0 : Fin (2 * 4) → ℚ) (1 : ℚ)).2 springSeed)
              (0 + (1 / (1 : ℚ)) • -(0 : Fin (2 * 4) → ℚ))).dl_drhs_dirichlet))).1 i ∧
        (pinnedSpringBody.BackwardNewtonSteps id "newton_cholesky" springQ springV (0 : Fin 8 → ℚ) (0 : Fin (2 * 4) → ℚ) (1 : ℚ) springQNext springSeed (0 : Fin (2 * 4) → ℚ)
            (1 / 1000000 : ℚ) (1 / 1000000 : ℚ)).out.dl_dv i
          = (pinnedSpringBody.BackwardStateForce springQ springV (pinnedSpringBody.ForwardStateForce springQ springV)
            (((1 : ℚ) / pinnedSpringBody.mass * (1 : ℚ)) • (pinnedSpringBody.dl_drhs
            (pinnedSpringBody.frictionBackward springQ (pinnedSpringBody.v_pred springQ springV (0 : Fin 8 → ℚ) (0 : Fin (2 * 4) → ℚ) (1 : ℚ)) (1 : ℚ)
              (pinnedSpringBody.dl_drhs_friction springQNext (0 : Fin 8 → ℚ) ((1 : ℚ) / pinnedSpringBody.mass * (1 : ℚ))
                (pinnedSpringBody.frictionForward springQ springV (0 : Fin 8 → ℚ) (0 : Fin (2 * 4) → ℚ) (1 : ℚ)).2 springSeed)
              (0 + (1 / (1 : ℚ)) • -(0 : Fin (2 * 4) → ℚ))).dl_drhs_dirichlet))).2 i
            + (pinnedSpringBody.frictionBackward springQ (pinnedSpringBody.v_pred springQ springV (0 : Fin 8 → ℚ) (0 : Fin (2 * 4) → ℚ) (1 : ℚ)) (1 : ℚ)
              (pinnedSpringBody.dl_drhs_friction springQNext (0 : Fin 8 → ℚ) ((1 : ℚ) / pinnedSpringBody.mass * (1 : ℚ))
                (pinnedSpringBody.frictionForward springQ springV (0 : Fin 8 → ℚ) (0 : Fin (2 * 4) → ℚ) (1 : ℚ)).2 springSeed)
              (0 + (1 / (1 : ℚ)) • -(0 : Fin (2 * 4) → ℚ))).dl_dv_pred i) ∧
      (8 = 2 * 4 →
        (pinnedSpringBody.BackwardNewtonSteps id "newton_cholesky" springQ springV (0 : Fin 8 → ℚ) (0 : Fin (2 * 4) → ℚ) (1 : ℚ) springQNext springSeed (0 : Fin (2 * 4) → ℚ)
            (1 / 1000000 : ℚ) (1 / 1000000 : ℚ)).out.dl_dq i
          = (pinnedSpringBody.frictionBackward springQ (pinnedSpringBody.v_pred springQ springV (0 : Fin 8 → ℚ) (0 : Fin (2 * 4) → ℚ) (1 : ℚ)) (1 : ℚ)
              (pinnedSpringBody.dl_drhs_friction springQNext (0 : Fin 8 → ℚ) ((1 : ℚ) / pinnedSpringBody.mass * (1 : ℚ))
                (pinnedSpringBody.frictionForward springQ springV (0 : Fin 8 → ℚ) (0 : Fin (2 * 4) → ℚ) (1 : ℚ)).2 springSeed)
              (0 + (1 / (1 : ℚ)) • -(0 : Fin (2 * 4) → ℚ))).dl_dq i
            + (pinnedSpringBody.BackwardStateForce springQ springV (pinnedSpringBody.ForwardStateForce springQ springV)
            (((1 : ℚ) / pinnedSpringBody.mass * (1 : ℚ)) • (pinnedSpringBody.dl_drhs
            (pinnedSpringBody.frictionBackward springQ (pinnedSpringBody.v_pred springQ springV (0 : Fin 8 → ℚ) (0 : Fin (2 * 4) → ℚ) (1 : ℚ)) (1 : ℚ)
              (pinnedSpringBody.dl_drhs_friction springQNext (0 : Fin 8 → ℚ) ((1 : ℚ) / pinnedSpringBody.mass * (1 : ℚ))
                (pinnedSpringBody.frictionForward springQ springV (0 : Fin 8 → ℚ) (0 : Fin (2 * 4) → ℚ) (1 : ℚ)).2 springSeed)
              (0 + (1 / (1 : ℚ)) • -(0 : Fin (2 * 4) → ℚ))).dl_drhs_dirichlet))).1 i
            + (pinnedSpringBody.BackwardStateForce springQ springV (pinnedSpringBody.ForwardStateForce springQ springV)
            (((1 : ℚ) / pinnedSpringBody.mass) • (pinnedSpringBody.frictionBackward springQ (pinnedSpringBody.v_pred springQ springV (0 : Fin 8 → ℚ) (0 : Fin (2 * 4) → ℚ) (1 : ℚ)) (1 : ℚ)
              (pinnedSpringBody.dl_drhs_friction springQNext (0 : Fin 8 → ℚ) ((1 : ℚ) / pinnedSpringBody.mass * (1 : ℚ))
                (pinnedSpringBody.frictionForward springQ springV (0 : Fin 8 → ℚ) (0 : Fin (2 * 4) → ℚ) (1 : ℚ)).2 springSeed)
              (0 + (1 / (1 : ℚ)) • -(0 : Fin (2 * 4) → ℚ))).dl_dv_pred)).1 i
            + (pinnedSpringBody.PdEnergyForceDifferentialOp springQ
            (((1 : ℚ) / pinnedSpringBody.mass) • (pinnedSpringBody.frictionBackward springQ (pinnedSpringBody.v_pred springQ springV (0 : Fin 8 → ℚ) (0 : Fin (2 * 4) → ℚ) (1 : ℚ)) (1 : ℚ)
              (pinnedSpringBody.dl_drhs_friction springQNext (0 : Fin 8 → ℚ) ((1 : ℚ) / pinnedSpringBody.mass * (1 : ℚ))
                (pinnedSpringBody.frictionForward springQ springV (0 : Fin 8 → ℚ) (0 : Fin (2 * 4) → ℚ) (1 : ℚ)).2 springSeed)
              (0 + (1 / (1 : ℚ)) • -(0 : Fin (2 * 4) → ℚ))).dl_dv_pred) 0) i
            + (((1 : ℚ) / pinnedSpringBody.mass) • vecMul (pinnedSpringBody.frictionBackward springQ (pinnedSpringBody.v_pred springQ springV (0 : Fin 8 → ℚ) (0 : Fin (2 * 4) → ℚ) (1 : ℚ)) (1 : ℚ)
              (pinnedSpringBody.dl_drhs_friction springQNext (0 : Fin 8 → ℚ) ((1 : ℚ) / pinnedSpringBody.mass * (1 : ℚ))
                (pinnedSpringBody.frictionForward springQ springV (0 : Fin 8 → ℚ) (0 : Fin (2 * 4) → ℚ) (1 : ℚ)).2 springSeed)
              (0 + (1 / (1 : ℚ)) • -(0 : Fin (2 * 4) → ℚ))).dl_dv_pred
            (ToSparseMatrix (2 * 4) (2 * 4)
              (pinnedSpringBody.ActuationForceDifferential springQ (0 : Fin 8 → ℚ)).1)) i ∧
        (pinnedSpringBody.BackwardNewtonSteps id "newton_cholesky" springQ springV (0 : Fin 8 → ℚ) (0 : Fin (2 * 4) → ℚ) (1 : ℚ) springQNext springSeed (0 : Fin (2 * 4) → ℚ)
            (1 / 1000000 : ℚ) (1 / 1000000 : ℚ)).out.dl_dv i
          = (pinnedSpringBody.BackwardStateForce springQ springV (pinnedSpringBody.ForwardStateForce springQ springV)
            (((1 : ℚ) / pinnedSpringBody.mass * (1 : ℚ)) • (pinnedSpringBody.dl_drhs
            (pinnedSpringBody.frictionBackward springQ (pinnedSpringBody.v_pred springQ springV (0 : Fin 8 → ℚ) (0 : Fin (2 * 4) → ℚ) (1 : ℚ)) (1 : ℚ)
              (pinnedSpringBody.dl_drhs_friction springQNext (0 : Fin 8 → ℚ) ((1 : ℚ) / pinnedSpringBody.mass * (1 : ℚ))
                (pinnedSpringBody.frictionForward springQ springV (0 : Fin 8 → ℚ) (0 : Fin (2 * 4) → ℚ) (1 : ℚ)).2 springSeed)
              (0 + (1 / (1 : ℚ)) • -(0 : Fin (2 * 4) → ℚ))).dl_drhs_dirichlet))).2 i
            + (pinnedSpringBody.frictionBackward springQ (pinnedSpringBody.v_pred springQ springV (0 : Fin 8 → ℚ) (0 : Fin (2 * 4) → ℚ) (1 : ℚ)) (1 : ℚ)
              (pinnedSpringBody.dl_drhs_friction springQNext (0 : Fin 8 → ℚ) ((1 : ℚ) / pinnedSpringBody.mass * (1 : ℚ))
                (pinnedSpringBody.frictionForward springQ springV (0 : Fin 8 → ℚ) (0 : Fin (2 * 4) → ℚ) (1 : ℚ)).2 springSeed)
              (0 + (1 / (1 : ℚ)) • -(0 : Fin (2 * 4) → ℚ))).dl_dv_pred i
            + (pinnedSpringBody.BackwardStateForce springQ springV (pinnedSpringBody.ForwardStateForce springQ springV)
            (((1 : ℚ) / pinnedSpringBody.mass) • (pinnedSpringBody.frictionBackward springQ (pinnedSpringBody.v_pred springQ springV (0 : Fin 8 → ℚ) (0 : Fin (2 * 4) → ℚ) (1 : ℚ)) (1 : ℚ)
              (pinnedSpringBody.dl_drhs_friction springQNext (0 : Fin 8 → ℚ) ((1 : ℚ) / pinnedSpringBody.mass * (1 : ℚ))
                (pinnedSpringBody.frictionForward springQ springV (0 : Fin 8 → ℚ) (0 : Fin (2 * 4) → ℚ) (1 : ℚ)).2 springSeed)
              (0 + (1 / (1 : ℚ)) • -(0 : Fin (2 * 4) → ℚ))).dl_dv_pred)).2 i)) ∧
    (∀ i : Fin (2 * 4), (pinnedSpringBody.dirichlet_ i).isSome →
      (∀ idx ∈ pinnedSpringBody.frictional_boundary_vertex_indices_, i.val / 2 = idx.val →
        (pinnedSpringBody.ForwardIntersect (segment 2 springQ idx.val)
            (segment 2 (pinnedSpringBody.v_pred springQ springV (0 : Fin 8 → ℚ) (0 : Fin (2 * 4) → ℚ) (1 : ℚ)) idx.val) (1 : ℚ)) = none) →
      (pinnedSpringBody.BackwardNewtonSteps id "newton_cholesky" springQ springV (0 : Fin 8 → ℚ) (0 : Fin (2 * 4) → ℚ) (1 : ℚ) springQNext springSeed (0 : Fin (2 * 4) → ℚ)
            (1 / 1000000 : ℚ) (1 / 1000000 : ℚ)).out.dl_df_ext i = 0) :=
  ⟨rfl, List.mem_singleton_self _, (by decide!), rfl, (by decide!),
    BackwardNewton_dirichlet_invariant pinnedSpringBody id "newton_cholesky" springQ springV
      0 0 1 springQNext springSeed 0 (1 / 1000000) (1 / 1000000) springSeed rfl (by decide!)⟩

end Deformable

namespace Deformable

/-- Claim C14 at a failing input, the call on the spring body with the seeds
`dl_dq_next = springSeed` and `dl_dv_next = 0`. The a-Jacobian of the actuation force of this
body is empty at `q` and at `q_next`, so every product with it is zero and the stage described
by the claim leaves `dl_da = 0`. The solve returns `adjoint = springSeed`, the friction reversal
hands `dl_dv_pred = (1/2, 1/4, 0, ..., 0)` and `dl_dq = (1, 1/2, 0, ..., 0)` to the later stages,
`dl_drhs` is zero, and `(dt / m) ElasticForceDifferential(q, dl_dv_pred)` is
`(-1/2, -1/4, 0, ..., 0)`. For either method the call returns that vector in `dl_da`, and
returns `dl_dq = (1, 1/2, 0, ..., 0)`, to which the elastic product has not been added. -/
theorem BackwardNewton_predicted_velocity_reversal :
    (springBody.ActuationForceDifferential springQ 0).2 = [] ∧
    (springBody.ActuationForceDifferential springQNext 0).2 = [] ∧
    (∀ x : Fin (2 * 4) → ℚ,
      vecMul x (ToSparseMatrix (2 * 4) 8 ([] : SparseMatrixElements ℚ)) = 0) ∧
    (springBody.solveAdjoint id "newton_pcg" (1 / 1000000) (1 / 1000000) springQNext 0
        (1 / springBody.mass * 1) (springBody.frictionForward springQ springV 0 0 1).2
        (dl_dq_next_agg 1 springSeed 0)).1.x = springSeed ∧
    (springBody.solveAdjoint id "newton_cholesky" (1 / 1000000) (1 / 1000000) springQNext 0
        (1 / springBody.mass * 1) (springBody.frictionForward springQ springV 0 0 1).2
        (dl_dq_next_agg 1 springSeed 0)).1.x = springSeed ∧
    springBody.dl_drhs_friction springQNext 0 (1 / springBody.mass * 1)
        (springBody.frictionForward springQ springV 0 0 1).2 springSeed = springSeed ∧
    (springBody.frictional_boundary_vertex_indices_.foldl
        (springBody.frictionBackwardStep springQ (springBody.v_pred springQ springV 0 0 1) 1
          springSeed)
        { dl_drhs_dirichlet := springSeed, dl_dq := 0 + (1 / (1 : ℚ)) • -0,
          dl_dv_pred := 0 }).dl_dv_pred = ![1 / 2, 1 / 4, 0, 0, 0, 0, 0, 0] ∧
    (springBody.frictional_boundary_vertex_indices_.foldl
        (springBody.frictionBackwardStep springQ (springBody.v_pred springQ springV 0 0 1) 1
          springSeed)
        { dl_drhs_dirichlet := springSeed, dl_dq := 0 + (1 / (1 : ℚ)) • -0,
          dl_dv_pred := 0 }).dl_dq = ![1, 1 / 2, 0, 0, 0, 0, 0, 0] ∧
    springBody.dl_drhs
      (springBody.frictional_boundary_vertex_indices_.foldl
        (springBody.frictionBackwardStep springQ (springBody.v_pred springQ springV 0 0 1) 1
          springSeed)
        { dl_drhs_dirichlet := springSeed, dl_dq := 0 + (1 / (1 : ℚ)) • -0,
          dl_dv_pred := 0 }).dl_drhs_dirichlet = 0 ∧
    ((1 : ℚ) / springBody.mass)
        • springBody.ElasticForceDifferential springQ ![1 / 2, 1 / 4, 0, 0, 0, 0, 0, 0]
      = ![-1 / 2, -1 / 4, 0, 0, 0, 0, 0, 0] ∧
    (springBody.BackwardNewton id "newton_pcg" springQ springV 0 0 1 springQNext springVNext
        springSeed 0 fullOptions (zeroOutputs 8 8 0)).out.dl_da
      = ![-1 / 2, -1 / 4, 0, 0, 0, 0, 0, 0] ∧
    (springBody.BackwardNewton id "newton_cholesky" springQ springV 0 0 1 springQNext
        springVNext springSeed 0 fullOptions (zeroOutputs 8 8 0)).out.dl_da
      = ![-1 / 2, -1 / 4, 0, 0, 0, 0, 0, 0] ∧
    (springBody.BackwardNewton id "newton_pcg" springQ springV 0 0 1 springQNext springVNext
        springSeed 0 fullOptions (zeroOutputs 8 8 0)).out.dl_dq
      = ![1, 1 / 2, 0, 0, 0, 0, 0, 0] ∧
    (springBody.BackwardNewton id "newton_cholesky" springQ springV 0 0 1 springQNext
        springVNext springSeed 0 fullOptions (zeroOutputs 8 8 0)).out.dl_dq
      = ![1, 1 / 2, 0, 0, 0, 0, 0, 0] := by
  refine ⟨rfl, rfl, ?_, ?_, ?_, ?_, ?_, ?_, ?_, ?_, ?_, ?_, ?_, ?_⟩
  · intro x
    funext j
    simp [vecMul, dotProduct, ToSparseMatrix]
  all_goals decide!

end Deformable

namespace Deformable

variable {K : Type} [LinearOrderedField K] {vertex_dim vertex_num act_dofs w_dofs : ℕ}

/-- Claim C18 at a failing input, the call on a force-free body with eight degrees of freedom
and nine actuation signals: every force evaluator and differential returns zero, the Newton
matrix is the identity, both solvers return the right-hand side, no vertex is on a frictional
boundary, `(forceFreeQNext, forceFreeVNext)` is the result of the step from `springQ` with
velocity `springV`, and every precondition holds. For either method the call does not return
the gradient: it ends at line 157, where `ElasticForceDifferential(q, dl_dv_pred) * hm`, a vector
of eight entries, is added to `dl_da`, which has nine. -/
theorem BackwardNewton_force_free_size_mismatch :
    forceFreeBody.IsForwardStep springQ springV 0 0 1 forceFreeQNext forceFreeVNext ∧
    (forceFreeBody.BackwardNewton id "newton_pcg" springQ springV 0 0 1 forceFreeQNext
        forceFreeVNext forceFreeSeedQ forceFreeSeedV fullOptions (zeroOutputs 8 9 0)).raised
      = some Error.eigenSizeMismatch ∧
    (forceFreeBody.BackwardNewton id "newton_cholesky" springQ springV 0 0 1 forceFreeQNext
        forceFreeVNext forceFreeSeedQ forceFreeSeedV fullOptions (zeroOutputs 8 9 0)).raised
      = some Error.eigenSizeMismatch := by
  refine ⟨?_, ?_, ?_⟩
  · unfold IsForwardStep
    decide!
  · decide!
  · decide!

end Deformable

namespace Deformable

variable {K : Type} [LinearOrderedField K] {vertex_dim vertex_num act_dofs w_dofs : ℕ}

/-- An empty list of triplets assembles to the zero matrix. -/
theorem ToSparseMatrix_nil (rows cols : ℕ) :
    ToSparseMatrix rows cols ([] : SparseMatrixElements K) = 0 := by
  ext i j
  simp [ToSparseMatrix]

/-- The run past the checks on a force-free body without frictional-boundary vertices whose
number of actuation signals is its number of degrees of freedom. -/
theorem BackwardNewtonSteps_force_free
    (self : Deformable K vertex_dim vertex_num (vertex_dim * vertex_num) w_dofs) (sqrt : K → K)
    (method : String) (q v : Fin (vertex_dim * vertex_num) → K)
    (a : Fin (vertex_dim * vertex_num) → K)
    (f_ext : Fin (vertex_dim * vertex_num) → K) (dt : K)
    (q_next dl_dq_next dl_dv_next : Fin (vertex_dim * vertex_num) → K) (abs_tol rel_tol : K)
    (hlist : self.frictional_boundary_vertex_indices_ = [])
    (hcg : ∀ tol op b, self.ConjugateGradient tol op b = ⟨b, true⟩)
    (hch : ∀ op b, self.SimplicialLDLT op b = ⟨b, true⟩)
    (hop : ∀ h2m d x, self.NewtonMatrixOp q_next a h2m d x = x)
    (hbs : ∀ f x, self.BackwardStateForce q v f x = (0, 0))
    (hel : ∀ x, self.ElasticForceDifferential q x = 0)
    (hpd : ∀ x w, self.PdEnergyForceDifferentialOp q x w = 0)
    (hpdw1 : (self.PdEnergyForceDifferential q_next false true).2 = [])
    (hpdw2 : (self.PdEnergyForceDifferential q false true).2 = [])
    (hact1 : self.ActuationForceDifferential q_next a = ([], []))
    (hact2 : self.ActuationForceDifferential q a = ([], [])) :
    self.BackwardNewtonSteps sqrt method q v a f_ext dt q_next dl_dq_next dl_dv_next
        abs_tol rel_tol
      = ⟨{ dl_dq := (1 / dt) • -dl_dv_next
            + self.dl_drhs (dl_dq_next_agg dt dl_dq_next dl_dv_next)
           dl_dv := dt • self.dl_drhs (dl_dq_next_agg dt dl_dq_next dl_dv_next)
           dl_da := 0
           dl_df_ext := (dt / self.mass * dt)
            • self.dl_drhs (dl_dq_next_agg dt dl_dq_next dl_dv_next)
           dl_dw := 0 }, none⟩ := by
  have hsol : ∀ d b, (self.solveAdjoint sqrt method abs_tol rel_tol q_next a
      (dt / self.mass * dt) d b).1 = ⟨b, true⟩ := by
    intro d b
    unfold solveAdjoint
    split_ifs
    · exact hcg _ _ _
    · exact hch _ _
  have hdrf : ∀ d x, self.dl_drhs_friction q_next a (dt / self.mass * dt) d x = x := by
    intro d x
    funext i
    unfold dl_drhs_friction
    simp only [hop, Pi.neg_apply, adjoint_with_zero_apply]
    split_ifs <;> simp
  unfold BackwardNewtonSteps
  simp only [hsol, Bool.true_eq_false, if_false, dite_true, hdrf, hlist, List.foldl_nil,
    hbs, hel, hpd, hpdw1, hpdw2, hact1, hact2, ToSparseMatrix_nil, Matrix.vecMul_zero,
    smul_zero, add_zero, zero_add, Fin.cast_eq_self]

/-- When the number of actuation signals equals the number of degrees of freedom and `dt` is not
zero, the call on a force-free body without frictional-boundary vertices completes and returns
the gradient of the step `q_next = q + dt v + (dt^2 / m) f_ext`, overwritten on the Dirichlet
set, and `v_next = (q_next - q) / dt`. -/
theorem BackwardNewton_force_free_of_size_eq
    (self : Deformable K vertex_dim vertex_num act_dofs w_dofs) (sqrt : K → K)
    (method : String) (q v : Fin (vertex_dim * vertex_num) → K) (a : Fin act_dofs → K)
    (f_ext : Fin (vertex_dim * vertex_num) → K) (dt : K)
    (q_next v_next dl_dq_next dl_dv_next : Fin (vertex_dim * vertex_num) → K)
    (options : String → Option K)
    (out : AdjointOutputs K (vertex_dim * vertex_num) act_dofs w_dofs)
    (abs_tol rel_tol thread_ct : K)
    (hm : method = "newton_pcg" ∨ method = "newton_cholesky")
    (ha : options "abs_tol" = some abs_tol) (hr : options "rel_tol" = some rel_tol)
    (ht : options "thread_ct" = some thread_ct)
    (hq : ∀ i x, self.dirichlet_ i = some x → q_next i = x)
    (hsize : act_dofs = vertex_dim * vertex_num) (hdt : dt ≠ 0)
    (hlist : self.frictional_boundary_vertex_indices_ = [])
    (hcg : ∀ tol op b, self.ConjugateGradient tol op b = ⟨b, true⟩)
    (hch : ∀ op b, self.SimplicialLDLT op b = ⟨b, true⟩)
    (hop : ∀ h2m d x, self.NewtonMatrixOp q_next a h2m d x = x)
    (hbs : ∀ f x, self.BackwardStateForce q v f x = (0, 0))
    (hel : ∀ x, self.ElasticForceDifferential q x = 0)
    (hpd : ∀ x w, self.PdEnergyForceDifferentialOp q x w = 0)
    (hpdw1 : (self.PdEnergyForceDifferential q_next false true).2 = [])
    (hpdw2 : (self.PdEnergyForceDifferential q false true).2 = [])
    (hact1 : self.ActuationForceDifferential q_next a = ([], []))
    (hact2 : self.ActuationForceDifferential q a = ([], [])) :
    (self.BackwardNewton sqrt method q v a f_ext dt q_next v_next dl_dq_next dl_dv_next
        options out).raised = none ∧
    (∀ i, (self.dirichlet_ i).isSome = false →
      (self.BackwardNewton sqrt method q v a f_ext dt q_next v_next dl_dq_next dl_dv_next
          options out).out.dl_dq i = dl_dq_next i ∧
      (self.BackwardNewton sqrt method q v a f_ext dt q_next v_next dl_dq_next dl_dv_next
          options out).out.dl_dv i = dt * dl_dq_next i + dl_dv_next i ∧
      (self.BackwardNewton sqrt method q v a f_ext dt q_next v_next dl_dq_next dl_dv_next
          options out).out.dl_df_ext i
        = dt ^ 2 / self.mass * dl_dq_next i + dt / self.mass * dl_dv_next i) ∧
    (∀ i, (self.dirichlet_ i).isSome →
      (self.BackwardNewton sqrt method q v a f_ext dt q_next v_next dl_dq_next dl_dv_next
          options out).out.dl_dq i = -dl_dv_next i / dt ∧
      (self.BackwardNewton sqrt method q v a f_ext dt q_next v_next dl_dq_next dl_dv_next
          options out).out.dl_dv i = 0 ∧
      (self.BackwardNewton sqrt method q v a f_ext dt q_next v_next dl_dq_next dl_dv_next
          options out).out.dl_df_ext i = 0) ∧
    (self.BackwardNewton sqrt method q v a f_ext dt q_next v_next dl_dq_next dl_dv_next
        options out).out.dl_da = 0 ∧
    (self.BackwardNewton sqrt method q v a f_ext dt q_next v_next dl_dq_next dl_dv_next
        options out).out.dl_dw = 0 := by
  subst hsize
  rw [BackwardNewton_of_preconditions self sqrt method q v a f_ext dt q_next v_next
    dl_dq_next dl_dv_next options out abs_tol rel_tol thread_ct hm ha hr ht hq,
    BackwardNewtonSteps_force_free self sqrt method q v a f_ext dt q_next dl_dq_next
      dl_dv_next abs_tol rel_tol hlist hcg hch hop hbs hel hpd hpdw1 hpdw2 hact1 hact2]
  have h1 : dt * (1 / dt) = 1 := mul_one_div_cancel hdt
  refine ⟨rfl, ?_, ?_, rfl, rfl⟩
  · intro i hi
    simp only [dl_drhs, dl_dq_next_agg, hi, Bool.false_eq_true, if_false, Pi.add_apply,
      Pi.smul_apply, Pi.neg_apply, smul_eq_mul]
    refine ⟨by ring, ?_, ?_⟩
    · linear_combination dl_dv_next i * h1
    · linear_combination (dt / self.mass * dl_dv_next i) * h1
  · intro i hi
    simp only [dl_drhs, hi, if_true, Pi.add_apply, Pi.smul_apply, Pi.neg_apply, smul_eq_mul,
      add_zero, mul_zero, and_true]
    ring

/-- The force-free body with eight actuation signals: the call completes and returns the
gradient of the force-free step. -/
theorem BackwardNewton_force_free_eight_signals :
    (forceFreeBodyEightSignals.BackwardNewton id "newton_cholesky" springQ springV 0 0 1
        forceFreeQNext forceFreeVNext forceFreeSeedQ forceFreeSeedV fullOptions
        (zeroOutputs 8 8 0)).raised = none ∧
    (forceFreeBodyEightSignals.BackwardNewton id "newton_cholesky" springQ springV 0 0 1
        forceFreeQNext forceFreeVNext forceFreeSeedQ forceFreeSeedV fullOptions
        (zeroOutputs 8 8 0)).out.dl_dq = ![-4, 2, 3, 0, 0, 0, 0, 0] ∧
    (forceFreeBodyEightSignals.BackwardNewton id "newton_cholesky" springQ springV 0 0 1
        forceFreeQNext forceFreeVNext forceFreeSeedQ forceFreeSeedV fullOptions
        (zeroOutputs 8 8 0)).out.dl_dv = ![0, 7, 3, 6, 0, 0, 0, 0] ∧
    (forceFreeBodyEightSignals.BackwardNewton id "newton_cholesky" springQ springV 0 0 1
        forceFreeQNext forceFreeVNext forceFreeSeedQ forceFreeSeedV fullOptions
        (zeroOutputs 8 8 0)).out.dl_df_ext = ![0, 7, 3, 6, 0, 0, 0, 0] ∧
    (forceFreeBodyEightSignals.BackwardNewton id "newton_cholesky" springQ springV 0 0 1
        forceFreeQNext forceFreeVNext forceFreeSeedQ forceFreeSeedV fullOptions
        (zeroOutputs 8 8 0)).out.dl_da = 0 := by
  decide!

end Deformable

end DiffPd
